import Mathlib

/-!
# lbtk: the splice-based TCP proxy (`proxy-tcp-splice.c`)

A shallow embedding of the tunnel / channel state machine of
`src/proxy-tcp-splice.c` together with the pool helpers of `src/utils.h`.

* `uint32_t` words (`flags`, `events`) are natural numbers; the C operator `~x`
  on such a word is `NOT32 x`.
* `unsigned int` counters wrap modulo `2 ^ 32`.
* The world holds the proxy, one tunnel (the tunnel the operation at hand works
  on: the channel operations never touch another tunnel), the global lists and
  counters, the pending results of the system calls the code will issue
  (`splices`, `pipe2s`) and a trace of the system calls it has issued.
* An operation that issues `splice` or `pipe2` returns `none` when the pending
  results are exhausted, or when the C code would dereference a null pointer.
* The active lists are intrusive. A list is walked with `walk` along `next_of`, which
  reads the `next` field of the two channels of the tunnel from the world and the links
  of the channels of the other tunnels from a function `others`.
-/

namespace Lbtk

/-! ## Constants -/

def FLAG_SHUT_SENT : Nat := 0x0001
def FLAG_SHUT_RECV : Nat := 0x0002
def FLAG_SHUT_BOTH : Nat := FLAG_SHUT_SENT ||| FLAG_SHUT_RECV
def FLAG_MONITORED : Nat := 0x0004
def FLAG_ACTIVE : Nat := 0x0008
def FLAG_LISTED : Nat := FLAG_MONITORED ||| FLAG_ACTIVE
def FLAG_ERRONEOUS : Nat := 0x0020
def FLAG_ACTIVITY : Nat := FLAG_ERRONEOUS
def FLAG_REGISTERED : Nat := 0x0040

/-- The value of `x - 1` for an `unsigned int` x (`x--`, `--x`). -/
def dec32 (x : Nat) : Nat := if x = 0 then 4294967295 else x - 1

/-- The value of `x + 1` for an `unsigned int` x (`x++`, `++x`). -/
def inc32 (x : Nat) : Nat := if x = 4294967295 then 0 else x + 1

/-- The value of `x + 1` for a `uint64_t` x (`x++`). -/
def inc64 (x : Nat) : Nat := if x = 18446744073709551615 then 0 else x + 1

/-- The C complement `~x` of a `uint32_t` word. -/
def NOT32 (x : Nat) : Nat := 0xFFFFFFFF ^^^ x

/-- The macro `SETONE(F,S,O)`: `((F)&(~(S)))|(O)`. -/
def SETONE (F S O : Nat) : Nat := (F &&& NOT32 S) ||| O
/-- The macro `SETLIST(F,L)`. -/
def SETLIST (F L : Nat) : Nat := SETONE F FLAG_LISTED L
/-- The macro `SETMON(F)`. -/
def SETMON (F : Nat) : Nat := SETLIST F FLAG_MONITORED
/-- The macro `SETACT(F)`. -/
def SETACT (F : Nat) : Nat := SETLIST F FLAG_ACTIVE

/-- The macro `ISANY(F,O)`, as a C truth value. -/
def ISANY (F O : Nat) : Bool := F &&& O != 0
/-- The macro `ISALL(F,O)`. -/
def ISALL (F O : Nat) : Bool := F &&& O == O

/-- Values of `<sys/epoll.h>` on Linux. -/
def EPOLLIN : Nat := 0x001
def EPOLLOUT : Nat := 0x004
def EPOLLERR : Nat := 0x008
def EPOLLHUP : Nat := 0x010
def EPOLLONESHOT : Nat := 0x40000000
def EPOLLET : Nat := 0x80000000
/-- The macro `BOTH`: `(EPOLLIN|EPOLLOUT)`. -/
def BOTH : Nat := EPOLLIN ||| EPOLLOUT

/-- Value of `EAGAIN` in `<errno.h>` on Linux. -/
def EAGAIN : Int := 11

/-- From `utils.h`. -/
def PIPE_SIZE : Int := 524288

/-- The enum of `channel_s.status`; `0` is the unset value `tunnel_init` writes. -/
def CONNECTING : Nat := 1
def CONNECTED : Nat := 2

/-! ## Data model -/

/-- Which channel of the tunnel: `&t->front` or `&t->back`. -/
inductive Side where
  | front
  | back
deriving DecidableEq, Repr

/-- The other channel of the same tunnel (`c->peer`, as set by `tunnel_init`). -/
def Side.peer : Side → Side
  | .front => .back
  | .back => .front

/-- A pointer to a channel: the address of its tunnel and the side. -/
structure chan_ptr where
  tunnel : Nat
  side : Side
deriving DecidableEq, Repr

/-- The struct `pipe_s`; its `next` link is the position in `IDLE_pipe_t`. -/
structure pipe_t where
  load : Int
  fd0 : Int
  fd1 : Int
deriving DecidableEq, Repr

/-- The struct `channel_s` (`tunnel`, `peer`, `which`, `type` are fixed by the position). -/
structure channel_t where
  next : Option chan_ptr
  flags : Nat
  events : Nat
  status : Nat
  tosend : Option pipe_t
  sock : Int
deriving DecidableEq, Repr

/-- The struct `proxy_s`; there is one proxy, so a pointer to it is `()`. -/
structure proxy_t where
  next : Option Unit
  flags : Nat
  events : Nat
  count : Nat
  max : Nat
  sock_front : Int
  nn_feed : Int
deriving DecidableEq, Repr

/-- The struct `tunnel_s`, with the address the tunnel lives at. -/
structure tunnel_t where
  addr : Nat
  id : Nat
  front : channel_t
  back : channel_t
deriving DecidableEq, Repr

/-- The result of one `splice` call: the return code and `errno`. -/
structure splice_rc where
  rc : Int
  errno : Int
deriving DecidableEq, Repr

/-- The result of one `pipe2` call: the return code and the two descriptors. -/
structure pipe2_rc where
  rc : Int
  fd0 : Int
  fd1 : Int
deriving DecidableEq, Repr

/-- Why `tunnel_abort` was called (the message it logs). -/
inductive abort_msg where
  | channel_error
  | peer_error
  | backend_starvation
  | url_too_big
  | bad_url
  | socket_error
  | connect_error
deriving DecidableEq, Repr

/-- The `op` argument of `epoll_ctl`. -/
inductive epoll_op where
  | EPOLL_CTL_ADD
  | EPOLL_CTL_DEL
  | EPOLL_CTL_MOD
deriving DecidableEq, Repr

/-- A system call (or log line) issued by the code, in the order of the trace. -/
inductive sys_call where
  | close (fd : Int)
  | shutdown_wr (fd : Int)
  | epoll_ctl (op : epoll_op) (fd : Int) (events : Nat)
  | splice (fd_in fd_out : Int) (len : Int) (rc : Int)
  | pipe2 (rc : Int)
  | sockaddr_init (url : List Nat)
  | log_abort (msg : abort_msg)
deriving DecidableEq, Repr

/-- The program state. -/
structure World where
  proxy : proxy_t
  t : tunnel_t
  IDLE_pipe_t : List pipe_t
  IDLE_tunnel_t : List Nat
  DIRTY_tunnel_t : List Nat
  ACTIVE_channel_t : Option chan_ptr
  ACTIVE_proxy_t : Option Unit
  count_epoll : Int
  next_tunnel_id : Nat
  splices : List splice_rc
  pipe2s : List pipe2_rc
  trace : List sys_call
deriving DecidableEq, Repr

/-- The channel `&t->front` or `&t->back`. -/
def tunnel_t.chan (t : tunnel_t) : Side → channel_t
  | .front => t.front
  | .back => t.back

/-- Store a channel back into the tunnel. -/
def tunnel_t.set (t : tunnel_t) (s : Side) (c : channel_t) : tunnel_t :=
  match s with
  | .front => { t with front := c }
  | .back => { t with back := c }

/-- The channel `&w.t->front` or `&w.t->back`. -/
def World.chan (w : World) (s : Side) : channel_t := w.t.chan s

/-- Store a channel back into the tunnel of the world. -/
def World.set_chan (w : World) (s : Side) (c : channel_t) : World :=
  { w with t := w.t.set s c }

/-- The pointer value of a channel of the tunnel. -/
def World.ptr (w : World) (s : Side) : chan_ptr := ⟨w.t.addr, s⟩

/-- Append a system call to the trace. -/
def World.emit (w : World) (e : sys_call) : World :=
  { w with trace := w.trace ++ [e] }

/-! ## Pipes -/

/-- The function `pipe_release (pipe_t ** pp)`: returns the world and the new `*pp`. -/
def pipe_release (w : World) (pp : Option pipe_t) : World × Option pipe_t :=
  match pp with
  | none => (w, none)
  | some p =>
    if p.load > 0 then
      let w1 := (w.emit (.close p.fd0)).emit (.close p.fd1)
      ({ w1 with IDLE_pipe_t := { load := 0, fd0 := -1, fd1 := -1 } :: w1.IDLE_pipe_t }, none)
    else
      ({ w with IDLE_pipe_t := p :: w.IDLE_pipe_t }, none)

/-- The function `acquire_pipe_t` of `ACQUIRE_STRUCT_DECL`: pop `IDLE_pipe_t`, or a
zeroed fresh object. -/
def acquire_pipe_t (w : World) : World × pipe_t :=
  match w.IDLE_pipe_t with
  | [] => (w, { load := 0, fd0 := 0, fd1 := 0 })
  | p :: rest => ({ w with IDLE_pipe_t := rest }, p)

/-- The function `pipe_init`: `none` when `pipe2` has no pending result, otherwise the
world and the pipe (or `NULL`). -/
def pipe_init (w : World) : Option (World × Option pipe_t) :=
  let a := acquire_pipe_t w
  if a.2.fd0 ≤ 0 ∧ a.2.fd1 ≤ 0 then
    match a.1.pipe2s with
    | [] => none
    | r :: rest =>
      let w2 := { a.1 with pipe2s := rest }.emit (.pipe2 r.rc)
      if 0 > r.rc then
        some (pipe_release w2 (some a.2))
      else
        some (w2, some { a.2 with fd0 := r.fd0, fd1 := r.fd1 })
  else
    some (a.1, some a.2)

/-- The loop of `_pipe_resume` on the pipe `p` taken from `chan->tosend`, reading the
pending `splice` results `rs`. -/
def _pipe_resume_loop (s : Side) : List splice_rc → World → pipe_t → Option World
  | [], w, p =>
    if p.load ≠ 0 then none
    else some (pipe_release { w with splices := [] } (some p)).1
  | r :: rs, w, p =>
    if p.load ≠ 0 then
      let w1 := { w with splices := rs }.emit (.splice p.fd0 (w.chan s).sock p.load r.rc)
      if r.rc < 0 then
        let c := w1.chan s
        let c1 := { c with events := c.events &&& NOT32 EPOLLOUT }
        if r.errno = EAGAIN then
          some (w1.set_chan s { c1 with tosend := some p })
        else
          let w2 := w1.set_chan s { c1 with flags := c1.flags ||| FLAG_ERRONEOUS }
          some (pipe_release w2 (some p)).1
      else
        _pipe_resume_loop s rs w1 { p with load := p.load - r.rc }
    else some (pipe_release { w with splices := r :: rs } (some p)).1

/-- The function `_pipe_resume (channel_t * chan)`. -/
def _pipe_resume (w : World) (s : Side) : Option World :=
  match (w.chan s).tosend with
  | none => none
  | some p =>
    let w1 := w.set_chan s { w.chan s with tosend := none }
    _pipe_resume_loop s w1.splices w1 p

/-! ## Channels -/

/-- The function `channel_close`. -/
def channel_close (w : World) (s : Side) : World :=
  let c := w.chan s
  if c.sock < 0 then w
  else
    let w1 := if ISALL c.flags FLAG_MONITORED then { w with count_epoll := w.count_epoll - 1 } else w
    let w2 := w1.emit (.close c.sock)
    let (w3, pp) := pipe_release w2 c.tosend
    w3.set_chan s { c with sock := -1, flags := 0, events := 0, tosend := pp }

/-- The function `channel_shut`. -/
def channel_shut (w : World) (s : Side) : World :=
  let c := w.chan s
  if c.flags &&& FLAG_SHUT_SENT ≠ 0 then w
  else if c.tosend.isSome then w
  else
    let w1 := w.emit (.shutdown_wr c.sock)
    let (w2, pp) := pipe_release w1 c.tosend
    w2.set_chan s { c with flags := c.flags ||| FLAG_SHUT_SENT,
                           events := c.events &&& NOT32 EPOLLOUT, tosend := pp }

/-- The function `channel_events` (with `c->peer` looked up through the tunnel). -/
def channel_events (w : World) (s : Side) : Nat :=
  let c := w.chan s
  let peer := w.chan s.peer
  let evt := 0
  let evt := if (c.status = CONNECTING ∨ c.tosend.isSome) ∧ ¬ (c.flags &&& FLAG_SHUT_SENT ≠ 0)
    then evt ||| EPOLLOUT else evt
  let evt := if peer.status = CONNECTED ∧ ¬ (peer.flags &&& FLAG_SHUT_SENT ≠ 0)
      ∧ ¬ (c.flags &&& FLAG_SHUT_RECV ≠ 0) ∧ peer.tosend = none
    then evt ||| EPOLLIN else evt
  evt

/-- In `channel_transfer`, the choice of the pipe: `src->peer->tosend`, or `pipe_init ()`. -/
def transfer_pipe (w : World) (s : Side) : Option (World × Option pipe_t) :=
  match (w.chan s.peer).tosend with
  | some p => some (w, some p)
  | none => pipe_init w

/-- In `channel_transfer`, the three branches on the result `r` of
`splice (src->sock, 0, p->fd[1], 0, PIPE_SIZE, ...)`. -/
def transfer_splice (w : World) (s : Side) (p : pipe_t) (r : splice_rc) : World × pipe_t :=
  let src := w.chan s
  if r.rc = 0 then
    (w.set_chan s { src with events := src.events &&& NOT32 EPOLLIN,
                             flags := src.flags ||| FLAG_SHUT_RECV }, p)
  else if r.rc < 0 then
    (w.set_chan s { src with events := src.events &&& NOT32 EPOLLIN,
                             flags := if r.errno ≠ EAGAIN then src.flags ||| FLAG_ERRONEOUS
                                      else src.flags }, p)
  else
    (w, { p with load := p.load + r.rc })

/-- The end of `channel_transfer`: release an empty pipe, or install it at
`src->peer->tosend` and call `_pipe_resume (src->peer)`. -/
def transfer_finish (w : World) (s : Side) (p : pipe_t) : Option World :=
  if p.load ≤ 0 then
    some (pipe_release w (some p)).1
  else
    _pipe_resume (w.set_chan s.peer { w.chan s.peer with tosend := some p }) s.peer

/-- The function `channel_transfer (channel_t * src)`. -/
def channel_transfer (w : World) (s : Side) : Option World :=
  let w0 := w.set_chan s { w.chan s with flags := (w.chan s).flags &&& NOT32 FLAG_ACTIVITY }
  match transfer_pipe w0 s with
  | none => none
  | some (w1, pp) =>
    let w2 := w1.set_chan s.peer { w1.chan s.peer with tosend := none }
    match pp with
    | none =>
      some (w2.set_chan s { w2.chan s with flags := (w2.chan s).flags ||| FLAG_ERRONEOUS })
    | some p =>
      match w2.splices with
      | [] => none
      | r :: rest =>
        let w3 := { w2 with splices := rest }.emit (.splice (w2.chan s).sock p.fd1 PIPE_SIZE r.rc)
        let st := transfer_splice w3 s p r
        transfer_finish st.1 s st.2

/-- The function `channel_rearm (channel_t * chan, uint32_t io)`; every `epoll_ctl`
succeeds (the `ASSERT`s on its result are compiled out). -/
def channel_rearm (w : World) (s : Side) (io : Nat) : World :=
  let evt := io ||| EPOLLET ||| EPOLLONESHOT
  let w1 :=
    if FLAG_SHUT_BOTH = (w.chan s).flags &&& FLAG_SHUT_BOTH then
      let c := w.chan s
      let wa := if ISALL c.flags FLAG_MONITORED then { w with count_epoll := w.count_epoll - 1 }
        else w
      let wb := if ISALL c.flags FLAG_REGISTERED then
          wa.emit (.epoll_ctl .EPOLL_CTL_DEL c.sock 0)
        else wa
      wb.set_chan s
        { c with flags := c.flags &&& NOT32 (FLAG_LISTED ||| FLAG_ACTIVITY ||| FLAG_REGISTERED) }
    else w
  let c := w1.chan s
  let w2 :=
    if ISALL c.flags FLAG_REGISTERED then
      if io ≠ c.events then w1.emit (.epoll_ctl .EPOLL_CTL_MOD c.sock evt) else w1
    else w1.emit (.epoll_ctl .EPOLL_CTL_ADD c.sock evt)
  let w3 := if ¬ ISALL c.flags FLAG_MONITORED then { w2 with count_epoll := w2.count_epoll + 1 }
    else w2
  w3.set_chan s
    { c with events := io,
             flags := SETONE c.flags (FLAG_LISTED ||| FLAG_ACTIVITY)
                        (FLAG_MONITORED ||| FLAG_REGISTERED) }

/-- The function `channel_patch`. -/
def channel_patch (w : World) (s : Side) : World :=
  if (w.chan s).flags &&& FLAG_SHUT_RECV ≠ 0 then
    let w1 := w.set_chan s { w.chan s with events := (w.chan s).events &&& NOT32 EPOLLIN }
    let w2 := channel_shut w1 s.peer
    if (w2.chan s).tosend.isSome then
      let r := pipe_release w2 (w2.chan s).tosend
      r.1.set_chan s { r.1.chan s with tosend := r.2 }
    else w2
  else w

/-- The function `channel_update_listed`. -/
def channel_update_listed (w : World) (s : Side) : World :=
  let evt := channel_events w s
  if ISALL (w.chan s).flags FLAG_MONITORED then
    channel_rearm w s evt
  else if ISALL (w.chan s).flags FLAG_ACTIVE then
    w.set_chan s { w.chan s with events := evt }
  else w

/-! ## Tunnels -/

/-- The channel value `tunnel_init` writes into both channels. -/
def channel_zero : channel_t :=
  { next := none, flags := 0, events := 0, status := 0, tosend := none, sock := -1 }

/-- The function `tunnel_init`. -/
def tunnel_init (w : World) : World :=
  { w with t := { w.t with front := channel_zero, back := channel_zero } }

/-- The function `tunnel_release`; `PREPEND_STRUCT` pushes the tunnel on `IDLE_tunnel_t`. -/
def tunnel_release (w : World) : World :=
  let w1 := channel_close w .front
  let w2 := channel_close w1 .back
  let w3 := tunnel_init w2
  { w3 with IDLE_tunnel_t := w3.t.addr :: w3.IDLE_tunnel_t }

/-- The function `proxy_resume`. -/
def proxy_resume (w : World) : World :=
  { w with
    proxy := { w.proxy with flags := w.proxy.flags ||| FLAG_ACTIVE, events := EPOLLIN,
                            next := w.ACTIVE_proxy_t }
    ACTIVE_proxy_t := some () }

/-- The function `tunnel_unref`; `pipes.count` is an `unsigned int`. -/
def tunnel_unref (w : World) : World :=
  let w1 := tunnel_release w
  let count := w1.proxy.count
  let w2 := { w1 with proxy := { w1.proxy with count := dec32 count } }
  if w2.proxy.max = count then proxy_resume w2 else w2

/-- The function `tunnel_abort`: log the message, then `tunnel_unref`. -/
def tunnel_abort (w : World) (msg : abort_msg) : World :=
  tunnel_unref (w.emit (.log_abort msg))

/-- The function `tunnel_register`. -/
def tunnel_register (w : World) : World :=
  let w1 := w.set_chan .front { w.t.front with status := CONNECTED, events := 0 }
  let w2 := w1.set_chan .back { w1.t.back with status := CONNECTING, events := 0 }
  channel_rearm (channel_rearm w2 .front 0) .back EPOLLOUT

/-- The function `channel_update`. -/
def channel_update (w : World) (s : Side) : World :=
  let w1 := channel_patch w s
  let w2 := channel_patch w1 s.peer
  if ISALL (w2.chan s).flags FLAG_SHUT_BOTH ∧ ISALL (w2.chan s.peer).flags FLAG_SHUT_BOTH then
    tunnel_release w2
  else if ISANY (w2.chan s).flags FLAG_ERRONEOUS then
    tunnel_abort w2 .peer_error
  else if ISANY (w2.chan s.peer).flags FLAG_ERRONEOUS then
    tunnel_abort w2 .peer_error
  else
    let evt := channel_events w2 s
    let c := w2.chan s
    let w3 :=
      if c.events &&& BOTH ≠ 0 then
        { w2 with ACTIVE_channel_t := some (w2.ptr s) }.set_chan s
          { c with events := evt, flags := SETACT c.flags &&& NOT32 FLAG_ACTIVITY,
                   next := w2.ACTIVE_channel_t }
      else
        channel_rearm w2 s evt
    channel_update_listed w3 s.peer

/-- The function `channel_manage_events (channel_t * c, uint32_t events)`. -/
def channel_manage_events (w : World) (s : Side) (events : Nat) : Option World :=
  if events &&& EPOLLERR ≠ 0 then
    some (tunnel_abort w .channel_error)
  else if (w.chan s).status = 0 then
    some w
  else if events &&& EPOLLOUT ≠ 0 ∧ (w.chan s).status = CONNECTING then
    some (channel_update (w.set_chan s { w.chan s with status := CONNECTED }) s)
  else
    let r1 := if (w.chan s).tosend.isSome then _pipe_resume w s else some w
    match r1 with
    | none => none
    | some w1 =>
      let r2 := if events &&& EPOLLIN ≠ 0 then channel_transfer w1 s else some w1
      match r2 with
      | none => none
      | some w2 =>
        let w3 :=
          if events &&& EPOLLHUP ≠ 0 then
            w2.set_chan s { w2.chan s with flags := (w2.chan s).flags ||| FLAG_SHUT_RECV }
          else w2
        some (channel_update w3 s)

/-! ## Proxy -/

/-- The function `proxy_register`. -/
def proxy_register (w : World) : World :=
  let p := w.proxy
  let op := if ISALL p.flags FLAG_REGISTERED then epoll_op.EPOLL_CTL_MOD
    else epoll_op.EPOLL_CTL_ADD
  let w1 := w.emit (.epoll_ctl op p.sock_front (EPOLLET ||| EPOLLONESHOT ||| EPOLLIN))
  let w2 := if ¬ (p.flags &&& FLAG_MONITORED ≠ 0) then
      { w1 with count_epoll := w1.count_epoll + 1 }
    else w1
  { w2 with proxy := { p with flags := p.flags ||| (FLAG_REGISTERED ||| FLAG_MONITORED) } }

/-- The function `proxy_pause`. -/
def proxy_pause (w : World) : World :=
  let w1 := { w with proxy := { w.proxy with events := 0 } }
  if ¬ ISALL w1.proxy.flags FLAG_MONITORED then w1
  else
    let w2 := w1.emit (.epoll_ctl .EPOLL_CTL_MOD w1.proxy.sock_front (EPOLLET ||| EPOLLONESHOT))
    { w2 with count_epoll := w2.count_epoll - 1,
              proxy := { w2.proxy with flags := w2.proxy.flags &&& NOT32 FLAG_LISTED } }

/-- The function `proxy_init`, given the hard limit `rl.rlim_max` that `getrlimit` returned;
`pipes.max` is an `unsigned int`. -/
def proxy_init (rlim_max : Nat) : proxy_t :=
  { next := none, flags := 0, events := 0, count := 0, max := (rlim_max / 2) % 2 ^ 32,
    sock_front := -1, nn_feed := -1 }

/-- The function `tunnel_reserve`: `acquire_tunnel_t` pops `IDLE_tunnel_t` or takes the
address `fresh` from `posix_memalign`; the tunnel becomes the one in the world. -/
def tunnel_reserve (w : World) (fresh : Nat) : World :=
  let got : Nat × List Nat :=
    match w.IDLE_tunnel_t with
    | [] => (fresh, [])
    | a :: rest => (a, rest)
  let w1 := tunnel_init { w with IDLE_tunnel_t := got.2, t := { w.t with addr := got.1 } }
  { w1 with t := { w1.t with id := w1.next_tunnel_id },
            next_tunnel_id := inc64 w1.next_tunnel_id }

/-- Value of `EINPROGRESS` in `<errno.h>` on Linux. -/
def EINPROGRESS : Int := 115

/-- What the environment answers during one `proxy_manage_event`. -/
structure accept_env where
  /-- Result of `accept4` once it is not `EINTR`; negative means `EAGAIN`. -/
  accept_fd : Int
  /-- Address `posix_memalign` returns if a tunnel has to be allocated. -/
  fresh : Nat
  /-- Return code of `nn_recv`. -/
  nn_rc : Int
  /-- The message buffer `nn_recv` allocated. -/
  buf : List Nat
  /-- The function `sockaddr_init` of `utils.c`, as a predicate on the NUL-terminated url. -/
  sockaddr_init : List Nat → Bool
  /-- Result of `socket`. -/
  back_sock : Int
  /-- Result of `connect`. -/
  connect_rc : Int
  /-- Value of `errno` after `connect`. -/
  connect_errno : Int

/-- In `proxy_manage_event`, after a successful `accept4`: reserve the tunnel, install the
accepted descriptor, count the tunnel and pause or resume the listener. -/
def proxy_accept (w : World) (fd : Int) (fresh : Nat) : World :=
  let w1 := tunnel_reserve w fresh
  let w2 := w1.set_chan .front { w1.t.front with sock := fd }
  let count := inc32 w2.proxy.count
  let w3 := { w2 with proxy := { w2.proxy with count := count } }
  if w3.proxy.max = count then proxy_pause w3 else proxy_resume w3

/-- In `proxy_manage_event`, from `// Poll a backend` to the end. -/
def proxy_connect (w : World) (env : accept_env) : World :=
  if env.nn_rc < 0 then
    tunnel_abort w .backend_starvation
  else if env.nn_rc > 128 then
    tunnel_abort w .url_too_big
  else
    let sto := env.buf.take env.nn_rc.toNat ++ [0]
    let w5 := w.emit (.sockaddr_init sto)
    if ¬ env.sockaddr_init sto then
      tunnel_abort w5 .bad_url
    else
      let w6 := w5.set_chan .back { w5.t.back with sock := env.back_sock }
      if env.back_sock < 0 then
        tunnel_abort w6 .socket_error
      else if 0 > env.connect_rc ∧ env.connect_errno ≠ EINPROGRESS then
        tunnel_abort w6 .connect_error
      else
        tunnel_register w6

/-- The function `proxy_manage_event`. -/
def proxy_manage_event (w : World) (env : accept_env) : World :=
  if w.proxy.events = 0 then w
  else if env.accept_fd < 0 then proxy_register w
  else proxy_connect (proxy_accept w env.accept_fd env.fresh) env

/-! ## Event loop -/

/-- The body of the `for` loop of `manage_monitored_items` when `mon` is a channel of the
tunnel. -/
def promote_channel (w : World) (s : Side) (events : Nat) : World :=
  let c := w.chan s
  { w with ACTIVE_channel_t := some (w.ptr s) }.set_chan s
    { c with events := events, flags := SETACT c.flags &&& NOT32 FLAG_ACTIVITY,
             next := w.ACTIVE_channel_t }

/-- The body of the `for` loop of `manage_monitored_items` when `mon` is the proxy. -/
def promote_proxy (w : World) (events : Nat) : World :=
  { w with
    proxy := { w.proxy with events := events,
                            flags := SETACT w.proxy.flags &&& NOT32 FLAG_ACTIVITY,
                            next := w.ACTIVE_proxy_t }
    ACTIVE_proxy_t := some () }

/-- In `main_loop`, `SHIFT_STRUCT (chans, chan); chan->flags &= ~FLAG_LISTED;` when the
head of `chans` is the channel `s` of the tunnel: the world and the new `chans`. -/
def main_loop_shift_channel (w : World) (s : Side) : World × Option chan_ptr :=
  let c := w.chan s
  (w.set_chan s { c with next := none, flags := c.flags &&& NOT32 FLAG_LISTED }, c.next)

/-- One turn of the loop over `chans` in `main_loop`. -/
def main_loop_channel_turn (w : World) (s : Side) : Option (World × Option chan_ptr) :=
  let r := main_loop_shift_channel w s
  match channel_manage_events r.1 s (r.1.chan s).events with
  | none => none
  | some w1 => some (w1, r.2)

/-- In `main_loop`, `SHIFT_STRUCT (proxies, proxy); proxy->flags &= ~FLAG_LISTED;`. -/
def main_loop_shift_proxy (w : World) : World × Option Unit :=
  ({ w with proxy := { w.proxy with next := none,
                                    flags := w.proxy.flags &&& NOT32 FLAG_LISTED } },
   w.proxy.next)

/-- One turn of the loop over `proxies` in `main_loop`. -/
def main_loop_proxy_turn (w : World) (env : accept_env) : World × Option Unit :=
  let r := main_loop_shift_proxy w
  (proxy_manage_event r.1 env, r.2)

/-- The loop of `recover_tunnel_t` (`DRAIN_STRUCT_DECL`): `MOVE_STRUCT` each node of the
dirty list to the idle list; returns `(DIRTY, IDLE)`. -/
def recover_loop : List Nat → List Nat → List Nat × List Nat
  | [], idle => ([], idle)
  | a :: dirty, idle => recover_loop dirty (a :: idle)

/-- The function `recover_tunnel_t`, called as `DRAIN_STRUCT_CALL (tunnel_t)`. -/
def recover_tunnel_t (w : World) : World :=
  let r := recover_loop w.DIRTY_tunnel_t w.IDLE_tunnel_t
  { w with DIRTY_tunnel_t := r.1, IDLE_tunnel_t := r.2 }

/-! ## Predicates used in the statements -/

/-- Bit `k` of a word. -/
def bit (f k : Nat) : Bool := f.testBit k

/-- The invariant `SHUT_SENT ⇒ tosend == none` of one channel. -/
def shut_sent_ok (c : channel_t) : Prop :=
  c.flags &&& FLAG_SHUT_SENT ≠ 0 → c.tosend = none

/-- At most one of `MONITORED`, `ACTIVE` is set in a flags word. -/
def listed_ok (flags : Nat) : Prop :=
  ¬ (flags &&& FLAG_MONITORED ≠ 0 ∧ flags &&& FLAG_ACTIVE ≠ 0)

/-- Both channels of the tunnel satisfy `listed_ok`. -/
def listed_inv (w : World) : Prop :=
  listed_ok w.t.front.flags ∧ listed_ok w.t.back.flags

/-- Both channels of the tunnel satisfy `shut_sent_ok`. -/
def shut_sent_inv (w : World) : Prop :=
  shut_sent_ok w.t.front ∧ shut_sent_ok w.t.back

/-- The world after the two `channel_patch` calls that open `channel_update (c)`. -/
def patched (w : World) (s : Side) : World :=
  channel_patch (channel_patch w s) s.peer

/-- The three tests of `channel_update` that end in `tunnel_release` or `tunnel_abort`,
evaluated on the patched world. -/
def must_reclaim (w : World) (s : Side) : Bool :=
  (ISALL ((patched w s).chan s).flags FLAG_SHUT_BOTH
    && ISALL ((patched w s).chan s.peer).flags FLAG_SHUT_BOTH)
  || ISANY ((patched w s).chan s).flags FLAG_ERRONEOUS
  || ISANY ((patched w s).chan s.peer).flags FLAG_ERRONEOUS

/-! ## Example states -/

/-- An empty world around a given proxy and tunnel. -/
def world_of (p : proxy_t) (t : tunnel_t) : World :=
  { proxy := p, t := t, IDLE_pipe_t := [], IDLE_tunnel_t := [], DIRTY_tunnel_t := [],
    ACTIVE_channel_t := none, ACTIVE_proxy_t := none, count_epoll := 0, next_tunnel_id := 1,
    splices := [], pipe2s := [], trace := [] }

/-- A connected channel on socket `sock` with the given flags, events and pending pipe. -/
def chan_of (sock : Int) (flags events : Nat) (tosend : Option pipe_t) : channel_t :=
  { next := none, flags := flags, events := events, status := CONNECTED, tosend := tosend,
    sock := sock }

/-- A proxy after `proxy_init` with hard limit 16 (`pipes.max = 8`), listening on fd 3,
with `count` tunnels admitted. -/
def proxy_of (count flags events : Nat) : proxy_t :=
  { proxy_init 16 with sock_front := 3, nn_feed := 4, count := count, flags := flags,
                       events := events }

/-- A tunnel whose front is monitored and whose back sits on the active list. -/
def world_listed : World :=
  world_of (proxy_of 1 FLAG_REGISTERED 0)
    { addr := 1, id := 0,
      front := chan_of 5 (FLAG_MONITORED ||| FLAG_REGISTERED) EPOLLIN none,
      back := chan_of 6 (FLAG_ACTIVE ||| FLAG_REGISTERED) EPOLLIN none }

/-- The back channel is being serviced; the front has seen EOF (`SHUT_RECV`) and
still owes 5 bytes to its socket (its last write met `EAGAIN`). -/
def world_owed : World :=
  world_of (proxy_of 1 FLAG_REGISTERED 0)
    { addr := 1, id := 0,
      front := chan_of 5 (FLAG_SHUT_RECV ||| FLAG_MONITORED ||| FLAG_REGISTERED) 0
        (some { load := 5, fd0 := 7, fd1 := 8 }),
      back := chan_of 6 (FLAG_SHUT_SENT ||| FLAG_REGISTERED) EPOLLIN none }

/-- The front channel is being serviced and has just seen its EOF; it was half-closed
before because the back had seen EOF; the back still owes 5 bytes to its socket. -/
def world_both_eof : World :=
  world_of (proxy_of 1 FLAG_REGISTERED 0)
    { addr := 1, id := 0,
      front := chan_of 5 (FLAG_SHUT_SENT ||| FLAG_SHUT_RECV ||| FLAG_REGISTERED)
        (EPOLLIN ||| EPOLLHUP) none,
      back := chan_of 6 (FLAG_SHUT_RECV ||| FLAG_MONITORED ||| FLAG_REGISTERED) 0
        (some { load := 5, fd0 := 7, fd1 := 8 }) }

/-- The front channel is being serviced after a write event; the back holds 5 bytes for
its socket and has not seen EOF. -/
def world_pending : World :=
  world_of (proxy_of 1 FLAG_REGISTERED 0)
    { addr := 1, id := 0,
      front := chan_of 5 (FLAG_SHUT_RECV ||| FLAG_REGISTERED) EPOLLOUT none,
      back := chan_of 6 (FLAG_MONITORED ||| FLAG_REGISTERED) EPOLLOUT
        (some { load := 5, fd0 := 7, fd1 := 8 }) }

/-- The front channel is serviced with a read event although it has seen EOF; the back
was half-closed (`SHUT_SENT`) when that EOF was patched. The environment lets `pipe2`
succeed, the read from the front socket return 5 bytes and the write to the back socket
meet `EAGAIN`. -/
def world_shut_back : World :=
  { world_of (proxy_of 1 FLAG_REGISTERED 0)
      { addr := 1, id := 0,
        front := chan_of 5 (FLAG_SHUT_RECV ||| FLAG_REGISTERED) EPOLLIN none,
        back := chan_of 6 (FLAG_SHUT_SENT ||| FLAG_MONITORED ||| FLAG_REGISTERED) 0 none } with
    pipe2s := [{ rc := 0, fd0 := 7, fd1 := 8 }],
    splices := [{ rc := 5, errno := 0 }, { rc := -1, errno := EAGAIN }] }

/-- The front channel is serviced with a read and write event; it holds 5 bytes for its
socket; the back is monitored. The environment lets the write to the front socket meet
`EAGAIN`, the read from it return 3 bytes, `pipe2` succeed, and the write to the back
socket take the 3 bytes. -/
def world_busy : World :=
  { world_of (proxy_of 1 FLAG_REGISTERED 0)
      { addr := 1, id := 0,
        front := chan_of 5 FLAG_REGISTERED (EPOLLIN ||| EPOLLOUT)
          (some { load := 5, fd0 := 7, fd1 := 8 }),
        back := chan_of 6 (FLAG_MONITORED ||| FLAG_REGISTERED) 0 none } with
    pipe2s := [{ rc := 0, fd0 := 9, fd1 := 10 }],
    splices := [{ rc := -1, errno := EAGAIN }, { rc := 3, errno := 0 }, { rc := 3, errno := 0 }] }

/-- Value of `EPIPE` in `<errno.h>` on Linux. -/
def EPIPE : Int := 32

/-- The front channel is serviced with a read and write event and holds 5 bytes for its
socket. The environment lets the write to the front socket fail with `EPIPE`, `pipe2`
succeed and the read from the front socket meet `EAGAIN`. -/
def world_write_error : World :=
  { world_of (proxy_of 1 FLAG_REGISTERED 0)
      { addr := 1, id := 0,
        front := chan_of 5 FLAG_REGISTERED (EPOLLIN ||| EPOLLOUT)
          (some { load := 5, fd0 := 7, fd1 := 8 }),
        back := chan_of 6 (FLAG_MONITORED ||| FLAG_REGISTERED) 0 none } with
    pipe2s := [{ rc := 0, fd0 := 9, fd1 := 10 }],
    splices := [{ rc := -1, errno := EPIPE }, { rc := -1, errno := EAGAIN }] }

/-- The last step of a clean close with the proxy at its limit (`count = max = 8`,
listener paused): the back channel, half-closed earlier, has just seen EOF; the front
has seen EOF before and owes nothing. -/
def world_closing : World :=
  world_of (proxy_of 8 FLAG_REGISTERED 0)
    { addr := 1, id := 0,
      front := chan_of 5 (FLAG_SHUT_RECV ||| FLAG_MONITORED ||| FLAG_REGISTERED) 0 none,
      back := chan_of 6 (FLAG_SHUT_SENT ||| FLAG_SHUT_RECV ||| FLAG_REGISTERED) 0 none }

/-- Between `w` and `w1` the trace grew by calls that all satisfy `P`. -/
def emitted (P : sys_call → Prop) (w w1 : World) : Prop :=
  ∃ l, w1.trace = w.trace ++ l ∧ ∀ e ∈ l, P e

/-- The call is a `close`. -/
def is_close (e : sys_call) : Prop := ∃ fd, e = .close fd

/-- The call is an `epoll_ctl`. -/
def is_epoll_ctl (e : sys_call) : Prop := ∃ op fd ev, e = .epoll_ctl op fd ev

/-- A dispatcher message `buf` arrives for a client accepted on fd 11; the address
parser, `socket` and `connect` answer as given. -/
def env_of (buf : List Nat) (parse_ok : Bool) : accept_env :=
  { accept_fd := 11, fresh := 2, nn_rc := buf.length, buf := buf,
    sockaddr_init := fun _ => parse_ok, back_sock := 12, connect_rc := -1,
    connect_errno := EINPROGRESS }

/-- The proxy has one tunnel admitted and was just shifted from the active list with a
read event on the listener. -/
def world_accepting : World :=
  world_of (proxy_of 1 FLAG_REGISTERED EPOLLIN)
    { addr := 1, id := 0, front := channel_zero, back := channel_zero }

/-- The admission invariant of the proxy: `pipes.count ≤ pipes.max`, and at
`count == max` the listener is paused. -/
def admission_ok (p : proxy_t) : Prop :=
  p.count ≤ p.max
  ∧ (p.count = p.max →
      p.events = 0 ∧ p.flags &&& FLAG_MONITORED = 0 ∧ p.flags &&& FLAG_ACTIVE = 0)

/-! ## C2: states that carry `SHUT_SENT` -/

/-- The back channel has seen EOF, so the front channel is half-closed (`SHUT_SENT`, no
pending pipe); the client still sends: the front channel is serviced with a read event.
The environment lets `pipe2` succeed, the read from the front socket return 3 bytes and
the write to the back socket take them. -/
def world_half_closed : World :=
  { world_of (proxy_of 1 FLAG_REGISTERED 0)
      { addr := 1, id := 0,
        front := chan_of 5 (FLAG_SHUT_SENT ||| FLAG_REGISTERED) EPOLLIN none,
        back := chan_of 6 (FLAG_SHUT_RECV ||| FLAG_MONITORED ||| FLAG_REGISTERED) 0 none } with
    pipe2s := [{ rc := 0, fd0 := 9, fd1 := 10 }],
    splices := [{ rc := 3, errno := 0 }, { rc := 3, errno := 0 }] }

/-- The front channel is serviced and has just seen EOF (`SHUT_RECV`); the back channel
is monitored, owes nothing to its socket and is not half-closed yet. -/
def world_front_eof : World :=
  world_of (proxy_of 1 FLAG_REGISTERED 0)
    { addr := 1, id := 0,
      front := chan_of 5 (FLAG_SHUT_RECV ||| FLAG_REGISTERED) 0 none,
      back := chan_of 6 (FLAG_MONITORED ||| FLAG_REGISTERED) EPOLLIN none }

/-! ## C11: the load bound of a pipe: definitions -/

/-- The bound of one pipe: `0 ≤ load ≤ PIPE_SIZE`. -/
def load_ok (p : pipe_t) : Prop := 0 ≤ p.load ∧ p.load ≤ PIPE_SIZE

/-- The bound for every pipe of the world: the pending pipe of each channel is within
the bound, and the pipes of the idle list are empty. -/
def pipes_ok (w : World) : Prop :=
  (∀ p ∈ w.t.front.tosend, load_ok p) ∧ (∀ p ∈ w.t.back.tosend, load_ok p)
  ∧ ∀ p ∈ w.IDLE_pipe_t, p.load = 0

/-- A `splice` call returned an error, or no more than the length it asked for. -/
def move_ok : sys_call → Bool
  | .splice _ _ len rc => decide (rc < 0 ∨ rc ≤ len)
  | _ => true

/-- Every `splice` call of the trace returned an error or no more than the length asked. -/
def moves_ok (l : List sys_call) : Prop := ∀ e ∈ l, move_ok e = true

/-- The front channel is serviced with a read event while the back channel still holds a
pipe with 5 bytes for its socket. The environment lets the read from the front socket
return `rc` bytes and the write to the back socket meet `EAGAIN`. -/
def world_refill (rc : Int) : World :=
  { world_of (proxy_of 1 FLAG_REGISTERED 0)
      { addr := 1, id := 0,
        front := chan_of 5 FLAG_REGISTERED EPOLLIN none,
        back := chan_of 6 (FLAG_MONITORED ||| FLAG_REGISTERED) EPOLLOUT
          (some { load := 5, fd0 := 7, fd1 := 8 }) } with
    splices := [{ rc := rc, errno := 0 }, { rc := -1, errno := EAGAIN }] }

/-! ## C12: the write interest of a connecting channel: definitions -/

/-- In `main_loop`, `chans = ACTIVE_channel_t; ACTIVE_channel_t = NULL;`: the world and
the local list `chans`. -/
def main_loop_take (w : World) : World × Option chan_ptr :=
  ({ w with ACTIVE_channel_t := none }, w.ACTIVE_channel_t)

/-- The channel `x` asks for write-readiness: `EPOLLOUT` is in the value of
`channel_events` and in its `events` field. -/
def wants_write (w : World) (x : Side) : Prop :=
  channel_events w x &&& EPOLLOUT ≠ 0 ∧ (w.chan x).events &&& EPOLLOUT ≠ 0

/-- Every connecting channel that is not half-closed asks for write-readiness. -/
def connecting_ok (w : World) : Prop :=
  ∀ x, (w.chan x).status = CONNECTING → (w.chan x).flags &&& FLAG_SHUT_SENT = 0 →
    wants_write w x

/-- A tunnel just registered by `tunnel_register`: the front socket 5 is accepted, the
back socket 6 is connecting. -/
def world_connecting : World :=
  tunnel_register
    (world_of (proxy_of 1 FLAG_REGISTERED 0)
      { addr := 1, id := 0,
        front := { channel_zero with sock := 5 },
        back := { channel_zero with sock := 6 } })

/-- In `world_connecting`, a read event was delivered to the back channel, `main_loop`
shifted it from its list, and the environment lets `pipe2` succeed and the read from the
back socket meet `EAGAIN`. -/
def world_back_read : World :=
  { (main_loop_shift_channel (promote_channel world_connecting .back EPOLLIN) .back).1 with
    pipe2s := [{ rc := 0, fd0 := 9, fd1 := 10 }],
    splices := [{ rc := -1, errno := EAGAIN }] }

/-! ## C14: the exits of _pipe_resume: definitions -/

/-- The pending `splice` results behave for the loop of `_pipe_resume`: each result read
with `load` bytes left in the pipe is an error or a count between 1 and `load`. -/
def writes_ok : List splice_rc → Int → Bool
  | [], _ => true
  | r :: rs, load =>
    decide (load = 0) || decide (r.rc < 0)
      || (decide (1 ≤ r.rc) && decide (r.rc ≤ load) && writes_ok rs (load - r.rc))

/-- The bytes a call moves to the socket `sock`. -/
def bytes_to (sock : Int) : sys_call → Int
  | .splice _ fd_out _ rc => if fd_out = sock ∧ 0 ≤ rc then rc else 0
  | _ => 0

/-- The bytes moved to the socket `sock` by the calls of a trace. -/
def moved_to (sock : Int) (l : List sys_call) : Int := (l.map (bytes_to sock)).sum

/-- The number of `close` calls in a trace. -/
def closes (l : List sys_call) : Nat :=
  l.countP (fun e => match e with | .close _ => true | _ => false)

/-- Exit (a) of `_pipe_resume`: the pipe `p` is drained. The slot is empty, the pipe heads
the idle list with load 0 and its descriptors, no descriptor was closed, and the flags
of the channel are as before. -/
def resume_drained (w w1 : World) (s : Side) (p : pipe_t) : Prop :=
  (w1.chan s).tosend = none
  ∧ w1.IDLE_pipe_t = { p with load := 0 } :: w.IDLE_pipe_t
  ∧ closes w1.trace = closes w.trace
  ∧ (w1.chan s).flags = (w.chan s).flags

/-- Exit (b) of `_pipe_resume`: `EAGAIN`. The slot holds the same pipe with `rem > 0`
bytes left, `EPOLLOUT` is cleared from `events`, the flags of the channel are as before. -/
def resume_again (w w1 : World) (s : Side) (p : pipe_t) (rem : Int) : Prop :=
  0 < rem
  ∧ (w1.chan s).tosend = some { p with load := rem }
  ∧ (w1.chan s).events &&& EPOLLOUT = 0
  ∧ (w1.chan s).flags = (w.chan s).flags

/-- Exit (c) of `_pipe_resume`: another error. `ERRONEOUS` is set, the slot is empty, and
the pipe is released: its two descriptors are closed and it heads the idle list, empty. -/
def resume_failed (w w1 : World) (s : Side) : Prop :=
  (w1.chan s).flags &&& FLAG_ERRONEOUS ≠ 0
  ∧ (w1.chan s).tosend = none
  ∧ w1.IDLE_pipe_t = { load := 0, fd0 := -1, fd1 := -1 } :: w.IDLE_pipe_t
  ∧ closes w1.trace = closes w.trace + 2

/-! ## C15: channel_rearm on a fully shut channel: definitions -/

/-- The front channel is fully shut (EOF seen, write side shut) and its notification was
consumed; the back channel has seen EOF and still holds 5 bytes for its socket, so the
tunnel is alive. One channel (the back) is counted as monitored. -/
def world_front_shut : World :=
  { world_of (proxy_of 1 FLAG_REGISTERED 0)
      { addr := 1, id := 0,
        front := chan_of 5 (FLAG_SHUT_SENT ||| FLAG_SHUT_RECV ||| FLAG_REGISTERED) 0 none,
        back := chan_of 6 (FLAG_SHUT_RECV ||| FLAG_MONITORED ||| FLAG_REGISTERED) EPOLLOUT
          (some { load := 5, fd0 := 7, fd1 := 8 }) } with
    count_epoll := 1 }

/-! ## C16: re-arming a one-shot registration: definitions -/

/-- A read event was delivered to the front channel (armed for reading before) and
`main_loop` shifted it from its list; the back channel is monitored for nothing. The
environment lets `pipe2` succeed, the read from the front socket return 5 bytes and the
write to the back socket meet `EAGAIN`. -/
def world_reading : World :=
  { world_of (proxy_of 1 FLAG_REGISTERED 0)
      { addr := 1, id := 0,
        front := chan_of 5 FLAG_REGISTERED EPOLLIN none,
        back := chan_of 6 (FLAG_MONITORED ||| FLAG_REGISTERED) 0 none } with
    count_epoll := 1,
    pipe2s := [{ rc := 0, fd0 := 9, fd1 := 10 }],
    splices := [{ rc := 5, errno := 0 }, { rc := -1, errno := EAGAIN }] }

/-! ## C17: pipe_release and the idle list: definitions -/

/-- The back channel holds a pipe with 5 bytes; one empty pipe is idle; the environment
lets `pipe2` succeed with the descriptors 9 and 10. -/
def world_loaded : World :=
  { world_of (proxy_of 1 FLAG_REGISTERED 0)
      { addr := 1, id := 0,
        front := chan_of 5 FLAG_REGISTERED EPOLLIN none,
        back := chan_of 6 (FLAG_MONITORED ||| FLAG_REGISTERED) EPOLLOUT
          (some { load := 5, fd0 := 7, fd1 := 8 }) } with
    IDLE_pipe_t := [{ load := 0, fd0 := 11, fd1 := 12 }],
    pipe2s := [{ rc := 0, fd0 := 9, fd1 := 10 }] }

/-! ## C18: the active lists when a tunnel is released: definitions -/

/-- The `next` link of the channel behind a pointer: a field of the tunnel of the world
when the pointer is to one of its two channels, what `others` holds for the channels of
the other tunnels. -/
def next_of (w : World) (others : chan_ptr → Option chan_ptr) (c : chan_ptr) :
    Option chan_ptr :=
  if c.tunnel = w.t.addr then (w.t.chan c.side).next else others c

/-- The channels met when following the `next` links from `head`, at most `n` of them. -/
def walk (nxt : chan_ptr → Option chan_ptr) : Nat → Option chan_ptr → List chan_ptr
  | 0, _ => []
  | _ + 1, none => []
  | n + 1, some c => c :: walk nxt n (nxt c)

/-- The part of a list of channels up to its first channel of the tunnel `a`, included. -/
def upto_tunnel (a : Nat) : List chan_ptr → List chan_ptr
  | [] => []
  | c :: l => if c.tunnel = a then [c] else c :: upto_tunnel a l

/-- No channel of another tunnel is linked to a next one. -/
def others_none : chan_ptr → Option chan_ptr := fun _ => none

/-- One round of `manage_monitored_items` delivered three events: a read event for the
front channel of another tunnel (at address 2), a read event for the back channel of the
tunnel and an error for its front channel. Each was prepended to `ACTIVE_channel_t`, which
is now front, back, front of tunnel 2. -/
def world_batch : World :=
  promote_channel
    (promote_channel
      { world_of (proxy_of 2 FLAG_REGISTERED 0)
          { addr := 1, id := 0,
            front := chan_of 5 (FLAG_MONITORED ||| FLAG_REGISTERED) EPOLLIN none,
            back := chan_of 6 (FLAG_MONITORED ||| FLAG_REGISTERED) EPOLLIN none } with
        ACTIVE_channel_t := some ⟨2, .front⟩ }
      .back EPOLLIN)
    .front EPOLLERR

/-! ## C1: the release of a pending pipe by channel_patch: definitions -/

/-- The pipe `pipe_release` pushes on the idle list for the pipe `p` of a slot: emptied,
with both descriptors closed and set to -1, when `p` held bytes; `p` itself otherwise. -/
def released (p : pipe_t) : pipe_t :=
  if p.load > 0 then { load := 0, fd0 := -1, fd1 := -1 } else p

/-- The calls `pipe_release` issues for the pipe `p` of a slot. -/
def release_calls (p : pipe_t) : List sys_call :=
  if p.load > 0 then [.close p.fd0, .close p.fd1] else []

/-- The pipe `channel_patch (c)` releases: the pending pipe of c when c carries
`SHUT_RECV`. -/
def dropped (c : channel_t) : Option pipe_t :=
  if c.flags &&& FLAG_SHUT_RECV ≠ 0 then c.tosend else none

/-- The pipes `channel_patch (c)` pushes on the idle list. -/
def dropped_pipes (c : channel_t) : List pipe_t :=
  match dropped c with
  | some p => [released p]
  | none => []

/-- The calls `channel_patch (c)` issues to release the pending pipe of c. -/
def dropped_calls (c : channel_t) : List sys_call :=
  match dropped c with
  | some p => release_calls p
  | none => []

/-! ## C14: the exits of _pipe_resume, tied to the results of splice: definitions -/

/-- The `splice` calls `_pipe_resume` issues from the pipe end `fd0` to the socket `sock`
when it reads the results `rs` in order with `load` bytes in the pipe: each call asks for
what is left. -/
def resume_calls (fd0 sock : Int) : Int → List splice_rc → List sys_call
  | _, [] => []
  | load, r :: rs => .splice fd0 sock load r.rc :: resume_calls fd0 sock (load - r.rc) rs

/-- The bytes a list of successful results moved. -/
def taken (oks : List splice_rc) : Int := (oks.map (fun r => r.rc)).sum

/-- The front channel holds 3 bytes for its socket; the environment lets the socket take
2 bytes, then answers `EAGAIN`; a third result stays pending. -/
def world_clog : World :=
  { world_of (proxy_of 1 FLAG_REGISTERED 0)
      { addr := 1, id := 0,
        front := chan_of 5 FLAG_REGISTERED EPOLLOUT (some { load := 3, fd0 := 7, fd1 := 8 }),
        back := chan_of 6 (FLAG_MONITORED ||| FLAG_REGISTERED) 0 none } with
    splices := [{ rc := 2, errno := 0 }, { rc := -1, errno := EAGAIN }, { rc := 1, errno := 0 }] }

/-! ## C4: the admission invariant along the main loop: definitions -/

/-- In `main_loop`, `proxies = ACTIVE_proxy_t; ACTIVE_proxy_t = NULL;`: the world and the
local list `proxies`. -/
def main_loop_take_proxies (w : World) : World × Option Unit :=
  ({ w with ACTIVE_proxy_t := none }, w.ACTIVE_proxy_t)

/-- The world when `main_loop` enters its loop: `proxy_init` with the hard limit
`rlim_max`, the listening socket and the dispatcher socket opened, no tunnel yet, and the
first `proxy_register`. -/
def world_entry (rlim_max : Nat) (sock_front nn_feed : Int) : World :=
  proxy_register
    (world_of { proxy_init rlim_max with sock_front := sock_front, nn_feed := nn_feed }
      { addr := 0, id := 0, front := channel_zero, back := channel_zero })

/-- The proxy and the list `ACTIVE_proxy_t` agree: the proxy is on the list exactly when
it carries `ACTIVE`, it is linked to nothing, and it is not `MONITORED` and `ACTIVE`
together. -/
def proxy_listed_ok (w : World) : Prop :=
  (w.ACTIVE_proxy_t ≠ none ↔ w.proxy.flags &&& FLAG_ACTIVE ≠ 0)
  ∧ w.proxy.next = none
  ∧ (w.proxy.flags &&& FLAG_MONITORED ≠ 0 → w.proxy.flags &&& FLAG_ACTIVE = 0)

/-- A step of the program that touches the proxy. -/
inductive admission_step where
  /-- One turn of the loop of `main_loop` over the active proxies: the list is taken, the
  proxy is shifted from it with its `LISTED` flags cleared, and
  `proxy_manage_event (proxy, proxy->events)` runs with the answers of the environment. -/
  | turn (env : accept_env)
  /-- A call `tunnel_unref (t)`. -/
  | unref
  /-- A call `tunnel_abort (t, ...)`. -/
  | abort (msg : abort_msg)
  /-- The promotion of the proxy in `manage_monitored_items` with the reported events. -/
  | promote (events : Nat)

/-- The effect of a step. -/
def admission_step.run : admission_step → World → World
  | .turn env, w => (main_loop_proxy_turn (main_loop_take_proxies w).1 env).1
  | .unref, w => tunnel_unref w
  | .abort msg, w => tunnel_abort w msg
  | .promote events, w => promote_proxy w events

/-- When the program takes the step: the loop over the active proxies runs while the list
is not empty, a tunnel that is unreferenced was counted when it was accepted, and
`manage_monitored_items` only promotes an item that is `MONITORED` (its `ASSERT`). -/
def admission_step.allowed : admission_step → World → Prop
  | .turn _, w => w.ACTIVE_proxy_t ≠ none
  | .unref, w => 0 < w.proxy.count
  | .abort _, w => 0 < w.proxy.count
  | .promote _, w => w.proxy.flags &&& FLAG_MONITORED ≠ 0

/-- Run a sequence of steps. -/
def run_steps : List admission_step → World → World
  | [], w => w
  | st :: rest, w => run_steps rest (st.run w)

/-- Every step of the sequence is allowed in the world it is taken in. -/
def steps_allowed : List admission_step → World → Prop
  | [], _ => True
  | st :: rest, w => st.allowed w ∧ steps_allowed rest (st.run w)

/-! # Theorems -/

/-! ## Words as bits -/

theorem and_low7 (f m : Nat) (hm : m < 128) : f &&& m = (f % 128) &&& m := by
  have h1 : m &&& 2 ^ 7 - 1 = m := Nat.and_pow_two_sub_one_of_lt_two_pow (by simpa using hm)
  have h2 : f &&& 2 ^ 7 - 1 = f % 128 := Nat.and_pow_two_sub_one_eq_mod f 7
  calc f &&& m = f &&& (m &&& 2 ^ 7 - 1) := by rw [h1]
    _ = (f &&& 2 ^ 7 - 1) &&& m := by rw [Nat.and_comm m, Nat.and_assoc]
    _ = (f % 128) &&& m := by rw [h2]

theorem bit_low7 (f k : Nat) (hk : k < 7) : bit f k = bit (f % 128) k := by
  have h := Nat.testBit_mod_two_pow f 7 k
  simp only [show (2:Nat) ^ 7 = 128 by norm_num] at h
  unfold bit
  rw [h]; simp [hk]

theorem low7_flags : ∀ r, r < 128 →
    ((r &&& FLAG_SHUT_SENT = 0 ↔ bit r 0 = false)
    ∧ (r &&& FLAG_SHUT_RECV = 0 ↔ bit r 1 = false)
    ∧ (r &&& FLAG_MONITORED = 0 ↔ bit r 2 = false)
    ∧ (r &&& FLAG_ACTIVE = 0 ↔ bit r 3 = false)
    ∧ (r &&& FLAG_ERRONEOUS = 0 ↔ bit r 5 = false)
    ∧ (ISALL r FLAG_MONITORED = bit r 2)
    ∧ (ISALL r FLAG_ACTIVE = bit r 3)
    ∧ (ISALL r FLAG_REGISTERED = bit r 6)
    ∧ (ISANY r FLAG_ERRONEOUS = bit r 5)
    ∧ (ISALL r FLAG_SHUT_BOTH = (bit r 0 && bit r 1))
    ∧ (FLAG_SHUT_BOTH = r &&& FLAG_SHUT_BOTH ↔ (bit r 0 = true ∧ bit r 1 = true))
    ∧ (r &&& FLAG_LISTED = 0 ↔ (bit r 2 = false ∧ bit r 3 = false))) := by
  decide

theorem low7_events : ∀ r, r < 128 →
    ((r &&& EPOLLIN = 0 ↔ bit r 0 = false)
    ∧ (r &&& EPOLLOUT = 0 ↔ bit r 2 = false)
    ∧ (r &&& EPOLLERR = 0 ↔ bit r 3 = false)
    ∧ (r &&& EPOLLHUP = 0 ↔ bit r 4 = false)
    ∧ (r &&& BOTH = 0 ↔ (bit r 0 = false ∧ bit r 2 = false))) := by
  decide


@[simp] theorem shut_sent_bit (f : Nat) : f &&& FLAG_SHUT_SENT = 0 ↔ bit f 0 = false := by
  rw [and_low7 f _ (by decide), bit_low7 f 0 (by decide)]; exact (low7_flags (f % 128) (Nat.mod_lt _ (by decide))).1
@[simp] theorem shut_recv_bit (f : Nat) : f &&& FLAG_SHUT_RECV = 0 ↔ bit f 1 = false := by
  rw [and_low7 f _ (by decide), bit_low7 f 1 (by decide)]; exact (low7_flags (f % 128) (Nat.mod_lt _ (by decide))).2.1
@[simp] theorem monitored_bit (f : Nat) : f &&& FLAG_MONITORED = 0 ↔ bit f 2 = false := by
  rw [and_low7 f _ (by decide), bit_low7 f 2 (by decide)]; exact (low7_flags (f % 128) (Nat.mod_lt _ (by decide))).2.2.1
@[simp] theorem active_bit (f : Nat) : f &&& FLAG_ACTIVE = 0 ↔ bit f 3 = false := by
  rw [and_low7 f _ (by decide), bit_low7 f 3 (by decide)]; exact (low7_flags (f % 128) (Nat.mod_lt _ (by decide))).2.2.2.1
@[simp] theorem erroneous_bit (f : Nat) : f &&& FLAG_ERRONEOUS = 0 ↔ bit f 5 = false := by
  rw [and_low7 f _ (by decide), bit_low7 f 5 (by decide)]; exact (low7_flags (f % 128) (Nat.mod_lt _ (by decide))).2.2.2.2.1
@[simp] theorem isall_monitored (f : Nat) : ISALL f FLAG_MONITORED = bit f 2 := by
  unfold ISALL
  rw [and_low7 f _ (by decide), bit_low7 f 2 (by decide)]; exact (low7_flags (f % 128) (Nat.mod_lt _ (by decide))).2.2.2.2.2.1
@[simp] theorem isall_active (f : Nat) : ISALL f FLAG_ACTIVE = bit f 3 := by
  unfold ISALL
  rw [and_low7 f _ (by decide), bit_low7 f 3 (by decide)]; exact (low7_flags (f % 128) (Nat.mod_lt _ (by decide))).2.2.2.2.2.2.1
@[simp] theorem isall_registered (f : Nat) : ISALL f FLAG_REGISTERED = bit f 6 := by
  unfold ISALL
  rw [and_low7 f _ (by decide), bit_low7 f 6 (by decide)]; exact (low7_flags (f % 128) (Nat.mod_lt _ (by decide))).2.2.2.2.2.2.2.1
@[simp] theorem isany_erroneous (f : Nat) : ISANY f FLAG_ERRONEOUS = bit f 5 := by
  unfold ISANY
  rw [and_low7 f _ (by decide), bit_low7 f 5 (by decide)]; exact (low7_flags (f % 128) (Nat.mod_lt _ (by decide))).2.2.2.2.2.2.2.2.1
@[simp] theorem isall_shut_both (f : Nat) : ISALL f FLAG_SHUT_BOTH = (bit f 0 && bit f 1) := by
  unfold ISALL
  rw [and_low7 f _ (by decide), bit_low7 f 0 (by decide), bit_low7 f 1 (by decide)]
  exact (low7_flags (f % 128) (Nat.mod_lt _ (by decide))).2.2.2.2.2.2.2.2.2.1
@[simp] theorem shut_both_bits (f : Nat) :
    FLAG_SHUT_BOTH = f &&& FLAG_SHUT_BOTH ↔ (bit f 0 = true ∧ bit f 1 = true) := by
  rw [and_low7 f _ (by decide), bit_low7 f 0 (by decide), bit_low7 f 1 (by decide)]
  exact (low7_flags (f % 128) (Nat.mod_lt _ (by decide))).2.2.2.2.2.2.2.2.2.2.1
@[simp] theorem listed_bits (f : Nat) :
    f &&& FLAG_LISTED = 0 ↔ (bit f 2 = false ∧ bit f 3 = false) := by
  rw [and_low7 f _ (by decide), bit_low7 f 2 (by decide), bit_low7 f 3 (by decide)]
  exact (low7_flags (f % 128) (Nat.mod_lt _ (by decide))).2.2.2.2.2.2.2.2.2.2.2

@[simp] theorem epollin_bit (e : Nat) : e &&& EPOLLIN = 0 ↔ bit e 0 = false := by
  rw [and_low7 e _ (by decide), bit_low7 e 0 (by decide)]; exact (low7_events (e % 128) (Nat.mod_lt _ (by decide))).1
@[simp] theorem epollout_bit (e : Nat) : e &&& EPOLLOUT = 0 ↔ bit e 2 = false := by
  rw [and_low7 e _ (by decide), bit_low7 e 2 (by decide)]; exact (low7_events (e % 128) (Nat.mod_lt _ (by decide))).2.1
@[simp] theorem epollerr_bit (e : Nat) : e &&& EPOLLERR = 0 ↔ bit e 3 = false := by
  rw [and_low7 e _ (by decide), bit_low7 e 3 (by decide)]; exact (low7_events (e % 128) (Nat.mod_lt _ (by decide))).2.2.1
@[simp] theorem epollhup_bit (e : Nat) : e &&& EPOLLHUP = 0 ↔ bit e 4 = false := by
  rw [and_low7 e _ (by decide), bit_low7 e 4 (by decide)]; exact (low7_events (e % 128) (Nat.mod_lt _ (by decide))).2.2.2.1
@[simp] theorem both_bits (e : Nat) :
    e &&& BOTH = 0 ↔ (bit e 0 = false ∧ bit e 2 = false) := by
  rw [and_low7 e _ (by decide), bit_low7 e 0 (by decide), bit_low7 e 2 (by decide)]
  exact (low7_events (e % 128) (Nat.mod_lt _ (by decide))).2.2.2.2

@[simp] theorem bit_and (a b k : Nat) : bit (a &&& b) k = (bit a k && bit b k) :=
  Nat.testBit_and a b k
@[simp] theorem bit_or (a b k : Nat) : bit (a ||| b) k = (bit a k || bit b k) :=
  Nat.testBit_or a b k
@[simp] theorem bit_ite (c : Prop) [Decidable c] (a b k : Nat) :
    bit (if c then a else b) k = if c then bit a k else bit b k := by
  split <;> rfl
@[simp] theorem bit_zero_word (k : Nat) : bit 0 k = false := Nat.zero_testBit k
@[simp] theorem bit_NOT32 (x k : Nat) : bit (NOT32 x) k = (decide (k < 32) ^^ bit x k) := by
  unfold NOT32 bit
  rw [Nat.testBit_xor, show (0xFFFFFFFF : Nat) = 2 ^ 32 - 1 by norm_num,
    Nat.testBit_two_pow_sub_one]
@[simp] theorem bit_SHUT_SENT (k : Nat) : bit FLAG_SHUT_SENT k = decide (0 = k) :=
  @Nat.testBit_two_pow 0 k
@[simp] theorem bit_SHUT_RECV (k : Nat) : bit FLAG_SHUT_RECV k = decide (1 = k) :=
  @Nat.testBit_two_pow 1 k
@[simp] theorem bit_MONITORED (k : Nat) : bit FLAG_MONITORED k = decide (2 = k) :=
  @Nat.testBit_two_pow 2 k
@[simp] theorem bit_ACTIVE (k : Nat) : bit FLAG_ACTIVE k = decide (3 = k) :=
  @Nat.testBit_two_pow 3 k
@[simp] theorem bit_ERRONEOUS (k : Nat) : bit FLAG_ERRONEOUS k = decide (5 = k) :=
  @Nat.testBit_two_pow 5 k
@[simp] theorem bit_REGISTERED (k : Nat) : bit FLAG_REGISTERED k = decide (6 = k) :=
  @Nat.testBit_two_pow 6 k
@[simp] theorem bit_EPOLLIN (k : Nat) : bit EPOLLIN k = decide (0 = k) :=
  @Nat.testBit_two_pow 0 k
@[simp] theorem bit_EPOLLOUT (k : Nat) : bit EPOLLOUT k = decide (2 = k) :=
  @Nat.testBit_two_pow 2 k
@[simp] theorem bit_EPOLLERR (k : Nat) : bit EPOLLERR k = decide (3 = k) :=
  @Nat.testBit_two_pow 3 k
@[simp] theorem bit_EPOLLHUP (k : Nat) : bit EPOLLHUP k = decide (4 = k) :=
  @Nat.testBit_two_pow 4 k
@[simp] theorem bit_LISTED (k : Nat) :
    bit FLAG_LISTED k = (decide (2 = k) || decide (3 = k)) := by
  simp [FLAG_LISTED]
@[simp] theorem bit_ACTIVITY (k : Nat) : bit FLAG_ACTIVITY k = decide (5 = k) := by
  simp [FLAG_ACTIVITY]
@[simp] theorem bit_SETONE (F S O k : Nat) :
    bit (SETONE F S O) k = (bit F k && (decide (k < 32) ^^ bit S k) || bit O k) := by
  simp [SETONE]
@[simp] theorem bit_SETACT (F k : Nat) :
    bit (SETACT F) k
      = (bit F k && (decide (k < 32) ^^ (decide (2 = k) || decide (3 = k))) || decide (3 = k)) := by
  simp [SETACT, SETLIST]

/-! ## C8: the interest mask -/

/-- C8. `channel_events` returns exactly the bits it should: `EPOLLOUT` iff the channel is
connecting or has a pending pipe and has not shut its write side, `EPOLLIN` iff the peer is
connected and has not shut its write side, the channel has not seen EOF and the peer has no
pending pipe; every bit of the result is one of these two. The function is a pure
function of the world: it returns the mask only, so it modifies neither channel. -/
theorem channel_events_spec (w : World) (s : Side) :
    (channel_events w s &&& EPOLLOUT ≠ 0 ↔
      (((w.chan s).status = CONNECTING ∨ (w.chan s).tosend ≠ none)
        ∧ (w.chan s).flags &&& FLAG_SHUT_SENT = 0))
    ∧ (channel_events w s &&& EPOLLIN ≠ 0 ↔
      ((w.chan s.peer).status = CONNECTED ∧ (w.chan s.peer).flags &&& FLAG_SHUT_SENT = 0
        ∧ (w.chan s).flags &&& FLAG_SHUT_RECV = 0 ∧ (w.chan s.peer).tosend = none))
    ∧ channel_events w s &&& (EPOLLIN ||| EPOLLOUT) = channel_events w s := by
  have hsome : (w.chan s).tosend.isSome = true ↔ (w.chan s).tosend ≠ none := by
    cases (w.chan s).tosend <;> simp
  unfold channel_events
  simp only [hsome, not_not]
  by_cases h1 : ((w.chan s).status = CONNECTING ∨ (w.chan s).tosend ≠ none)
      ∧ (w.chan s).flags &&& FLAG_SHUT_SENT = 0 <;>
  by_cases h2 : (w.chan s.peer).status = CONNECTED ∧ (w.chan s.peer).flags &&& FLAG_SHUT_SENT = 0
      ∧ (w.chan s).flags &&& FLAG_SHUT_RECV = 0 ∧ (w.chan s.peer).tosend = none <;>
  simp only [h1, h2, if_true, if_false, true_iff, false_iff, not_not, true_and, and_true] <;>
  decide

/-! ## Structural lemmas -/

@[simp] theorem peer_peer (s : Side) : s.peer.peer = s := by cases s <;> rfl
@[simp] theorem peer_ne (s : Side) : s.peer ≠ s := by cases s <;> decide
@[simp] theorem ne_peer (s : Side) : s ≠ s.peer := by cases s <;> decide
@[simp] theorem chan_def (w : World) (s : Side) : w.chan s = w.t.chan s := rfl
@[simp] theorem set_chan_def (w : World) (s : Side) (c : channel_t) :
    w.set_chan s c = { w with t := w.t.set s c } := rfl
@[simp] theorem emit_def (w : World) (e : sys_call) :
    w.emit e = { w with trace := w.trace ++ [e] } := rfl
@[simp] theorem chan_set_same (t : tunnel_t) (s : Side) (c : channel_t) :
    (t.set s c).chan s = c := by cases s <;> rfl
@[simp] theorem chan_set_peer (t : tunnel_t) (s : Side) (c : channel_t) :
    (t.set s c).chan s.peer = t.chan s.peer := by cases s <;> rfl
@[simp] theorem chan_set_peer2 (t : tunnel_t) (s : Side) (c : channel_t) :
    (t.set s.peer c).chan s = t.chan s := by cases s <;> rfl
@[simp] theorem addr_set (t : tunnel_t) (s : Side) (c : channel_t) :
    (t.set s c).addr = t.addr := by cases s <;> rfl
@[simp] theorem set_set (t : tunnel_t) (s : Side) (c d : channel_t) :
    (t.set s c).set s d = t.set s d := by cases s <;> rfl
@[simp] theorem ite_proxy (c : Prop) [Decidable c] (a b : World) :
    (if c then a else b).proxy = if c then a.proxy else b.proxy := by
  split <;> rfl
@[simp] theorem ite_t (c : Prop) [Decidable c] (a b : World) :
    (if c then a else b).t = if c then a.t else b.t := by
  split <;> rfl
@[simp] theorem ite_IDLE_pipe_t (c : Prop) [Decidable c] (a b : World) :
    (if c then a else b).IDLE_pipe_t = if c then a.IDLE_pipe_t else b.IDLE_pipe_t := by
  split <;> rfl
@[simp] theorem ite_IDLE_tunnel_t (c : Prop) [Decidable c] (a b : World) :
    (if c then a else b).IDLE_tunnel_t = if c then a.IDLE_tunnel_t else b.IDLE_tunnel_t := by
  split <;> rfl
@[simp] theorem ite_DIRTY_tunnel_t (c : Prop) [Decidable c] (a b : World) :
    (if c then a else b).DIRTY_tunnel_t = if c then a.DIRTY_tunnel_t else b.DIRTY_tunnel_t := by
  split <;> rfl
@[simp] theorem ite_ACTIVE_channel_t (c : Prop) [Decidable c] (a b : World) :
    (if c then a else b).ACTIVE_channel_t = if c then a.ACTIVE_channel_t else b.ACTIVE_channel_t := by
  split <;> rfl
@[simp] theorem ite_ACTIVE_proxy_t (c : Prop) [Decidable c] (a b : World) :
    (if c then a else b).ACTIVE_proxy_t = if c then a.ACTIVE_proxy_t else b.ACTIVE_proxy_t := by
  split <;> rfl
@[simp] theorem ite_count_epoll (c : Prop) [Decidable c] (a b : World) :
    (if c then a else b).count_epoll = if c then a.count_epoll else b.count_epoll := by
  split <;> rfl
@[simp] theorem ite_next_tunnel_id (c : Prop) [Decidable c] (a b : World) :
    (if c then a else b).next_tunnel_id = if c then a.next_tunnel_id else b.next_tunnel_id := by
  split <;> rfl
@[simp] theorem ite_splices (c : Prop) [Decidable c] (a b : World) :
    (if c then a else b).splices = if c then a.splices else b.splices := by
  split <;> rfl
@[simp] theorem ite_pipe2s (c : Prop) [Decidable c] (a b : World) :
    (if c then a else b).pipe2s = if c then a.pipe2s else b.pipe2s := by
  split <;> rfl
@[simp] theorem ite_trace (c : Prop) [Decidable c] (a b : World) :
    (if c then a else b).trace = if c then a.trace else b.trace := by
  split <;> rfl
@[simp] theorem ite_chan_next (c : Prop) [Decidable c] (a b : channel_t) :
    (if c then a else b).next = if c then a.next else b.next := by
  split <;> rfl
@[simp] theorem ite_chan_flags (c : Prop) [Decidable c] (a b : channel_t) :
    (if c then a else b).flags = if c then a.flags else b.flags := by
  split <;> rfl
@[simp] theorem ite_chan_events (c : Prop) [Decidable c] (a b : channel_t) :
    (if c then a else b).events = if c then a.events else b.events := by
  split <;> rfl
@[simp] theorem ite_chan_status (c : Prop) [Decidable c] (a b : channel_t) :
    (if c then a else b).status = if c then a.status else b.status := by
  split <;> rfl
@[simp] theorem ite_chan_tosend (c : Prop) [Decidable c] (a b : channel_t) :
    (if c then a else b).tosend = if c then a.tosend else b.tosend := by
  split <;> rfl
@[simp] theorem ite_chan_sock (c : Prop) [Decidable c] (a b : channel_t) :
    (if c then a else b).sock = if c then a.sock else b.sock := by
  split <;> rfl
@[simp] theorem ite_tunnel_chan (c : Prop) [Decidable c] (a b : tunnel_t) (s : Side) :
    (if c then a else b).chan s = if c then a.chan s else b.chan s := by
  split <;> rfl
@[simp] theorem ite_tunnel_addr (c : Prop) [Decidable c] (a b : tunnel_t) :
    (if c then a else b).addr = if c then a.addr else b.addr := by
  split <;> rfl
@[simp] theorem ite_fst (c : Prop) [Decidable c] (a b : World × Option pipe_t) :
    (if c then a else b).1 = if c then a.1 else b.1 := by
  split <;> rfl
@[simp] theorem ite_snd (c : Prop) [Decidable c] (a b : World × Option pipe_t) :
    (if c then a else b).2 = if c then a.2 else b.2 := by
  split <;> rfl

/-! ## What each channel operation does to the two channels -/

theorem pipe_release_snd (w : World) (pp : Option pipe_t) : (pipe_release w pp).2 = none := by
  unfold pipe_release
  cases pp with
  | none => rfl
  | some p => dsimp only; split <;> rfl

theorem pipe_release_t (w : World) (pp : Option pipe_t) : (pipe_release w pp).1.t = w.t := by
  unfold pipe_release
  cases pp with
  | none => rfl
  | some p => dsimp only; split <;> rfl

theorem pipe_release_proxy (w : World) (pp : Option pipe_t) :
    (pipe_release w pp).1.proxy = w.proxy := by
  unfold pipe_release
  cases pp with
  | none => rfl
  | some p => dsimp only; split <;> rfl

theorem pipe_release_idle_tunnel (w : World) (pp : Option pipe_t) :
    (pipe_release w pp).1.IDLE_tunnel_t = w.IDLE_tunnel_t := by
  unfold pipe_release
  cases pp with
  | none => rfl
  | some p => dsimp only; split <;> rfl

theorem pipe_release_active (w : World) (pp : Option pipe_t) :
    (pipe_release w pp).1.ACTIVE_channel_t = w.ACTIVE_channel_t
    ∧ (pipe_release w pp).1.ACTIVE_proxy_t = w.ACTIVE_proxy_t
    ∧ (pipe_release w pp).1.DIRTY_tunnel_t = w.DIRTY_tunnel_t
    ∧ (pipe_release w pp).1.splices = w.splices := by
  unfold pipe_release
  cases pp with
  | none => simp
  | some p => dsimp only; split <;> simp

theorem channel_shut_self (w : World) (s : Side) :
    (channel_shut w s).t.chan s =
      if bit (w.t.chan s).flags 0 = false ∧ (w.t.chan s).tosend = none then
        { w.t.chan s with flags := (w.t.chan s).flags ||| FLAG_SHUT_SENT,
                          events := (w.t.chan s).events &&& NOT32 EPOLLOUT }
      else w.t.chan s := by
  unfold channel_shut
  cases h : (w.t.chan s).tosend with
  | none =>
    by_cases hb : bit (w.t.chan s).flags 0 = true
    · simp [hb, h]
    · simp [hb, h, pipe_release]
  | some p =>
    by_cases hb : bit (w.t.chan s).flags 0 = true
    · simp [hb, h]
    · simp [hb, h]

theorem channel_shut_peer (w : World) (s : Side) :
    (channel_shut w s).t.chan s.peer = w.t.chan s.peer := by
  unfold channel_shut
  cases h : (w.t.chan s).tosend with
  | none =>
    by_cases hb : bit (w.t.chan s).flags 0 = true
    · simp [hb, h]
    · simp [hb, h, pipe_release]
  | some p =>
    by_cases hb : bit (w.t.chan s).flags 0 = true
    · simp [hb, h]
    · simp [hb, h]

theorem channel_shut_frame (w : World) (s : Side) :
    (channel_shut w s).proxy = w.proxy
    ∧ (channel_shut w s).IDLE_tunnel_t = w.IDLE_tunnel_t
    ∧ (channel_shut w s).IDLE_pipe_t = w.IDLE_pipe_t
    ∧ (channel_shut w s).t.addr = w.t.addr := by
  unfold channel_shut
  cases h : (w.t.chan s).tosend with
  | none =>
    by_cases hb : bit (w.t.chan s).flags 0 = true
    · simp [hb, h]
    · simp [hb, h, pipe_release]
  | some p =>
    by_cases hb : bit (w.t.chan s).flags 0 = true
    · simp [hb, h]
    · simp [hb, h]

theorem channel_shut_peer2 (w : World) (s : Side) :
    (channel_shut w s.peer).t.chan s = w.t.chan s := by
  have h := channel_shut_peer w s.peer
  simpa using h

theorem channel_patch_self (w : World) (s : Side) :
    (channel_patch w s).t.chan s =
      if bit (w.t.chan s).flags 1 = true then
        { w.t.chan s with events := (w.t.chan s).events &&& NOT32 EPOLLIN, tosend := none }
      else w.t.chan s := by
  unfold channel_patch
  by_cases hb : bit (w.t.chan s).flags 1 = true
  · cases h : (w.t.chan s).tosend with
    | none => simp [hb, channel_shut_peer2, h]
    | some p => simp [hb, h, pipe_release_t, pipe_release_snd, channel_shut_peer2]
  · simp [hb]

theorem channel_patch_peer (w : World) (s : Side) :
    (channel_patch w s).t.chan s.peer =
      if bit (w.t.chan s).flags 1 = true ∧ bit (w.t.chan s.peer).flags 0 = false
          ∧ (w.t.chan s.peer).tosend = none then
        { w.t.chan s.peer with flags := (w.t.chan s.peer).flags ||| FLAG_SHUT_SENT,
                               events := (w.t.chan s.peer).events &&& NOT32 EPOLLOUT }
      else w.t.chan s.peer := by
  unfold channel_patch
  by_cases hb : bit (w.t.chan s).flags 1 = true
  · cases h : (w.t.chan s).tosend with
    | none => simp [hb, channel_shut_peer2, channel_shut_self, h]
    | some p => simp [hb, h, pipe_release_t, pipe_release_snd, channel_shut_peer2,
        channel_shut_self]
  · simp [hb]

theorem channel_patch_frame (w : World) (s : Side) :
    (channel_patch w s).proxy = w.proxy
    ∧ (channel_patch w s).IDLE_tunnel_t = w.IDLE_tunnel_t
    ∧ (channel_patch w s).t.addr = w.t.addr := by
  unfold channel_patch
  by_cases hb : bit (w.t.chan s).flags 1 = true
  · cases h : (w.t.chan s).tosend with
    | none => simp [hb, channel_shut_peer2, channel_shut_frame, h]
    | some p => simp [hb, h, pipe_release_t, pipe_release_proxy, pipe_release_idle_tunnel,
        channel_shut_peer2, channel_shut_frame]
  · simp [hb]

theorem channel_patch_peer2 (w : World) (s : Side) :
    (channel_patch w s.peer).t.chan s =
      if bit (w.t.chan s.peer).flags 1 = true ∧ bit (w.t.chan s).flags 0 = false
          ∧ (w.t.chan s).tosend = none then
        { w.t.chan s with flags := (w.t.chan s).flags ||| FLAG_SHUT_SENT,
                          events := (w.t.chan s).events &&& NOT32 EPOLLOUT }
      else w.t.chan s := by
  have h := channel_patch_peer w s.peer
  simpa using h

theorem channel_close_frame (w : World) (s : Side) :
    (channel_close w s).proxy = w.proxy
    ∧ (channel_close w s).IDLE_tunnel_t = w.IDLE_tunnel_t
    ∧ (channel_close w s).DIRTY_tunnel_t = w.DIRTY_tunnel_t
    ∧ (channel_close w s).ACTIVE_proxy_t = w.ACTIVE_proxy_t
    ∧ (channel_close w s).t.addr = w.t.addr := by
  unfold channel_close
  by_cases h : (w.t.chan s).sock < 0
  · simp [h]
  · simp [h, pipe_release_t, pipe_release_proxy, pipe_release_idle_tunnel, pipe_release_active]

theorem tunnel_release_spec (w : World) :
    (tunnel_release w).t.front = channel_zero
    ∧ (tunnel_release w).t.back = channel_zero
    ∧ (tunnel_release w).t.addr = w.t.addr
    ∧ (tunnel_release w).IDLE_tunnel_t = w.t.addr :: w.IDLE_tunnel_t
    ∧ (tunnel_release w).DIRTY_tunnel_t = w.DIRTY_tunnel_t
    ∧ (tunnel_release w).proxy = w.proxy
    ∧ (tunnel_release w).ACTIVE_proxy_t = w.ACTIVE_proxy_t := by
  simp [tunnel_release, tunnel_init, channel_close_frame]

theorem tunnel_release_chan (w : World) (s : Side) :
    (tunnel_release w).t.chan s = channel_zero := by
  cases s
  · exact (tunnel_release_spec w).1
  · exact (tunnel_release_spec w).2.1

theorem tunnel_unref_spec (w : World) :
    (tunnel_unref w).t.front = channel_zero
    ∧ (tunnel_unref w).t.back = channel_zero
    ∧ (tunnel_unref w).t.addr = w.t.addr
    ∧ (tunnel_unref w).IDLE_tunnel_t = w.t.addr :: w.IDLE_tunnel_t
    ∧ (tunnel_unref w).DIRTY_tunnel_t = w.DIRTY_tunnel_t := by
  simp [tunnel_unref, proxy_resume, tunnel_release_spec]

theorem tunnel_unref_chan (w : World) (s : Side) :
    (tunnel_unref w).t.chan s = channel_zero := by
  cases s
  · exact (tunnel_unref_spec w).1
  · exact (tunnel_unref_spec w).2.1

theorem tunnel_abort_chan (w : World) (m : abort_msg) (s : Side) :
    (tunnel_abort w m).t.chan s = channel_zero := by
  simp [tunnel_abort, tunnel_unref_chan]

theorem tunnel_abort_idle (w : World) (m : abort_msg) :
    (tunnel_abort w m).IDLE_tunnel_t = w.t.addr :: w.IDLE_tunnel_t
    ∧ (tunnel_abort w m).t.addr = w.t.addr
    ∧ (tunnel_abort w m).DIRTY_tunnel_t = w.DIRTY_tunnel_t := by
  simp [tunnel_abort, tunnel_unref_spec]

theorem channel_rearm_peer (w : World) (s : Side) (io : Nat) :
    (channel_rearm w s io).t.chan s.peer = w.t.chan s.peer := by
  simp [channel_rearm]

theorem channel_rearm_flags (w : World) (s : Side) (io : Nat) :
    bit ((channel_rearm w s io).t.chan s).flags 2 = true
    ∧ bit ((channel_rearm w s io).t.chan s).flags 3 = false := by
  simp [channel_rearm]

theorem channel_rearm_self (w : World) (s : Side) (io : Nat) :
    ((channel_rearm w s io).t.chan s).tosend = (w.t.chan s).tosend
    ∧ ((channel_rearm w s io).t.chan s).status = (w.t.chan s).status
    ∧ ((channel_rearm w s io).t.chan s).events = io
    ∧ bit ((channel_rearm w s io).t.chan s).flags 0 = bit (w.t.chan s).flags 0
    ∧ bit ((channel_rearm w s io).t.chan s).flags 1 = bit (w.t.chan s).flags 1 := by
  simp [channel_rearm]

theorem channel_rearm_frame (w : World) (s : Side) (io : Nat) :
    (channel_rearm w s io).proxy = w.proxy
    ∧ (channel_rearm w s io).IDLE_tunnel_t = w.IDLE_tunnel_t
    ∧ (channel_rearm w s io).t.addr = w.t.addr := by
  simp [channel_rearm]

theorem channel_update_listed_peer (w : World) (s : Side) :
    (channel_update_listed w s).t.chan s.peer = w.t.chan s.peer := by
  simp [channel_update_listed, channel_rearm_peer]

theorem channel_update_listed_self (w : World) (s : Side) :
    ((channel_update_listed w s).t.chan s).tosend = (w.t.chan s).tosend
    ∧ ((channel_update_listed w s).t.chan s).status = (w.t.chan s).status
    ∧ bit ((channel_update_listed w s).t.chan s).flags 0 = bit (w.t.chan s).flags 0
    ∧ bit ((channel_update_listed w s).t.chan s).flags 1 = bit (w.t.chan s).flags 1 := by
  simp [channel_update_listed, channel_rearm_self]

theorem channel_update_listed_frame (w : World) (s : Side) :
    (channel_update_listed w s).proxy = w.proxy
    ∧ (channel_update_listed w s).IDLE_tunnel_t = w.IDLE_tunnel_t
    ∧ (channel_update_listed w s).t.addr = w.t.addr := by
  simp [channel_update_listed, channel_rearm_frame]

theorem channel_update_listed_peer2 (w : World) (s : Side) :
    (channel_update_listed w s.peer).t.chan s = w.t.chan s := by
  have h := channel_update_listed_peer w s.peer
  simpa using h

theorem patched_frame (w : World) (s : Side) :
    (patched w s).proxy = w.proxy
    ∧ (patched w s).IDLE_tunnel_t = w.IDLE_tunnel_t
    ∧ (patched w s).t.addr = w.t.addr := by
  simp [patched, channel_patch_frame]

theorem channel_update_reclaim (w : World) (s : Side) (h : must_reclaim w s = true) :
    (∀ x, (channel_update w s).t.chan x = channel_zero)
    ∧ (channel_update w s).IDLE_tunnel_t = w.t.addr :: w.IDLE_tunnel_t
    ∧ (channel_update w s).t.addr = w.t.addr := by
  unfold channel_update
  simp only [must_reclaim, patched, chan_def, isall_shut_both, isany_erroneous, Bool.or_eq_true,
    Bool.and_eq_true] at h
  have hf := patched_frame w s
  simp only [patched] at hf
  simp only [chan_def, isall_shut_both, isany_erroneous, Bool.and_eq_true]
  by_cases h1 : (bit ((channel_patch (channel_patch w s) s.peer).t.chan s).flags 0 = true
      ∧ bit ((channel_patch (channel_patch w s) s.peer).t.chan s).flags 1 = true)
      ∧ bit ((channel_patch (channel_patch w s) s.peer).t.chan s.peer).flags 0 = true
      ∧ bit ((channel_patch (channel_patch w s) s.peer).t.chan s.peer).flags 1 = true
  · rw [if_pos h1]
    simp [tunnel_release_chan, tunnel_release_spec, hf]
  · rw [if_neg h1]
    by_cases h2 : bit ((channel_patch (channel_patch w s) s.peer).t.chan s).flags 5 = true
    · rw [if_pos h2]
      simp [tunnel_abort_chan, tunnel_abort_idle, hf]
    · rw [if_neg h2]
      have h3 : bit ((channel_patch (channel_patch w s) s.peer).t.chan s.peer).flags 5 = true := by
        rcases h with (h | h) | h
        · exact absurd h h1
        · exact absurd h h2
        · exact h
      rw [if_pos h3]
      simp [tunnel_abort_chan, tunnel_abort_idle, hf]

theorem side_cases (s x : Side) : x = s ∨ x = s.peer := by
  cases s <;> cases x <;> simp [Side.peer]

/-- The world `channel_update` hands to `channel_update_listed` when the tunnel survives. -/
theorem channel_update_alive_eq (w : World) (s : Side) (h : must_reclaim w s = false) :
    channel_update w s =
      channel_update_listed
        (if ((patched w s).chan s).events &&& BOTH ≠ 0 then
          { patched w s with ACTIVE_channel_t := some ((patched w s).ptr s) }.set_chan s
            { (patched w s).chan s with
                events := channel_events (patched w s) s,
                flags := SETACT ((patched w s).chan s).flags &&& NOT32 FLAG_ACTIVITY,
                next := (patched w s).ACTIVE_channel_t }
        else channel_rearm (patched w s) s (channel_events (patched w s) s)) s.peer := by
  unfold channel_update
  simp only [must_reclaim, Bool.or_eq_false_iff] at h
  obtain ⟨⟨h1, h2⟩, h3⟩ := h
  simp only [patched] at h1 h2 h3 ⊢
  have h1' : ¬ (ISALL ((channel_patch (channel_patch w s) s.peer).chan s).flags FLAG_SHUT_BOTH = true
      ∧ ISALL ((channel_patch (channel_patch w s) s.peer).chan s.peer).flags FLAG_SHUT_BOTH
          = true) := by
    intro hc
    rw [hc.1, hc.2] at h1
    exact absurd h1 (by decide)
  rw [if_neg h1', if_neg (by rw [h2]; decide), if_neg (by rw [h3]; decide)]

theorem channel_update_alive (w : World) (s : Side) (h : must_reclaim w s = false) :
    (channel_update w s).IDLE_tunnel_t = w.IDLE_tunnel_t
    ∧ (channel_update w s).proxy = w.proxy
    ∧ (channel_update w s).t.addr = w.t.addr
    ∧ (∀ x, ((channel_update w s).t.chan x).tosend = ((patched w s).t.chan x).tosend)
    ∧ (∀ x, ((channel_update w s).t.chan x).status = ((patched w s).t.chan x).status)
    ∧ (∀ x, bit ((channel_update w s).t.chan x).flags 0 = bit ((patched w s).t.chan x).flags 0)
    ∧ (∀ x, bit ((channel_update w s).t.chan x).flags 1
        = bit ((patched w s).t.chan x).flags 1) := by
  rw [channel_update_alive_eq w s h]
  have hf := patched_frame w s
  refine ⟨?_, ?_, ?_, ?_, ?_, ?_, ?_⟩
  · simp [channel_update_listed_frame, channel_rearm_frame, hf]
  · simp [channel_update_listed_frame, channel_rearm_frame, hf]
  · simp [channel_update_listed_frame, channel_rearm_frame, hf]
  all_goals
    intro x
    rcases side_cases s x with rfl | rfl
    · simp only [channel_update_listed_peer2]
      split <;> simp [channel_rearm_self]
    · simp only [channel_update_listed_self]
      split <;> simp [channel_rearm_peer]

/-! ## C3: `MONITORED` and `ACTIVE` exclude each other -/

theorem listed_ok_iff (f : Nat) : listed_ok f ↔ (bit f 2 = true → bit f 3 = false) := by
  simp [listed_ok]

theorem listed_inv_iff (w : World) (s : Side) :
    listed_inv w ↔ (listed_ok (w.t.chan s).flags ∧ listed_ok (w.t.chan s.peer).flags) := by
  cases s
  · exact Iff.rfl
  · exact And.comm

theorem patched_bits (w : World) (s x : Side) (k : Nat) (hk : k ≠ 0) :
    bit ((patched w s).t.chan x).flags k = bit (w.t.chan x).flags k := by
  have hk' : (0 = k) = False := by simp; omega
  rcases side_cases s x with rfl | rfl
  · simp only [patched, channel_patch_peer2, channel_patch_self, channel_patch_peer]
    split <;> split <;> simp [hk']
  · simp only [patched, channel_patch_self, channel_patch_peer]
    split <;> split <;> simp [hk']

theorem channel_update_listed_ok (w : World) (s : Side) :
    listed_ok ((channel_update_listed w s).t.chan s).flags := by
  rw [listed_ok_iff]
  unfold channel_update_listed
  by_cases h2 : bit (w.t.chan s).flags 2 = true
  · simp [h2, channel_rearm_flags]
  · by_cases h3 : bit (w.t.chan s).flags 3 = true
    · simp [h2, h3]
    · simp [h2, h3]

theorem channel_update_listed_inv (w : World) (s : Side) (h : listed_inv w) :
    listed_inv (channel_update_listed w s) := by
  rw [listed_inv_iff _ s] at h ⊢
  exact ⟨channel_update_listed_ok w s, by rw [channel_update_listed_peer]; exact h.2⟩

theorem channel_update_listed_inv_peer (w : World) (s : Side) (h : listed_inv w) :
    listed_inv (channel_update_listed w s.peer) := channel_update_listed_inv w s.peer h

theorem channel_rearm_inv (w : World) (s : Side) (io : Nat) (h : listed_inv w) :
    listed_inv (channel_rearm w s io) := by
  rw [listed_inv_iff _ s] at h ⊢
  refine ⟨?_, by rw [channel_rearm_peer]; exact h.2⟩
  rw [listed_ok_iff]
  intro _
  exact (channel_rearm_flags w s io).2

theorem patched_inv (w : World) (s : Side) (h : listed_inv w) : listed_inv (patched w s) := by
  rw [listed_inv_iff _ s] at h ⊢
  simp only [listed_ok_iff] at h ⊢
  rw [patched_bits w s s 2 (by decide), patched_bits w s s 3 (by decide),
    patched_bits w s s.peer 2 (by decide), patched_bits w s s.peer 3 (by decide)]
  exact h

theorem channel_update_inv (w : World) (s : Side) (h : listed_inv w) :
    listed_inv (channel_update w s) := by
  by_cases hr : must_reclaim w s = true
  · have hz := (channel_update_reclaim w s hr).1
    rw [listed_inv_iff _ s, hz, hz]
    simp [listed_ok_iff, channel_zero]
  · have hr' : must_reclaim w s = false := by simpa using hr
    rw [channel_update_alive_eq w s hr']
    apply channel_update_listed_inv_peer
    have hp := patched_inv w s h
    split
    · rw [listed_inv_iff _ s] at hp ⊢
      simp only [listed_ok_iff] at hp ⊢
      simpa using hp.2
    · exact channel_rearm_inv _ s _ hp

/-- C3. At most one of `MONITORED` and `ACTIVE` is set on each channel of the tunnel:
if this holds before `channel_rearm`, `channel_update`, `channel_update_listed`, the
monitored-to-active promotion of `manage_monitored_items` or the shift-and-clear of the
main loop, it holds afterwards. -/
theorem listed_exclusive_preserved (w : World) (s : Side) (io events : Nat)
    (h : listed_inv w) :
    listed_inv (channel_rearm w s io)
    ∧ listed_inv (channel_update w s)
    ∧ listed_inv (channel_update_listed w s)
    ∧ listed_inv (promote_channel w s events)
    ∧ listed_inv (main_loop_shift_channel w s).1 := by
  refine ⟨channel_rearm_inv w s io h, channel_update_inv w s h,
    channel_update_listed_inv w s h, ?_, ?_⟩
  · rw [listed_inv_iff _ s] at h ⊢
    simp only [listed_ok_iff] at h ⊢
    simpa [promote_channel] using h.2
  · rw [listed_inv_iff _ s] at h ⊢
    simp only [listed_ok_iff] at h ⊢
    simpa [main_loop_shift_channel] using h.2

/-- C3, at a tunnel whose front is monitored and whose back is on the active list. -/
theorem listed_exclusive_preserved_witness :
    listed_inv world_listed
    ∧ listed_inv (channel_rearm world_listed .front EPOLLOUT)
    ∧ listed_inv (channel_update world_listed .front)
    ∧ listed_inv (channel_update_listed world_listed .front)
    ∧ listed_inv (promote_channel world_listed .front EPOLLIN)
    ∧ listed_inv (main_loop_shift_channel world_listed .front).1 :=
  have h0 : listed_inv world_listed := by
    simp [listed_inv, listed_ok_iff, world_listed, world_of, chan_of]
  ⟨h0, listed_exclusive_preserved world_listed .front EPOLLOUT EPOLLIN h0⟩

/-! ## C1: pending bytes across `channel_update` -/

theorem alive_not_reclaim (w : World) (s : Side)
    (h : (channel_update w s).IDLE_tunnel_t = w.IDLE_tunnel_t) : must_reclaim w s = false := by
  by_cases hr : must_reclaim w s = true
  · have h2 := (channel_update_reclaim w s hr).2.1
    rw [h] at h2
    exact absurd h2 (by simp)
  · simpa using hr

theorem patched_tosend (w : World) (s x : Side) :
    ((patched w s).t.chan x).tosend
      = if bit (w.t.chan x).flags 1 = true then none else (w.t.chan x).tosend := by
  rcases side_cases s x with rfl | rfl
  · simp only [patched, channel_patch_peer2, channel_patch_self, channel_patch_peer]
    split <;> split <;> simp_all
  · simp only [patched, channel_patch_self, channel_patch_peer]
    split <;> split <;> simp_all

/-- C1, counterexample. The back channel is serviced while the front, which has seen EOF,
still holds 5 bytes for its socket: `channel_update` keeps the tunnel, closes the two
ends of the pipe, and the pipe is gone from the front channel. -/
theorem tosend_kept_counterexample :
    must_reclaim world_owed .back = false
    ∧ (channel_update world_owed .back).IDLE_tunnel_t = world_owed.IDLE_tunnel_t
    ∧ (channel_update world_owed .back).trace = [.close 7, .close 8]
    ∧ (world_owed.chan .front).tosend = some { load := 5, fd0 := 7, fd1 := 8 }
    ∧ ((channel_update world_owed .back).chan .front).tosend = none := by
  decide

/-! ## C7: EOF propagation in one `channel_update` -/

theorem patched_shut_sent (w : World) (s : Side) :
    (bit ((patched w s).t.chan s.peer).flags 0
      = (bit (w.t.chan s.peer).flags 0
          || (bit (w.t.chan s).flags 1 && (w.t.chan s.peer).tosend.isNone)))
    ∧ (bit ((patched w s).t.chan s).flags 0
      = (bit (w.t.chan s).flags 0
          || (bit (w.t.chan s.peer).flags 1
              && (bit (w.t.chan s).flags 1 || (w.t.chan s).tosend.isNone)))) := by
  simp only [patched, channel_patch_peer2, channel_patch_self, channel_patch_peer]
  constructor
  · cases h1 : bit (w.t.chan s).flags 1 <;> cases h2 : bit (w.t.chan s.peer).flags 0 <;>
      cases h3 : (w.t.chan s.peer).tosend <;> cases h4 : bit (w.t.chan s.peer).flags 1 <;>
      simp [h1, h2, h3, h4]
  · cases h1 : bit (w.t.chan s).flags 1 <;> cases h2 : bit (w.t.chan s).flags 0 <;>
      cases h3 : (w.t.chan s).tosend <;> cases h4 : bit (w.t.chan s.peer).flags 1 <;>
      cases h5 : bit (w.t.chan s.peer).flags 0 <;> cases h6 : (w.t.chan s.peer).tosend <;>
      simp [h1, h2, h3, h4, h5, h6]

/-- C7, counterexample. The front is serviced and carries `SHUT_RECV`; the back has seen
EOF too and still owes 5 bytes. After `channel_update` the tunnel is alive, the front
carries `SHUT_RECV`, and the back has neither `SHUT_SENT` nor a pending pipe. -/
theorem eof_propagated_counterexample :
    must_reclaim world_both_eof .front = false
    ∧ (channel_update world_both_eof .front).IDLE_tunnel_t = world_both_eof.IDLE_tunnel_t
    ∧ ((channel_update world_both_eof .front).chan .front).flags &&& FLAG_SHUT_RECV ≠ 0
    ∧ ((channel_update world_both_eof .front).chan .back).flags &&& FLAG_SHUT_SENT = 0
    ∧ ((channel_update world_both_eof .front).chan .back).tosend = none := by
  decide

/-- C7, amended. When `channel_update (c)` neither releases nor aborts the tunnel, and the
pending pipes carry a load `> 0` at entry, then for each channel x of the tunnel that has
`SHUT_RECV` afterwards, the peer of x has `SHUT_SENT` or still holds a pending pipe with
load `> 0`; this for x = c.peer always, and for x = c unless c.peer entered with
`SHUT_RECV`, without `SHUT_SENT` and with a pending pipe. -/
theorem eof_propagated (w : World) (s x : Side)
    (halive : (channel_update w s).IDLE_tunnel_t = w.IDLE_tunnel_t)
    (hload : ∀ y p, (w.chan y).tosend = some p → 0 < p.load)
    (hx : ((channel_update w s).chan x).flags &&& FLAG_SHUT_RECV ≠ 0)
    (hdefer : ¬ (x = s ∧ (w.chan s.peer).flags &&& FLAG_SHUT_RECV ≠ 0
      ∧ (w.chan s.peer).flags &&& FLAG_SHUT_SENT = 0 ∧ (w.chan s.peer).tosend ≠ none)) :
    ((channel_update w s).chan x.peer).flags &&& FLAG_SHUT_SENT ≠ 0
    ∨ ∃ p, ((channel_update w s).chan x.peer).tosend = some p ∧ 0 < p.load := by
  have hr := alive_not_reclaim w s halive
  obtain ⟨-, -, -, ht, -, hb0, hb1⟩ := channel_update_alive w s hr
  simp only [chan_def, Ne, shut_recv_bit, shut_sent_bit, Bool.not_eq_false] at hx hdefer hload ⊢
  rw [hb1 x, patched_bits w s x 1 (by decide)] at hx
  rw [hb0 x.peer, ht x.peer, patched_tosend]
  obtain ⟨hps, hss⟩ := patched_shut_sent w s
  rcases side_cases s x with rfl | rfl
  · rw [hps]
    simp only [true_and, not_and, Decidable.not_not] at hdefer
    cases h3 : (w.t.chan x.peer).tosend with
    | none => simp [hx]
    | some p =>
      cases h1 : bit (w.t.chan x.peer).flags 0 with
      | true => simp
      | false =>
        cases h4 : bit (w.t.chan x.peer).flags 1 with
        | true => exact absurd (hdefer h4 h1) (by simp [h3])
        | false => simp [hx, hload x.peer p h3]
  · simp only [peer_peer] at hx ⊢
    rw [hss]
    cases h3 : (w.t.chan s).tosend with
    | none => simp [hx]
    | some p =>
      cases h1 : bit (w.t.chan s).flags 1 with
      | true => simp [hx]
      | false => simp [hx, hload s p h3]

/-- C7 amended, at a tunnel whose serviced front has seen EOF while the back still owes 5
bytes: the half-close of the back is deferred by these bytes. -/
theorem eof_propagated_witness :
    ((channel_update world_pending .front).chan .back).flags &&& FLAG_SHUT_SENT ≠ 0
    ∨ ∃ p, ((channel_update world_pending .front).chan .back).tosend = some p ∧ 0 < p.load :=
  eof_propagated world_pending .front .front (by decide)
    (by
      intro y p h
      cases y
      · have hn : (world_pending.chan .front).tosend = none := by decide
        rw [hn] at h
        cases h
      · have h5 : p = { load := 5, fd0 := 7, fd1 := 8 } := by
          have h6 : (world_pending.chan .back).tosend = some { load := 5, fd0 := 7, fd1 := 8 } := by
            decide
          rw [h6] at h
          exact (Option.some.inj h).symm
        rw [h5]
        decide)
    (by decide) (by decide)

/-! ## C2: `SHUT_SENT` implies no pending pipe -/

/-- What `_pipe_resume_loop` leaves behind, whatever `splice` answers: the peer and the
pools of tunnels are untouched, the channel keeps its status and every flag but
`ERRONEOUS`, and its `tosend` slot is either as the caller left it or holds a pipe again
(the `EAGAIN` exit). -/
theorem pipe_resume_loop_spec (s : Side) :
    ∀ (rs : List splice_rc) (w : World) (p : pipe_t) (w1 : World),
      _pipe_resume_loop s rs w p = some w1 →
      w1.t.chan s.peer = w.t.chan s.peer
      ∧ (w1.t.chan s).status = (w.t.chan s).status
      ∧ (∀ k, k ≠ 5 → bit (w1.t.chan s).flags k = bit (w.t.chan s).flags k)
      ∧ w1.proxy = w.proxy ∧ w1.IDLE_tunnel_t = w.IDLE_tunnel_t ∧ w1.t.addr = w.t.addr
      ∧ ((w1.t.chan s).tosend = (w.t.chan s).tosend ∨ ∃ q, (w1.t.chan s).tosend = some q) := by
  intro rs
  induction rs with
  | nil =>
    intro w p w1 h
    unfold _pipe_resume_loop at h
    by_cases hl : p.load ≠ 0
    · rw [if_pos hl] at h
      cases h
    · rw [if_neg hl] at h
      cases h
      simp [pipe_release_t, pipe_release_proxy, pipe_release_idle_tunnel]
  | cons r rs ih =>
    intro w p w1 h
    unfold _pipe_resume_loop at h
    by_cases hl : p.load ≠ 0
    · rw [if_pos hl] at h
      by_cases hrc : r.rc < 0
      · simp only [hrc, if_true] at h
        by_cases he : r.errno = EAGAIN
        · rw [if_pos he] at h
          cases h
          simp
        · rw [if_neg he] at h
          cases h
          simp only [pipe_release_t, pipe_release_proxy, pipe_release_idle_tunnel]
          simp
          intro k hk
          simp [show (5 = k) = False by simp; omega]
      · simp only [hrc, if_false] at h
        have := ih _ _ _ h
        simpa using this
    · rw [if_neg hl] at h
      cases h
      simp [pipe_release_t, pipe_release_proxy, pipe_release_idle_tunnel]

theorem pipe_resume_spec (w : World) (s : Side) (w1 : World) (h : _pipe_resume w s = some w1) :
    (w.t.chan s).tosend ≠ none
    ∧ w1.t.chan s.peer = w.t.chan s.peer
    ∧ (w1.t.chan s).status = (w.t.chan s).status
    ∧ (∀ k, k ≠ 5 → bit (w1.t.chan s).flags k = bit (w.t.chan s).flags k)
    ∧ w1.proxy = w.proxy ∧ w1.IDLE_tunnel_t = w.IDLE_tunnel_t ∧ w1.t.addr = w.t.addr := by
  unfold _pipe_resume at h
  cases hp : (w.t.chan s).tosend with
  | none => simp [hp] at h
  | some p =>
    simp only [chan_def, hp] at h
    have := pipe_resume_loop_spec s _ _ _ _ h
    simp at this
    exact ⟨by simp, this.1, this.2.1, this.2.2.1, this.2.2.2.1, this.2.2.2.2.1,
      this.2.2.2.2.2.1⟩

theorem pipe_resume_peer2 (w : World) (s : Side) (w1 : World)
    (h : _pipe_resume w s.peer = some w1) :
    (w.t.chan s.peer).tosend ≠ none
    ∧ w1.t.chan s = w.t.chan s
    ∧ (w1.t.chan s.peer).status = (w.t.chan s.peer).status
    ∧ (∀ k, k ≠ 5 → bit (w1.t.chan s.peer).flags k = bit (w.t.chan s.peer).flags k)
    ∧ w1.proxy = w.proxy ∧ w1.IDLE_tunnel_t = w.IDLE_tunnel_t ∧ w1.t.addr = w.t.addr := by
  have := pipe_resume_spec w s.peer w1 h
  simpa using this

theorem acquire_pipe_t_frame (w : World) :
    (acquire_pipe_t w).1.t = w.t ∧ (acquire_pipe_t w).1.proxy = w.proxy
    ∧ (acquire_pipe_t w).1.IDLE_tunnel_t = w.IDLE_tunnel_t
    ∧ (acquire_pipe_t w).1.splices = w.splices := by
  unfold acquire_pipe_t
  cases w.IDLE_pipe_t <;> simp

theorem pipe_init_spec (w w1 : World) (pp : Option pipe_t) (h : pipe_init w = some (w1, pp)) :
    w1.t = w.t ∧ w1.proxy = w.proxy ∧ w1.IDLE_tunnel_t = w.IDLE_tunnel_t
    ∧ w1.splices = w.splices := by
  have ha := acquire_pipe_t_frame w
  unfold pipe_init at h
  simp only [] at h
  split at h
  · split at h
    · cases h
    · split at h
      · simp only [Option.some.injEq] at h
        have h1 : w1 = (pipe_release _ _).1 := (congrArg Prod.fst h).symm
        subst h1
        simp [pipe_release_t, pipe_release_proxy, pipe_release_idle_tunnel,
          pipe_release_active, ha]
      · simp only [Option.some.injEq, Prod.mk.injEq] at h
        obtain ⟨h1, -⟩ := h
        subst h1
        simp [ha]
  · simp only [Option.some.injEq, Prod.mk.injEq] at h
    obtain ⟨h1, -⟩ := h
    subst h1
    simp [ha]

theorem transfer_pipe_spec (w w1 : World) (s : Side) (pp : Option pipe_t)
    (h : transfer_pipe w s = some (w1, pp)) :
    w1.t = w.t ∧ w1.proxy = w.proxy ∧ w1.IDLE_tunnel_t = w.IDLE_tunnel_t := by
  unfold transfer_pipe at h
  split at h
  · simp only [Option.some.injEq, Prod.mk.injEq] at h
    obtain ⟨h1, -⟩ := h
    subst h1
    simp
  · have := pipe_init_spec _ _ _ h
    exact ⟨this.1, this.2.1, this.2.2.1⟩

theorem transfer_splice_spec (w : World) (s : Side) (p : pipe_t) (r : splice_rc) :
    ((transfer_splice w s p r).1.t.chan s).tosend = (w.t.chan s).tosend
    ∧ ((transfer_splice w s p r).1.t.chan s).status = (w.t.chan s).status
    ∧ bit ((transfer_splice w s p r).1.t.chan s).flags 0 = bit (w.t.chan s).flags 0
    ∧ (transfer_splice w s p r).1.t.chan s.peer = w.t.chan s.peer
    ∧ (transfer_splice w s p r).1.proxy = w.proxy
    ∧ (transfer_splice w s p r).1.IDLE_tunnel_t = w.IDLE_tunnel_t
    ∧ (transfer_splice w s p r).1.t.addr = w.t.addr := by
  unfold transfer_splice
  simp only []
  split <;> [skip; split] <;> simp

theorem transfer_finish_spec (w : World) (s : Side) (p : pipe_t) (w1 : World)
    (h : transfer_finish w s p = some w1) :
    w1.t.chan s = w.t.chan s
    ∧ (w1.t.chan s.peer).status = (w.t.chan s.peer).status
    ∧ (∀ k, k ≠ 5 → bit (w1.t.chan s.peer).flags k = bit (w.t.chan s.peer).flags k)
    ∧ w1.proxy = w.proxy ∧ w1.IDLE_tunnel_t = w.IDLE_tunnel_t ∧ w1.t.addr = w.t.addr := by
  unfold transfer_finish at h
  split at h
  · cases h
    simp [pipe_release_t, pipe_release_proxy, pipe_release_idle_tunnel]
  · have := pipe_resume_peer2 _ _ _ h
    simpa using this.2

theorem channel_transfer_spec (w : World) (s : Side) (w1 : World)
    (h : channel_transfer w s = some w1) :
    (w1.t.chan s).tosend = (w.t.chan s).tosend
    ∧ (w1.t.chan s).status = (w.t.chan s).status
    ∧ bit (w1.t.chan s).flags 0 = bit (w.t.chan s).flags 0
    ∧ (w1.t.chan s.peer).status = (w.t.chan s.peer).status
    ∧ (∀ k, k ≠ 5 → bit (w1.t.chan s.peer).flags k = bit (w.t.chan s.peer).flags k)
    ∧ w1.proxy = w.proxy ∧ w1.IDLE_tunnel_t = w.IDLE_tunnel_t ∧ w1.t.addr = w.t.addr := by
  unfold channel_transfer at h
  simp only [] at h
  split at h
  · cases h
  · rename_i wa pp hg
    obtain ⟨hwt, hwp, hwi⟩ := transfer_pipe_spec _ _ _ _ hg
    split at h
    · cases h
      simp [hwt, hwp, hwi]
    · split at h
      · cases h
      · rename_i p _ r rest hs
        obtain ⟨h1, h2, h3, h4, h5, h6⟩ := transfer_finish_spec _ _ _ _ h
        obtain ⟨g1, g2, g3, g4, g5, g6, g7⟩ := transfer_splice_spec
          ({ wa.set_chan s.peer { wa.chan s.peer with tosend := none } with splices := rest }.emit
            (.splice ((wa.set_chan s.peer { wa.chan s.peer with tosend := none }).chan s).sock
              p.fd1 PIPE_SIZE r.rc)) s p r
        rw [h1, h2, h4, h5, h6, g1, g2, g3, g4, g5, g6, g7]
        refine ⟨by simp [hwt], by simp [hwt], by simp [hwt], by simp [hwt], ?_, by simp [hwp],
          by simp [hwi], by simp [hwt]⟩
        intro k hk
        rw [h3 k hk, g4]
        simp [hwt]

theorem shut_sent_ok_iff (c : channel_t) :
    shut_sent_ok c ↔ (bit c.flags 0 = true → c.tosend = none) := by
  simp [shut_sent_ok]

theorem shut_sent_inv_iff (w : World) (s : Side) :
    shut_sent_inv w ↔ (shut_sent_ok (w.t.chan s) ∧ shut_sent_ok (w.t.chan s.peer)) := by
  cases s
  · exact Iff.rfl
  · exact And.comm

theorem channel_shut_inv (w : World) (s : Side) (h : shut_sent_inv w) :
    shut_sent_inv (channel_shut w s) := by
  rw [shut_sent_inv_iff _ s] at h ⊢
  simp only [shut_sent_ok_iff] at h ⊢
  rw [channel_shut_peer, channel_shut_self]
  refine ⟨?_, h.2⟩
  split
  · rename_i hc
    simp [hc.2]
  · exact h.1

theorem channel_patch_inv (w : World) (s : Side) (h : shut_sent_inv w) :
    shut_sent_inv (channel_patch w s) := by
  rw [shut_sent_inv_iff _ s] at h ⊢
  simp only [shut_sent_ok_iff] at h ⊢
  rw [channel_patch_peer, channel_patch_self]
  constructor
  · split
    · simp
    · exact h.1
  · split
    · rename_i hc
      simp [hc.2.2]
    · exact h.2

theorem channel_update_shut_inv (w : World) (s : Side) (h : shut_sent_inv w) :
    shut_sent_inv (channel_update w s) := by
  by_cases hr : must_reclaim w s = true
  · have hz := (channel_update_reclaim w s hr).1
    rw [shut_sent_inv_iff _ s, hz, hz]
    simp [shut_sent_ok_iff, channel_zero]
  · have hr' : must_reclaim w s = false := by simpa using hr
    obtain ⟨-, -, -, ht, -, hb0, -⟩ := channel_update_alive w s hr'
    have hp : shut_sent_inv (patched w s) :=
      channel_patch_inv _ s.peer (channel_patch_inv w s h)
    rw [shut_sent_inv_iff _ s] at hp ⊢
    simp only [shut_sent_ok_iff] at hp ⊢
    rw [ht, ht, hb0, hb0]
    exact hp

theorem pipe_resume_inv (w : World) (s : Side) (w1 : World) (h : shut_sent_inv w)
    (hr : _pipe_resume w s = some w1) : shut_sent_inv w1 := by
  obtain ⟨h0, h1, -, h3, -⟩ := pipe_resume_spec w s w1 hr
  rw [shut_sent_inv_iff _ s] at h ⊢
  simp only [shut_sent_ok_iff] at h ⊢
  rw [h1, h3 0 (by decide)]
  refine ⟨?_, h.2⟩
  intro hb
  exact absurd (h.1 hb) h0

theorem channel_transfer_inv (w : World) (s : Side) (w1 : World) (h : shut_sent_inv w)
    (hpeer : (w.chan s.peer).flags &&& FLAG_SHUT_SENT = 0)
    (hr : channel_transfer w s = some w1) : shut_sent_inv w1 := by
  obtain ⟨h1, -, h3, -, h5, -⟩ := channel_transfer_spec w s w1 hr
  rw [shut_sent_inv_iff _ s] at h ⊢
  simp only [shut_sent_ok_iff, chan_def, shut_sent_bit] at h hpeer ⊢
  rw [h1, h3, h5 0 (by decide)]
  refine ⟨h.1, ?_⟩
  intro hb
  rw [hpeer] at hb
  cases hb

theorem channel_manage_events_inv (w : World) (s : Side) (events : Nat) (w1 : World)
    (h : shut_sent_inv w)
    (hpeer : events &&& EPOLLIN = 0 ∨ (w.chan s.peer).flags &&& FLAG_SHUT_SENT = 0)
    (hr : channel_manage_events w s events = some w1) : shut_sent_inv w1 := by
  unfold channel_manage_events at hr
  split at hr
  · cases hr
    rw [shut_sent_inv_iff _ s]
    simp [tunnel_abort_chan, shut_sent_ok_iff, channel_zero]
  · split at hr
    · cases hr
      exact h
    · split at hr
      · cases hr
        apply channel_update_shut_inv
        rw [shut_sent_inv_iff _ s] at h ⊢
        simp only [shut_sent_ok_iff] at h ⊢
        simpa using h
      · simp only [] at hr
        split at hr
        · cases hr
        · rename_i wa hra
          have hwa : shut_sent_inv wa ∧ wa.t.chan s.peer = w.t.chan s.peer := by
            split at hra
            · exact ⟨pipe_resume_inv _ _ _ h hra, (pipe_resume_spec _ _ _ hra).2.1⟩
            · cases hra
              exact ⟨h, rfl⟩
          split at hr
          · cases hr
          · rename_i wb hrb
            cases hr
            apply channel_update_shut_inv
            have hwb : shut_sent_inv wb := by
              split at hrb
              · rename_i hin
                refine channel_transfer_inv _ _ _ hwa.1 ?_ hrb
                rcases hpeer with hp | hp
                · exact absurd hp hin
                · simpa [hwa.2] using hp
              · cases hrb
                exact hwa.1
            split
            · rw [shut_sent_inv_iff _ s] at hwb ⊢
              simp only [shut_sent_ok_iff] at hwb ⊢
              simpa using hwb
            · exact hwb

/-- C2, counterexample. The invariant holds in `world_shut_back`, where the back channel
carries `SHUT_SENT`; a read event on the front makes `channel_transfer` install a pipe at
`back.tosend`, the write to the back socket answers `EAGAIN`, and the pipe stays: after
`channel_transfer`, and after the whole `channel_manage_events`, the back channel has
`SHUT_SENT` and a pending pipe. -/
theorem shut_sent_counterexample :
    (shut_sent_ok world_shut_back.t.front ∧ shut_sent_ok world_shut_back.t.back)
    ∧ (∃ w1, channel_transfer world_shut_back .front = some w1
        ∧ w1.t.back.flags &&& FLAG_SHUT_SENT ≠ 0
        ∧ w1.t.back.tosend = some { load := 5, fd0 := 7, fd1 := 8 })
    ∧ (∃ w1, channel_manage_events world_shut_back .front EPOLLIN = some w1
        ∧ w1.t.back.flags &&& FLAG_SHUT_SENT ≠ 0
        ∧ w1.t.back.tosend = some { load := 5, fd0 := 7, fd1 := 8 }) := by
  refine ⟨⟨?_, ?_⟩, ⟨_, rfl, ?_, ?_⟩, ⟨_, rfl, ?_, ?_⟩⟩
  · unfold shut_sent_ok; decide
  · unfold shut_sent_ok; decide
  · decide
  · decide
  · decide
  · decide

/-- C2, amended. `SHUT_SENT ⇒ tosend == none` on both channels is preserved by
`channel_shut`, `channel_patch`, `channel_update` and `_pipe_resume` without condition, by
`channel_transfer (src)` when `src->peer` does not carry `SHUT_SENT`, and by
`channel_manage_events (c, events)` when `events` has no `EPOLLIN` or `c->peer` does not
carry `SHUT_SENT`; this for every result of `splice` and `pipe2`. -/
theorem shut_sent_preserved (w : World) (s : Side) (events : Nat) (h : shut_sent_inv w) :
    shut_sent_inv (channel_shut w s)
    ∧ shut_sent_inv (channel_patch w s)
    ∧ shut_sent_inv (channel_update w s)
    ∧ (∀ w1, _pipe_resume w s = some w1 → shut_sent_inv w1)
    ∧ ((w.chan s.peer).flags &&& FLAG_SHUT_SENT = 0 →
        ∀ w1, channel_transfer w s = some w1 → shut_sent_inv w1)
    ∧ ((events &&& EPOLLIN = 0 ∨ (w.chan s.peer).flags &&& FLAG_SHUT_SENT = 0) →
        ∀ w1, channel_manage_events w s events = some w1 → shut_sent_inv w1) :=
  ⟨channel_shut_inv w s h, channel_patch_inv w s h, channel_update_shut_inv w s h,
    fun w1 hr => pipe_resume_inv w s w1 h hr,
    fun hp w1 hr => channel_transfer_inv w s w1 h hp hr,
    fun hp w1 hr => channel_manage_events_inv w s events w1 h hp hr⟩

/-- C2 amended, at two states where `SHUT_SENT` is carried. In `world_half_closed` the
front channel carries `SHUT_SENT` before and after a read event that moves 3 bytes from
the front socket to the back socket. In `world_front_eof` the `channel_update` of the front
channel half-closes the back channel: `SHUT_SENT` is set on it by `channel_shut`. In both
final states no channel carries `SHUT_SENT` together with a pending pipe. -/
theorem shut_sent_preserved_witness :
    (world_half_closed.t.front.flags &&& FLAG_SHUT_SENT ≠ 0
      ∧ ∃ w1, channel_manage_events world_half_closed .front EPOLLIN = some w1
        ∧ w1.t.front.flags &&& FLAG_SHUT_SENT ≠ 0
        ∧ w1.trace = [.pipe2 0, .splice 5 10 PIPE_SIZE 3, .splice 9 6 3 3]
        ∧ shut_sent_inv w1)
    ∧ (world_front_eof.t.back.flags &&& FLAG_SHUT_SENT = 0
      ∧ (channel_update world_front_eof .front).t.back.flags &&& FLAG_SHUT_SENT ≠ 0
      ∧ sys_call.shutdown_wr 6 ∈ (channel_update world_front_eof .front).trace
      ∧ shut_sent_inv (channel_update world_front_eof .front)) :=
  ⟨⟨by decide, _, rfl, by decide, by decide,
      (shut_sent_preserved world_half_closed .front EPOLLIN
        (by unfold shut_sent_inv shut_sent_ok; decide)).2.2.2.2.2 (Or.inr (by decide)) _ rfl⟩,
    by decide, by decide, by decide,
    (shut_sent_preserved world_front_eof .front 0
      (by unfold shut_sent_inv shut_sent_ok; decide)).2.2.1⟩


/-! ## C9: a latched error that is forgotten -/

/-- C9, the failing run. In `world_write_error` the write of `_pipe_resume (c)` fails with
`EPIPE` and latches `ERRONEOUS` on c. With `EPOLLIN` also in the mask, `channel_transfer`
starts by clearing `FLAG_ACTIVITY`, and the `channel_update` that ends
`channel_manage_events` keeps the tunnel: nothing is pushed on `IDLE_tunnel_t`, nothing is
logged, and neither channel carries `ERRONEOUS`. With `EPOLLOUT` alone, the same error
aborts the tunnel. -/
theorem latched_error_forgotten :
    (∃ w1, _pipe_resume world_write_error .front = some w1
        ∧ w1.t.front.flags &&& FLAG_ERRONEOUS ≠ 0)
    ∧ (∃ w2, channel_manage_events world_write_error .front (EPOLLIN ||| EPOLLOUT) = some w2
        ∧ w2.IDLE_tunnel_t = world_write_error.IDLE_tunnel_t
        ∧ sys_call.log_abort .peer_error ∉ w2.trace
        ∧ w2.t.front.flags &&& FLAG_ERRONEOUS = 0
        ∧ w2.t.back.flags &&& FLAG_ERRONEOUS = 0
        ∧ w2.t.front.tosend = none)
    ∧ (∃ w3, channel_manage_events world_write_error .front EPOLLOUT = some w3
        ∧ w3.IDLE_tunnel_t = [1]
        ∧ sys_call.log_abort .peer_error ∈ w3.trace) := by
  refine ⟨⟨_, rfl, ?_⟩, ⟨_, rfl, ?_, ?_, ?_, ?_, ?_⟩, ⟨_, rfl, ?_, ?_⟩⟩ <;> decide

/-! ## C6: the admission slot of a tunnel that closes cleanly -/

/-- C6, the failing run. In `world_closing` the proxy is at its limit and paused;
`channel_update` on the back channel finds both channels fully shut and reclaims the
tunnel with `tunnel_release`: `pipes.count` is still 8 and the proxy is neither resumed nor
put on the active list. The sibling path `tunnel_abort` on the same world decrements the
count to 7 and resumes the listener. -/
theorem clean_close_keeps_slot :
    must_reclaim world_closing .back = true
    ∧ (channel_update world_closing .back).IDLE_tunnel_t = [1]
    ∧ (channel_update world_closing .back).proxy.count = 8
    ∧ (channel_update world_closing .back).proxy.max = 8
    ∧ (channel_update world_closing .back).proxy.events = 0
    ∧ (channel_update world_closing .back).proxy.flags &&& FLAG_ACTIVE = 0
    ∧ (channel_update world_closing .back).ACTIVE_proxy_t = none
    ∧ (tunnel_abort world_closing .peer_error).proxy.count = 7
    ∧ (tunnel_abort world_closing .peer_error).proxy.events = EPOLLIN
    ∧ (tunnel_abort world_closing .peer_error).ACTIVE_proxy_t = some () := by
  decide

/-! ## C5: where a released tunnel goes -/

/-- C5, the failing run. `tunnel_release`, `tunnel_unref` and `tunnel_abort` push the
tunnel on `IDLE_tunnel_t` and leave `DIRTY_tunnel_t` empty, so the tunnel is on the idle
list before the drain at the end of the loop iteration, the drain has nothing to move,
and `tunnel_reserve` hands the same tunnel out again at once. -/
theorem release_goes_to_idle :
    (tunnel_release world_closing).IDLE_tunnel_t = [world_closing.t.addr]
    ∧ (tunnel_release world_closing).DIRTY_tunnel_t = []
    ∧ (tunnel_unref world_closing).IDLE_tunnel_t = [world_closing.t.addr]
    ∧ (tunnel_unref world_closing).DIRTY_tunnel_t = []
    ∧ (tunnel_abort world_closing .channel_error).IDLE_tunnel_t = [world_closing.t.addr]
    ∧ (tunnel_abort world_closing .channel_error).DIRTY_tunnel_t = []
    ∧ recover_tunnel_t (tunnel_release world_closing) = tunnel_release world_closing
    ∧ (tunnel_reserve (tunnel_release world_closing) 2).t.addr = world_closing.t.addr := by
  decide

/-! ## C10: the size limit of a backend URL -/

theorem emitted_refl (P : sys_call → Prop) (w : World) : emitted P w w :=
  ⟨[], by simp, by simp⟩

theorem emitted_of_trace_eq (P : sys_call → Prop) (w w1 : World) (h : w1.trace = w.trace) :
    emitted P w w1 :=
  ⟨[], by simp [h], by simp⟩

theorem emitted_trans (P : sys_call → Prop) (a b c : World) (h1 : emitted P a b)
    (h2 : emitted P b c) : emitted P a c := by
  obtain ⟨l1, e1, p1⟩ := h1
  obtain ⟨l2, e2, p2⟩ := h2
  refine ⟨l1 ++ l2, by rw [e2, e1, List.append_assoc], ?_⟩
  intro e he
  rcases List.mem_append.mp he with h | h
  · exact p1 e h
  · exact p2 e h

theorem emitted_mem (P : sys_call → Prop) (a b : World) (h : emitted P a b) (e : sys_call)
    (he : e ∈ b.trace) : e ∈ a.trace ∨ P e := by
  obtain ⟨l, e1, p1⟩ := h
  rw [e1] at he
  rcases List.mem_append.mp he with h | h
  · exact Or.inl h
  · exact Or.inr (p1 e h)

theorem emitted_sub (P : sys_call → Prop) (a b : World) (h : emitted P a b) (e : sys_call)
    (he : e ∈ a.trace) : e ∈ b.trace := by
  obtain ⟨l, e1, -⟩ := h
  rw [e1]
  exact List.mem_append.mpr (Or.inl he)

theorem pipe_release_emitted (w : World) (pp : Option pipe_t) :
    emitted is_close w (pipe_release w pp).1 := by
  unfold pipe_release
  cases pp with
  | none => exact emitted_refl _ _
  | some p =>
    dsimp only
    split
    · refine ⟨[.close p.fd0, .close p.fd1], by simp, ?_⟩
      intro e he
      simp at he
      rcases he with rfl | rfl
      · exact ⟨_, rfl⟩
      · exact ⟨_, rfl⟩
    · exact emitted_of_trace_eq _ _ _ rfl

theorem channel_close_emitted (w : World) (s : Side) :
    emitted is_close w (channel_close w s) := by
  unfold channel_close
  by_cases h : (w.t.chan s).sock < 0
  · simp only [chan_def, h, if_true]
    exact emitted_refl _ _
  · simp only [chan_def, h, if_false]
    have h1 : emitted is_close w
        ((if ISALL (w.t.chan s).flags FLAG_MONITORED = true then
            { w with count_epoll := w.count_epoll - 1 } else w).emit
          (.close (w.t.chan s).sock)) := by
      refine ⟨[.close (w.t.chan s).sock], ?_, ?_⟩
      · split <;> simp
      · intro e he
        simp at he
        exact ⟨_, he⟩
    have h2 := pipe_release_emitted
      ((if ISALL (w.t.chan s).flags FLAG_MONITORED = true then
            { w with count_epoll := w.count_epoll - 1 } else w).emit
          (.close (w.t.chan s).sock)) (w.t.chan s).tosend
    have h3 := emitted_trans _ _ _ _ h1 h2
    obtain ⟨l, e1, p1⟩ := h3
    exact ⟨l, by simpa using e1, p1⟩

theorem tunnel_release_emitted (w : World) : emitted is_close w (tunnel_release w) := by
  have h := emitted_trans _ _ _ _ (channel_close_emitted w .front)
    (channel_close_emitted (channel_close w .front) .back)
  obtain ⟨l, e1, p1⟩ := h
  exact ⟨l, by simpa [tunnel_release, tunnel_init] using e1, p1⟩

theorem tunnel_unref_emitted (w : World) : emitted is_close w (tunnel_unref w) := by
  obtain ⟨l, e1, p1⟩ := tunnel_release_emitted w
  refine ⟨l, ?_, p1⟩
  unfold tunnel_unref
  simp only []
  split <;> simp [proxy_resume, e1]

theorem tunnel_abort_emitted (w : World) (m : abort_msg) :
    ∃ l, (tunnel_abort w m).trace = w.trace ++ .log_abort m :: l ∧ ∀ e ∈ l, is_close e := by
  obtain ⟨l, e1, p1⟩ := tunnel_unref_emitted (w.emit (.log_abort m))
  exact ⟨l, by simpa [tunnel_abort] using e1, p1⟩

theorem emitted_of_mem (P : sys_call → Prop) (w w1 : World) (l : List sys_call)
    (h : w1.trace = w.trace ++ l) (hl : ∀ e ∈ l, P e) : emitted P w w1 := ⟨l, h, hl⟩

theorem channel_rearm_emitted (w : World) (s : Side) (io : Nat) :
    emitted is_epoll_ctl w (channel_rearm w s io) := by
  have hP : ∀ op fd ev, is_epoll_ctl (.epoll_ctl op fd ev) := fun op fd ev => ⟨op, fd, ev, rfl⟩
  by_cases h1 : bit (w.t.chan s).flags 0 = true ∧ bit (w.t.chan s).flags 1 = true
  · by_cases h6 : bit (w.t.chan s).flags 6 = true
    · exact emitted_of_mem _ _ _
        [.epoll_ctl .EPOLL_CTL_DEL (w.t.chan s).sock 0,
          .epoll_ctl .EPOLL_CTL_ADD (w.t.chan s).sock (io ||| EPOLLET ||| EPOLLONESHOT)]
        (by simp [channel_rearm, h1, h6]) (by simp [hP])
    · exact emitted_of_mem _ _ _
        [.epoll_ctl .EPOLL_CTL_ADD (w.t.chan s).sock (io ||| EPOLLET ||| EPOLLONESHOT)]
        (by simp [channel_rearm, h1, h6]) (by simp [hP])
  · by_cases h6 : bit (w.t.chan s).flags 6 = true
    · by_cases hio : io = (w.t.chan s).events
      · exact emitted_of_mem _ _ _ [] (by simp [channel_rearm, h1, h6, hio]) (by simp)
      · exact emitted_of_mem _ _ _
          [.epoll_ctl .EPOLL_CTL_MOD (w.t.chan s).sock (io ||| EPOLLET ||| EPOLLONESHOT)]
          (by simp [channel_rearm, h1, h6, hio]) (by simp [hP])
    · exact emitted_of_mem _ _ _
        [.epoll_ctl .EPOLL_CTL_ADD (w.t.chan s).sock (io ||| EPOLLET ||| EPOLLONESHOT)]
        (by simp [channel_rearm, h1, h6]) (by simp [hP])

theorem tunnel_register_emitted (w : World) : emitted is_epoll_ctl w (tunnel_register w) := by
  unfold tunnel_register
  simp only []
  refine emitted_trans _ _ _ _ ?_ (channel_rearm_emitted _ _ _)
  refine emitted_trans _ _ _ _ ?_ (channel_rearm_emitted _ _ _)
  exact emitted_of_trace_eq _ _ _ (by simp)

theorem proxy_pause_emitted (w : World) : emitted is_epoll_ctl w (proxy_pause w) := by
  unfold proxy_pause
  simp only []
  split
  · exact emitted_of_trace_eq _ _ _ (by simp)
  · exact emitted_of_mem _ _ _
      [.epoll_ctl .EPOLL_CTL_MOD w.proxy.sock_front (EPOLLET ||| EPOLLONESHOT)] (by simp)
      (by simp; exact ⟨_, _, _, rfl⟩)

theorem proxy_accept_emitted (w : World) (fd : Int) (fresh : Nat) :
    emitted is_epoll_ctl w (proxy_accept w fd fresh) := by
  unfold proxy_accept
  simp only []
  split
  · refine emitted_trans _ _ _ _ ?_ (proxy_pause_emitted _)
    exact emitted_of_trace_eq _ _ _ (by simp [tunnel_reserve, tunnel_init])
  · exact emitted_of_trace_eq _ _ _ (by simp [proxy_resume, tunnel_reserve, tunnel_init])

theorem abort_log_mem (w : World) (m m1 : abort_msg) :
    sys_call.log_abort m1 ∈ (tunnel_abort w m).trace
      ↔ (sys_call.log_abort m1 ∈ w.trace ∨ m1 = m) := by
  obtain ⟨l, e1, p1⟩ := tunnel_abort_emitted w m
  rw [e1]
  simp only [List.mem_append, List.mem_cons, sys_call.log_abort.injEq]
  constructor
  · rintro (h | h | h)
    · exact Or.inl h
    · exact Or.inr h
    · obtain ⟨fd, hfd⟩ := p1 _ h
      cases hfd
  · rintro (h | h)
    · exact Or.inl h
    · exact Or.inr (Or.inl h)

theorem abort_trace_sub (w : World) (m : abort_msg) (e : sys_call) (h : e ∈ w.trace) :
    e ∈ (tunnel_abort w m).trace := by
  obtain ⟨l, e1, -⟩ := tunnel_abort_emitted w m
  rw [e1]
  exact List.mem_append.mpr (Or.inl h)

theorem register_log_mem (w : World) (m1 : abort_msg) :
    sys_call.log_abort m1 ∈ (tunnel_register w).trace ↔ sys_call.log_abort m1 ∈ w.trace := by
  constructor
  · intro h
    rcases emitted_mem _ _ _ (tunnel_register_emitted w) _ h with h | ⟨_, _, _, h⟩
    · exact h
    · cases h
  · exact emitted_sub _ _ _ (tunnel_register_emitted w) _

theorem proxy_connect_too_big (w : World) (env : accept_env) (hrc : 0 ≤ env.nn_rc)
    (hnew : sys_call.log_abort .url_too_big ∉ w.trace) :
    sys_call.log_abort .url_too_big ∈ (proxy_connect w env).trace ↔ 128 < env.nn_rc := by
  unfold proxy_connect
  rw [if_neg (by omega)]
  by_cases hbig : env.nn_rc > 128
  · rw [if_pos hbig]
    simp [abort_log_mem, hbig]
  · rw [if_neg hbig]
    simp only []
    have hno : ¬ 128 < env.nn_rc := hbig
    simp only [hno, iff_false]
    split <;> [skip; split <;> [skip; split]] <;>
      simp [abort_log_mem, register_log_mem, hnew]

theorem proxy_connect_parses (w : World) (env : accept_env) (hrc : 0 ≤ env.nn_rc)
    (hsmall : env.nn_rc ≤ 128) :
    sys_call.sockaddr_init (env.buf.take env.nn_rc.toNat ++ [0]) ∈ (proxy_connect w env).trace := by
  unfold proxy_connect
  rw [if_neg (by omega), if_neg (by omega)]
  simp only []
  have h5 : sys_call.sockaddr_init (env.buf.take env.nn_rc.toNat ++ [0])
      ∈ (w.emit (.sockaddr_init (env.buf.take env.nn_rc.toNat ++ [0]))).trace := by simp
  have h6 : sys_call.sockaddr_init (env.buf.take env.nn_rc.toNat ++ [0])
      ∈ ((w.emit (.sockaddr_init (env.buf.take env.nn_rc.toNat ++ [0]))).set_chan .back
          { (w.emit (.sockaddr_init (env.buf.take env.nn_rc.toNat ++ [0]))).t.back with
            sock := env.back_sock }).trace := by simp
  split <;> [skip; split <;> [skip; split]]
  · exact abort_trace_sub _ _ _ h5
  · exact abort_trace_sub _ _ _ h6
  · exact abort_trace_sub _ _ _ h6
  · exact emitted_sub _ _ _ (tunnel_register_emitted _) _ h6

/-- C10. A client is accepted (the listener has read interest and `accept4` returns a
descriptor) and the dispatcher answers with a message `buf` of `n` bytes. The tunnel is
aborted with "URL too big" iff `n > 128`; when `n ≤ 128` the whole message, followed by a
NUL byte, is what `sockaddr_init` receives; when `n > 128` the tunnel is reset and pushed
on the idle list. -/
theorem url_size_limit (w : World) (env : accept_env)
    (hev : w.proxy.events ≠ 0) (hfd : 0 ≤ env.accept_fd) (hrc : env.nn_rc = env.buf.length)
    (hnew : sys_call.log_abort .url_too_big ∉ w.trace) :
    (sys_call.log_abort .url_too_big ∈ (proxy_manage_event w env).trace
      ↔ 128 < env.buf.length)
    ∧ (env.buf.length ≤ 128 →
        sys_call.sockaddr_init (env.buf ++ [0]) ∈ (proxy_manage_event w env).trace)
    ∧ (128 < env.buf.length →
        (proxy_manage_event w env).t.front = channel_zero
        ∧ (proxy_manage_event w env).t.back = channel_zero
        ∧ (proxy_manage_event w env).t.addr ∈ (proxy_manage_event w env).IDLE_tunnel_t) := by
  unfold proxy_manage_event
  rw [if_neg hev, if_neg (by omega)]
  have hnew4 : sys_call.log_abort .url_too_big
      ∉ (proxy_accept w env.accept_fd env.fresh).trace := by
    intro h
    rcases emitted_mem _ _ _ (proxy_accept_emitted w _ _) _ h with h | ⟨_, _, _, h⟩
    · exact hnew h
    · cases h
  refine ⟨?_, ?_, ?_⟩
  · rw [proxy_connect_too_big _ env (by omega) hnew4, hrc]
    exact Int.ofNat_lt
  · intro hsmall
    have h := proxy_connect_parses (proxy_accept w env.accept_fd env.fresh) env (by omega)
      (by omega)
    rw [hrc] at h
    simpa using h
  · intro hbig
    unfold proxy_connect
    rw [if_neg (by omega), if_pos (by omega)]
    have hz := tunnel_abort_chan (proxy_accept w env.accept_fd env.fresh) .url_too_big
    have hi := tunnel_abort_idle (proxy_accept w env.accept_fd env.fresh) .url_too_big
    refine ⟨hz .front, hz .back, ?_⟩
    rw [hi.1, hi.2.1]
    exact List.mem_cons_self _ _

/-- C10 at the boundary: a message of 128 bytes reaches `sockaddr_init` whole and
NUL-terminated and is not rejected for its size; a message of 129 bytes is rejected. -/
theorem url_size_limit_witness :
    (sys_call.log_abort .url_too_big
        ∉ (proxy_manage_event world_accepting (env_of (List.replicate 128 49) true)).trace
      ∧ sys_call.sockaddr_init (List.replicate 128 49 ++ [0])
        ∈ (proxy_manage_event world_accepting (env_of (List.replicate 128 49) true)).trace)
    ∧ sys_call.log_abort .url_too_big
        ∈ (proxy_manage_event world_accepting (env_of (List.replicate 129 49) true)).trace :=
  have h128 := url_size_limit world_accepting (env_of (List.replicate 128 49) true)
    (by decide) (by decide) rfl (by decide)
  have h129 := url_size_limit world_accepting (env_of (List.replicate 129 49) true)
    (by decide) (by decide) rfl (by decide)
  ⟨⟨fun h => absurd (h128.1.mp h) (by simp [env_of]), h128.2.1 (by simp [env_of])⟩,
    h129.1.mpr (by simp [env_of])⟩

/-! ## C4: the admission invariant -/

theorem admission_ok_iff (p : proxy_t) :
    admission_ok p ↔ (p.count ≤ p.max
      ∧ (p.count = p.max → p.events = 0 ∧ bit p.flags 2 = false ∧ bit p.flags 3 = false)) := by
  simp [admission_ok]

theorem tunnel_unref_proxy (w : World) :
    (tunnel_unref w).proxy =
      if w.proxy.max = w.proxy.count then
        { w.proxy with count := dec32 w.proxy.count, flags := w.proxy.flags ||| FLAG_ACTIVE,
                       events := EPOLLIN, next := w.ACTIVE_proxy_t }
      else { w.proxy with count := dec32 w.proxy.count } := by
  unfold tunnel_unref
  simp only [tunnel_release_spec]
  split <;> simp [proxy_resume, tunnel_release_spec]

theorem dec32_pos (x : Nat) (h : 0 < x) : dec32 x = x - 1 := by
  unfold dec32
  rw [if_neg (by omega)]

theorem inc32_lt (x m : Nat) (h : x < m) (hm : m < 4294967296) : inc32 x = x + 1 := by
  unfold inc32
  rw [if_neg (by omega)]

theorem tunnel_unref_admission (w : World) (h : admission_ok w.proxy) (hc : 0 < w.proxy.count) :
    admission_ok (tunnel_unref w).proxy := by
  rw [admission_ok_iff] at h ⊢
  rw [tunnel_unref_proxy]
  split
  · simp only [dec32_pos _ hc]
    exact ⟨by omega, fun he => by omega⟩
  · simp only [dec32_pos _ hc]
    exact ⟨by omega, fun he => by omega⟩

theorem tunnel_abort_admission (w : World) (m : abort_msg) (h : admission_ok w.proxy)
    (hc : 0 < w.proxy.count) : admission_ok (tunnel_abort w m).proxy := by
  unfold tunnel_abort
  exact tunnel_unref_admission _ (by simpa using h) (by simpa using hc)

theorem tunnel_register_proxy (w : World) : (tunnel_register w).proxy = w.proxy := by
  simp [tunnel_register, channel_rearm_frame]

theorem proxy_connect_admission (w : World) (env : accept_env) (h : admission_ok w.proxy)
    (hc : 0 < w.proxy.count) : admission_ok (proxy_connect w env).proxy := by
  unfold proxy_connect
  simp only []
  split <;> [skip; split <;> [skip; split <;> [skip; split <;> [skip; split]]]]
  · exact tunnel_abort_admission _ _ h hc
  · exact tunnel_abort_admission _ _ h hc
  · exact tunnel_abort_admission _ _ (by simpa using h) (by simpa using hc)
  · exact tunnel_abort_admission _ _ (by simpa using h) (by simpa using hc)
  · exact tunnel_abort_admission _ _ (by simpa using h) (by simpa using hc)
  · rw [tunnel_register_proxy]
    simpa using h

theorem proxy_accept_admission (w : World) (fd : Int) (fresh : Nat)
    (h : admission_ok w.proxy) (hev : w.proxy.events ≠ 0) (hmax : w.proxy.max < 4294967296)
    (hl : w.proxy.flags &&& FLAG_LISTED = 0) :
    admission_ok (proxy_accept w fd fresh).proxy ∧ 0 < (proxy_accept w fd fresh).proxy.count := by
  rw [admission_ok_iff] at h
  rw [listed_bits] at hl
  have hlt : w.proxy.count < w.proxy.max := by
    rcases Nat.lt_or_ge w.proxy.count w.proxy.max with h1 | h1
    · exact h1
    · exact absurd (h.2 (by omega)).1 hev
  have hinc := inc32_lt _ _ hlt hmax
  rw [admission_ok_iff]
  unfold proxy_accept
  simp only []
  have hp : (tunnel_reserve w fresh).proxy = w.proxy := by simp [tunnel_reserve, tunnel_init]
  split
  · rename_i heq
    simp only [set_chan_def, hp] at heq
    simp [proxy_pause, hp, hinc, hl]
    omega
  · rename_i hne
    simp only [set_chan_def, hp] at hne
    simp only [proxy_resume, set_chan_def, hp, hinc]
    rw [hinc] at hne
    exact ⟨⟨by omega, fun he => absurd he.symm hne⟩, by omega⟩

theorem proxy_manage_event_admission (w : World) (env : accept_env)
    (h : admission_ok w.proxy) (hmax : w.proxy.max < 4294967296)
    (hl : w.proxy.flags &&& FLAG_LISTED = 0) :
    admission_ok (proxy_manage_event w env).proxy := by
  unfold proxy_manage_event
  split
  · exact h
  · rename_i hev
    split
    · rw [admission_ok_iff] at h ⊢
      have hlt : w.proxy.count < w.proxy.max := by
        rcases Nat.lt_or_ge w.proxy.count w.proxy.max with h1 | h1
        · exact h1
        · exact absurd (h.2 (by omega)).1 hev
      simp only [proxy_register]
      exact ⟨h.1, fun he => by omega⟩
    · obtain ⟨h1, h2⟩ := proxy_accept_admission w env.accept_fd env.fresh h hev hmax hl
      exact proxy_connect_admission _ env h1 h2

theorem tunnel_unref_max (w : World) : (tunnel_unref w).proxy.max = w.proxy.max := by
  rw [tunnel_unref_proxy]
  split <;> rfl

theorem tunnel_abort_max (w : World) (m : abort_msg) :
    (tunnel_abort w m).proxy.max = w.proxy.max := by
  unfold tunnel_abort
  rw [tunnel_unref_max]
  rfl

theorem proxy_connect_max (w : World) (env : accept_env) :
    (proxy_connect w env).proxy.max = w.proxy.max := by
  unfold proxy_connect
  simp only []
  split <;> [skip; split <;> [skip; split <;> [skip; split <;> [skip; split]]]] <;>
    simp [tunnel_abort_max, tunnel_register_proxy]

theorem proxy_accept_max (w : World) (fd : Int) (fresh : Nat) :
    (proxy_accept w fd fresh).proxy.max = w.proxy.max := by
  unfold proxy_accept
  simp only []
  split
  · simp only [proxy_pause]
    split <;> simp [tunnel_reserve, tunnel_init]
  · simp [proxy_resume, tunnel_reserve, tunnel_init]

theorem proxy_manage_event_max (w : World) (env : accept_env) :
    (proxy_manage_event w env).proxy.max = w.proxy.max := by
  unfold proxy_manage_event
  split <;> [skip; split]
  · rfl
  · simp [proxy_register]
  · rw [proxy_connect_max, proxy_accept_max]

/-! ## C11: the load bound of a pipe -/

theorem pipes_ok_iff (w : World) (s : Side) :
    pipes_ok w ↔ ((∀ p, (w.t.chan s).tosend = some p → load_ok p)
      ∧ (∀ p, (w.t.chan s.peer).tosend = some p → load_ok p)
      ∧ ∀ p ∈ w.IDLE_pipe_t, p.load = 0) := by
  cases s
  · simp [pipes_ok, tunnel_t.chan, Side.peer, Option.mem_def]
  · simp [pipes_ok, tunnel_t.chan, Side.peer, Option.mem_def]
    tauto

theorem pipe_release_idle (w : World) (p : pipe_t) (h0 : 0 ≤ p.load)
    (hi : ∀ q ∈ w.IDLE_pipe_t, q.load = 0) :
    ∀ q ∈ (pipe_release w (some p)).1.IDLE_pipe_t, q.load = 0 := by
  unfold pipe_release
  by_cases hl : p.load > 0
  · simp [hl]
    exact hi
  · simp [hl]
    exact ⟨by omega, hi⟩

theorem pipe_release_trace_sub (w : World) (pp : Option pipe_t) (e : sys_call)
    (h : e ∈ w.trace) : e ∈ (pipe_release w pp).1.trace := by
  unfold pipe_release
  cases pp with
  | none => simpa using h
  | some p =>
    by_cases hl : p.load > 0
    · simp [hl, h]
    · simp [hl, h]

theorem pipe_resume_loop_trace_sub (s : Side) :
    ∀ (rs : List splice_rc) (w : World) (p : pipe_t) (w1 : World),
      _pipe_resume_loop s rs w p = some w1 → ∀ e ∈ w.trace, e ∈ w1.trace := by
  intro rs
  induction rs with
  | nil =>
    intro w p w1 h e he
    unfold _pipe_resume_loop at h
    by_cases hl : p.load ≠ 0
    · rw [if_pos hl] at h
      cases h
    · rw [if_neg hl] at h
      cases h
      exact pipe_release_trace_sub _ _ _ (by simpa using he)
  | cons r rs ih =>
    intro w p w1 h e he
    unfold _pipe_resume_loop at h
    by_cases hl : p.load ≠ 0
    · rw [if_pos hl] at h
      by_cases hrc : r.rc < 0
      · simp only [hrc, if_true] at h
        by_cases hx : r.errno = EAGAIN
        · rw [if_pos hx] at h
          cases h
          simp [he]
        · rw [if_neg hx] at h
          cases h
          exact pipe_release_trace_sub _ _ _ (by simp [he])
      · simp only [hrc, if_false] at h
        exact ih _ _ _ h e (by simp [he])
    · rw [if_neg hl] at h
      cases h
      exact pipe_release_trace_sub _ _ _ (by simpa using he)

theorem pipe_resume_loop_load (s : Side) :
    ∀ (rs : List splice_rc) (w : World) (p : pipe_t) (w1 : World),
      _pipe_resume_loop s rs w p = some w1 → load_ok p → moves_ok w1.trace
      → (∀ q ∈ w.IDLE_pipe_t, q.load = 0) → (w.t.chan s).tosend = none
      → (∀ q, (w1.t.chan s).tosend = some q → load_ok q)
        ∧ (∀ q ∈ w1.IDLE_pipe_t, q.load = 0) := by
  intro rs
  induction rs with
  | nil =>
    intro w p w1 h hp hm hi hn
    unfold _pipe_resume_loop at h
    by_cases hl : p.load ≠ 0
    · rw [if_pos hl] at h
      cases h
    · rw [if_neg hl] at h
      cases h
      refine ⟨?_, pipe_release_idle _ _ hp.1 (by simpa using hi)⟩
      simp [pipe_release_t, hn]
  | cons r rs ih =>
    intro w p w1 h hp hm hi hn
    unfold _pipe_resume_loop at h
    by_cases hl : p.load ≠ 0
    · rw [if_pos hl] at h
      by_cases hrc : r.rc < 0
      · simp only [hrc, if_true] at h
        by_cases hx : r.errno = EAGAIN
        · rw [if_pos hx] at h
          cases h
          simp
          exact ⟨hp, hi⟩
        · rw [if_neg hx] at h
          cases h
          refine ⟨?_, pipe_release_idle _ _ hp.1 (by simpa using hi)⟩
          simp [pipe_release_t, hn]
      · simp only [hrc, if_false] at h
        have hmem := pipe_resume_loop_trace_sub s _ _ _ _ h
          (.splice p.fd0 (w.t.chan s).sock p.load r.rc) (by simp)
        have hle := hm _ hmem
        simp [move_ok, hrc] at hle
        refine ih _ _ _ h ⟨?_, ?_⟩ hm (by simpa using hi) (by simpa using hn)
        · simp; omega
        · have := hp.2
          simp; omega
    · rw [if_neg hl] at h
      cases h
      refine ⟨?_, pipe_release_idle _ _ hp.1 (by simpa using hi)⟩
      simp [pipe_release_t, hn]

theorem pipe_resume_load (w : World) (s : Side) (w1 : World) (h : _pipe_resume w s = some w1)
    (hm : moves_ok w1.trace) (hok : pipes_ok w) : pipes_ok w1 := by
  rw [pipes_ok_iff w s] at hok
  rw [pipes_ok_iff w1 s]
  obtain ⟨hs, hp, hi⟩ := hok
  have hpeer := (pipe_resume_spec w s w1 h).2.1
  unfold _pipe_resume at h
  cases hq : (w.t.chan s).tosend with
  | none => simp [hq] at h
  | some p =>
    simp only [chan_def, hq] at h
    have := pipe_resume_loop_load s _ _ _ _ h (hs p hq) hm (by simpa using hi) (by simp)
    exact ⟨this.1, by rw [hpeer]; exact hp, this.2⟩

theorem pipe_resume_trace_sub (w : World) (s : Side) (w1 : World)
    (h : _pipe_resume w s = some w1) : ∀ e ∈ w.trace, e ∈ w1.trace := by
  unfold _pipe_resume at h
  cases hq : (w.t.chan s).tosend with
  | none => simp [hq] at h
  | some p =>
    simp only [chan_def, hq] at h
    intro e he
    exact pipe_resume_loop_trace_sub s _ _ _ _ h e (by simpa using he)

theorem acquire_pipe_t_load (w : World) (hi : ∀ q ∈ w.IDLE_pipe_t, q.load = 0) :
    (acquire_pipe_t w).2.load = 0 ∧ (∀ q ∈ (acquire_pipe_t w).1.IDLE_pipe_t, q.load = 0) := by
  unfold acquire_pipe_t
  cases hl : w.IDLE_pipe_t with
  | nil => simpa using hi
  | cons p rest =>
    rw [hl] at hi
    simp at hi
    simpa using hi

theorem pipe_init_load (w w1 : World) (pp : Option pipe_t) (h : pipe_init w = some (w1, pp))
    (hi : ∀ q ∈ w.IDLE_pipe_t, q.load = 0) :
    (∀ p, pp = some p → p.load = 0) ∧ (∀ q ∈ w1.IDLE_pipe_t, q.load = 0) := by
  obtain ⟨ha, hb⟩ := acquire_pipe_t_load w hi
  unfold pipe_init at h
  simp only [] at h
  split at h
  · split at h
    · cases h
    · split at h
      · simp only [Option.some.injEq] at h
        have h1 : w1 = (pipe_release _ _).1 := (congrArg Prod.fst h).symm
        have h2 : pp = (pipe_release _ _).2 := (congrArg Prod.snd h).symm
        subst h1
        rw [pipe_release_snd] at h2
        subst h2
        exact ⟨by simp, pipe_release_idle _ _ (by omega) (by simpa using hb)⟩
      · simp only [Option.some.injEq, Prod.mk.injEq] at h
        obtain ⟨h1, h2⟩ := h
        subst h1 h2
        exact ⟨by simpa using ha, by simpa using hb⟩
  · simp only [Option.some.injEq, Prod.mk.injEq] at h
    obtain ⟨h1, h2⟩ := h
    subst h1 h2
    exact ⟨by simpa using ha, hb⟩

theorem transfer_finish_trace_sub (w : World) (s : Side) (p : pipe_t) (w1 : World)
    (h : transfer_finish w s p = some w1) : ∀ e ∈ w.trace, e ∈ w1.trace := by
  unfold transfer_finish at h
  intro e he
  split at h
  · cases h
    exact pipe_release_trace_sub _ _ _ he
  · exact pipe_resume_trace_sub _ _ _ h e (by simpa using he)

theorem transfer_finish_load (w : World) (s : Side) (p : pipe_t) (w1 : World)
    (h : transfer_finish w s p = some w1) (hp : load_ok p) (hm : moves_ok w1.trace)
    (hs : ∀ q, (w.t.chan s).tosend = some q → load_ok q)
    (hn : (w.t.chan s.peer).tosend = none)
    (hi : ∀ q ∈ w.IDLE_pipe_t, q.load = 0) : pipes_ok w1 := by
  unfold transfer_finish at h
  split at h
  · cases h
    rw [pipes_ok_iff _ s]
    simp only [pipe_release_t]
    exact ⟨hs, by simp [hn], pipe_release_idle _ _ hp.1 hi⟩
  · refine pipe_resume_load _ _ _ h hm ?_
    rw [pipes_ok_iff _ s]
    refine ⟨by simpa using hs, ?_, by simpa using hi⟩
    intro q hq
    simp at hq
    subst hq
    exact hp

theorem transfer_pipe_load (w wa : World) (s : Side) (pp : Option pipe_t)
    (h : transfer_pipe w s = some (wa, pp)) (hi : ∀ q ∈ w.IDLE_pipe_t, q.load = 0) :
    (∀ p, pp = some p →
      (w.t.chan s.peer).tosend = some p ∨ ((w.t.chan s.peer).tosend = none ∧ p.load = 0))
    ∧ (∀ q ∈ wa.IDLE_pipe_t, q.load = 0) ∧ wa.splices = w.splices := by
  unfold transfer_pipe at h
  split at h
  · rename_i p hp
    simp only [Option.some.injEq, Prod.mk.injEq] at h
    obtain ⟨h1, h2⟩ := h
    subst h1 h2
    exact ⟨fun q hq => Or.inl (by simpa [hq] using hp), hi, rfl⟩
  · rename_i hp
    have h1 := pipe_init_load _ _ _ h hi
    have h2 := pipe_init_spec _ _ _ h
    exact ⟨fun q hq => Or.inr ⟨by simpa using hp, h1.1 q hq⟩, h1.2, h2.2.2.2⟩

theorem transfer_splice_load (w : World) (s : Side) (p : pipe_t) (r : splice_rc) :
    (transfer_splice w s p r).1.IDLE_pipe_t = w.IDLE_pipe_t
    ∧ (transfer_splice w s p r).1.trace = w.trace
    ∧ (transfer_splice w s p r).2 = if 0 < r.rc then { p with load := p.load + r.rc } else p := by
  unfold transfer_splice
  by_cases h0 : r.rc = 0
  · simp [h0]
  · by_cases h1 : r.rc < 0
    · simp [h0, h1]
      rw [if_neg (by omega)]
    · simp [h0, h1]
      rw [if_pos (by omega)]

theorem channel_transfer_load (w : World) (s : Side) (w1 : World)
    (h : channel_transfer w s = some w1) (hok : pipes_ok w) (hm : moves_ok w1.trace)
    (hroom : ∀ p r, (w.chan s.peer).tosend = some p → w.splices.head? = some r →
      r.rc ≤ PIPE_SIZE - p.load) : pipes_ok w1 := by
  rw [pipes_ok_iff w s] at hok
  obtain ⟨hs, hp, hi⟩ := hok
  unfold channel_transfer at h
  simp only [] at h
  split at h
  · cases h
  · rename_i wa pp hg
    have hwt := (transfer_pipe_spec _ _ _ _ hg).1
    obtain ⟨hpp, hia, hsp⟩ := transfer_pipe_load _ _ _ _ hg (by simpa using hi)
    split at h
    · cases h
      rw [pipes_ok_iff _ s]
      refine ⟨?_, by simp, by simpa using hia⟩
      simpa [hwt] using hs
    · split at h
      · cases h
      · rename_i p _ r rest hsr
        obtain ⟨g1, g2, g3, g4, -⟩ := transfer_splice_spec
          ({ wa.set_chan s.peer { wa.chan s.peer with tosend := none } with splices := rest }.emit
            (.splice ((wa.set_chan s.peer { wa.chan s.peer with tosend := none }).chan s).sock
              p.fd1 PIPE_SIZE r.rc)) s p r
        obtain ⟨l1, l2, l3⟩ := transfer_splice_load
          ({ wa.set_chan s.peer { wa.chan s.peer with tosend := none } with splices := rest }.emit
            (.splice ((wa.set_chan s.peer { wa.chan s.peer with tosend := none }).chan s).sock
              p.fd1 PIPE_SIZE r.rc)) s p r
        have hmem := transfer_finish_trace_sub _ _ _ _ h
          (.splice ((wa.set_chan s.peer { wa.chan s.peer with tosend := none }).chan s).sock
              p.fd1 PIPE_SIZE r.rc) (by rw [l2]; simp)
        have hle := hm _ hmem
        simp only [move_ok, decide_eq_true_eq] at hle
        have hr : w.splices.head? = some r := by
          simp at hsr
          rw [hsp] at hsr
          simp at hsr
          simp [hsr]
        refine transfer_finish_load _ _ _ _ h ?_ hm ?_ ?_ ?_
        · rw [l3]
          rcases hpp p rfl with hq | ⟨-, hq⟩
          · simp at hq
            have hb := hp p hq
            have := hroom p r hq hr
            unfold load_ok at hb ⊢
            split
            · simp; omega
            · exact hb
          · unfold load_ok
            split
            · simp [PIPE_SIZE] at hle ⊢; omega
            · simp [hq, PIPE_SIZE]
        · rw [g1]
          simpa [hwt] using hs
        · rw [g4]
          simp
        · rw [l1]
          simpa using hia

/-- C11, counterexample. In `world_refill 524288` every pipe is within the bound and
`channel_transfer (front)` reuses the pipe installed at `back.tosend` with 5 bytes. The
read asks for `PIPE_SIZE` bytes and returns `PIPE_SIZE`, no more than asked; the write meets
`EAGAIN`: the pipe is left at `back.tosend` with load `524293 > PIPE_SIZE`. -/
theorem load_bound_counterexample :
    pipes_ok (world_refill 524288)
    ∧ ∃ w1, channel_transfer (world_refill 524288) .front = some w1
        ∧ moves_ok w1.trace
        ∧ w1.trace = [.splice 5 8 PIPE_SIZE 524288, .splice 7 6 524293 (-1)]
        ∧ w1.t.back.tosend = some { load := 524293, fd0 := 7, fd1 := 8 }
        ∧ ¬ pipes_ok w1 := by
  refine ⟨?_, _, rfl, ?_, ?_, ?_, ?_⟩
  · unfold pipes_ok load_ok; decide
  · unfold moves_ok; decide
  · decide
  · decide
  · unfold pipes_ok load_ok; decide

/-- C11, amended. With every splice returning an error or no more than the length asked,
the bound (pending pipes within `0 ≤ load ≤ PIPE_SIZE`, idle pipes empty) is preserved by
`_pipe_resume`, and by `channel_transfer (src)` when the read into a pipe reused from
`src->peer->tosend` returns no more than the room left in it, `PIPE_SIZE - load`; with
`src->peer->tosend` absent the condition is void. -/
theorem load_bound_preserved (w : World) (s : Side) (hok : pipes_ok w) :
    (∀ w1, _pipe_resume w s = some w1 → moves_ok w1.trace → pipes_ok w1)
    ∧ (∀ w1, channel_transfer w s = some w1 → moves_ok w1.trace →
        (∀ p r, (w.chan s.peer).tosend = some p → w.splices.head? = some r →
          r.rc ≤ PIPE_SIZE - p.load) → pipes_ok w1) :=
  ⟨fun w1 h hm => pipe_resume_load w s w1 h hm hok,
    fun w1 h hm hroom => channel_transfer_load w s w1 h hok hm hroom⟩

/-- C11 amended, at `world_refill 3`: the reused pipe holds 5 bytes, the read returns 3. -/
theorem load_bound_preserved_witness :
    pipes_ok (world_refill 3)
    ∧ ∃ w1, channel_transfer (world_refill 3) .front = some w1
        ∧ w1.t.back.tosend = some { load := 8, fd0 := 7, fd1 := 8 } ∧ pipes_ok w1 :=
  ⟨by unfold pipes_ok load_ok; decide, _, rfl, by decide,
    (load_bound_preserved (world_refill 3) .front (by unfold pipes_ok load_ok; decide)).2 _ rfl
      (by unfold moves_ok; decide)
      (by intro p r hp hr
          have h1 : p = { load := 5, fd0 := 7, fd1 := 8 } := by
            have : (some p : Option pipe_t) = some { load := 5, fd0 := 7, fd1 := 8 } := by
              rw [← hp]; rfl
            exact (Option.some.inj this)
          have h2 : r = { rc := 3, errno := 0 } := by
            have : (some r : Option splice_rc) = some { rc := 3, errno := 0 } := by
              rw [← hr]; rfl
            exact (Option.some.inj this)
          subst h1 h2
          decide)⟩


/-! ## C12: the write interest of a connecting channel -/

theorem channel_events_out (w : World) (s : Side) :
    bit (channel_events w s) 2
      = decide (((w.t.chan s).status = CONNECTING ∨ (w.t.chan s).tosend.isSome = true)
          ∧ bit (w.t.chan s).flags 0 = false) := by
  unfold channel_events
  simp only [chan_def]
  split <;> split <;> simp_all

theorem wants_write_iff (w : World) (x : Side) :
    wants_write w x ↔ (bit (channel_events w x) 2 = true ∧ bit (w.t.chan x).events 2 = true) := by
  simp [wants_write]

theorem connecting_ok_of (w : World)
    (h : ∀ x, (w.t.chan x).status = CONNECTING → bit (w.t.chan x).flags 0 = false →
      bit (w.t.chan x).events 2 = true) : connecting_ok w := by
  intro x hst hf
  rw [wants_write_iff, channel_events_out]
  simp only [chan_def] at hst hf
  simp at hf
  exact ⟨by simp [hst, hf], h x hst hf⟩

theorem channel_update_listed_out (w : World) (s : Side)
    (hl : (w.t.chan s).flags &&& FLAG_LISTED ≠ 0)
    (hst : (w.t.chan s).status = CONNECTING) (hf : bit (w.t.chan s).flags 0 = false) :
    bit ((channel_update_listed w s).t.chan s).events 2 = true := by
  have he := channel_events_out w s
  simp only [hst, hf, true_or, true_and, decide_True] at he
  simp at hl
  unfold channel_update_listed
  by_cases h2 : bit (w.t.chan s).flags 2 = true
  · simp [h2, channel_rearm_self, he]
  · have h3 := hl (by simpa using h2)
    simp [h2, h3, he]

theorem channel_update_out (w : World) (s : Side) (h : must_reclaim w s = false)
    (hl : (w.t.chan s.peer).flags &&& FLAG_LISTED ≠ 0) : connecting_ok (channel_update w s) := by
  apply connecting_ok_of
  intro x hst hf
  have ha := channel_update_alive w s h
  rw [ha.2.2.2.2.1 x] at hst
  rw [ha.2.2.2.2.2.1 x] at hf
  rw [channel_update_alive_eq w s h]
  rcases side_cases s x with rfl | rfl
  · rw [channel_update_listed_peer2]
    have he := channel_events_out (patched w x) x
    simp only [hst, hf, true_or, true_and, decide_True] at he
    split
    · simp [he]
    · simp [channel_rearm_self, he]
  · apply channel_update_listed_out
    · have h2 := patched_bits w s s.peer 2 (by decide)
      have h3 := patched_bits w s s.peer 3 (by decide)
      simp at hl ⊢
      split <;> simp [channel_rearm_peer, h2, h3] <;> exact hl
    · split <;> simpa [channel_rearm_peer] using hst
    · split <;> simpa [channel_rearm_peer] using hf

theorem tunnel_register_chan (w : World) :
    ((tunnel_register w).t.chan .front).status = CONNECTED
    ∧ ((tunnel_register w).t.chan .back).status = CONNECTING
    ∧ ((tunnel_register w).t.chan .back).events = EPOLLOUT := by
  simp only [tunnel_register]
  refine ⟨?_, ?_, ?_⟩
  · have h : ∀ W : World, (channel_rearm W .back EPOLLOUT).t.chan .front = W.t.chan .front :=
      fun W => channel_rearm_peer W .back EPOLLOUT
    rw [h, (channel_rearm_self _ _ _).2.1]
    simp [tunnel_t.chan, tunnel_t.set]
  · have h : ∀ W : World, (channel_rearm W .front 0).t.chan .back = W.t.chan .back :=
      fun W => channel_rearm_peer W .front 0
    rw [(channel_rearm_self _ _ _).2.1, h]
    simp [tunnel_t.chan, tunnel_t.set]
  · rw [(channel_rearm_self _ _ _).2.2.1]

theorem tunnel_register_out (w : World) : connecting_ok (tunnel_register w) := by
  apply connecting_ok_of
  intro x hst _
  obtain ⟨h1, -, h3⟩ := tunnel_register_chan w
  cases x
  · rw [h1] at hst
    exact absurd hst (by decide)
  · rw [h3]
    simp

theorem channel_manage_events_out (w : World) (s : Side) (events : Nat) (w1 : World)
    (hl : (w.t.chan s.peer).flags &&& FLAG_LISTED ≠ 0) (hst : (w.t.chan s).status ≠ 0)
    (hr : channel_manage_events w s events = some w1)
    (ha : w1.IDLE_tunnel_t = w.IDLE_tunnel_t) : connecting_ok w1 := by
  unfold channel_manage_events at hr
  split at hr
  · cases hr
    rw [(tunnel_abort_idle _ _).1] at ha
    exact absurd ha (by simp)
  · split at hr
    · rename_i h0
      exact absurd h0 hst
    · split at hr
      · cases hr
        exact channel_update_out _ _ (alive_not_reclaim _ _ (by simpa using ha)) (by simpa using hl)
      · simp only [] at hr
        split at hr
        · cases hr
        · rename_i wa hra
          have hwa : wa.t.chan s.peer = w.t.chan s.peer ∧ wa.IDLE_tunnel_t = w.IDLE_tunnel_t := by
            split at hra
            · exact ⟨(pipe_resume_spec _ _ _ hra).2.1, (pipe_resume_spec _ _ _ hra).2.2.2.2.2.1⟩
            · cases hra
              exact ⟨rfl, rfl⟩
          split at hr
          · cases hr
          · rename_i wb hrb
            cases hr
            have hwb : (∀ k, k ≠ 5 → bit (wb.t.chan s.peer).flags k = bit (w.t.chan s.peer).flags k)
                ∧ wb.IDLE_tunnel_t = w.IDLE_tunnel_t := by
              split at hrb
              · have := channel_transfer_spec _ _ _ hrb
                refine ⟨fun k hk => ?_, by rw [this.2.2.2.2.2.2.1, hwa.2]⟩
                rw [this.2.2.2.2.1 k hk, hwa.1]
              · cases hrb
                exact ⟨fun k _ => by rw [hwa.1], hwa.2⟩
            have h2 := hwb.1 2 (by decide)
            have h3 := hwb.1 3 (by decide)
            simp only [ne_eq, listed_bits, not_and, Bool.not_eq_false] at hl
            refine channel_update_out _ _ (alive_not_reclaim _ _ ?_) ?_
            · rw [ha]
              split <;> simp [hwb.2]
            · simp only [ne_eq, listed_bits, not_and, Bool.not_eq_false]
              split <;> simp [h2, h3] <;> exact hl

/-- C12, counterexample. In `world_connecting` the tunnel was just registered and the back
channel is connecting with `EPOLLOUT` armed. `EPOLLHUP` alone is delivered to the front
channel; `main_loop` takes the active list and hands the front to
`channel_manage_events`. The tunnel stays alive, the back channel is still `CONNECTING`,
but `channel_patch` has half-closed it: `SHUT_SENT` is set, a `shutdown (WR)` was issued, and
`EPOLLOUT` is neither in `channel_events (back)` nor in `back.events` (re-armed with
`EPOLLIN` only). -/
theorem connecting_counterexample :
    connecting_ok world_connecting
    ∧ ∃ w1 chans,
        main_loop_channel_turn
          (main_loop_take (promote_channel world_connecting .front EPOLLHUP)).1 .front
          = some (w1, chans)
        ∧ w1.IDLE_tunnel_t = world_connecting.IDLE_tunnel_t
        ∧ w1.t.back.status = CONNECTING
        ∧ w1.t.back.flags &&& FLAG_SHUT_SENT ≠ 0
        ∧ sys_call.shutdown_wr 6 ∈ w1.trace
        ∧ channel_events w1 .back &&& EPOLLOUT = 0
        ∧ w1.t.back.events = EPOLLIN
        ∧ ¬ wants_write w1 .back := by
  refine ⟨tunnel_register_out _, _, _, rfl, ?_, ?_, ?_, ?_, ?_, ?_, ?_⟩
  · decide
  · decide
  · decide
  · decide
  · decide
  · decide
  · unfold wants_write; decide

/-- C12, amended. After `tunnel_register`, and after every `channel_update (c)` or
`channel_manage_events (c, events)` that leaves the tunnel alive, for a live channel c
whose peer is listed (what `channel_update_listed` asserts) and for every event mask: a
channel whose status is `CONNECTING` and which does not carry `SHUT_SENT` has `EPOLLOUT`
both in the value of `channel_events` and in its `events` field. -/
theorem connecting_write_interest (w : World) (s : Side) (events : Nat) :
    connecting_ok (tunnel_register w)
    ∧ ((w.chan s.peer).flags &&& FLAG_LISTED ≠ 0 →
        (channel_update w s).IDLE_tunnel_t = w.IDLE_tunnel_t →
        connecting_ok (channel_update w s))
    ∧ ((w.chan s.peer).flags &&& FLAG_LISTED ≠ 0 → (w.chan s).status ≠ 0 →
        ∀ w1, channel_manage_events w s events = some w1 →
          w1.IDLE_tunnel_t = w.IDLE_tunnel_t → connecting_ok w1) :=
  ⟨tunnel_register_out w,
    fun hl ha => channel_update_out w s (alive_not_reclaim w s ha) hl,
    fun hl hst w1 hr ha => channel_manage_events_out w s events w1 hl hst hr ha⟩

/-- C12 amended, at `world_back_read`: `EPOLLIN` is delivered to the back channel while
it is connecting and the read meets `EAGAIN`; the front channel is monitored. The back
channel is still connecting afterwards and asks for write-readiness. -/
theorem connecting_write_interest_witness :
    ∃ w1, channel_manage_events world_back_read .back EPOLLIN = some w1
      ∧ w1.t.back.status = CONNECTING ∧ wants_write w1 .back :=
  ⟨_, rfl, by decide,
    (connecting_write_interest world_back_read .back EPOLLIN).2.2
      (by decide) (by decide) _ rfl (by decide) .back (by decide) (by decide)⟩


/-! ## C13: channel_shut is idempotent -/

theorem channel_shut_eq (w : World) (s : Side) :
    channel_shut w s =
      if (w.chan s).flags &&& FLAG_SHUT_SENT ≠ 0 ∨ (w.chan s).tosend ≠ none then w
      else
        { w with
          trace := w.trace ++ [.shutdown_wr (w.chan s).sock],
          t := w.t.set s
            { w.chan s with flags := (w.chan s).flags ||| FLAG_SHUT_SENT,
                            events := (w.chan s).events &&& NOT32 EPOLLOUT } } := by
  unfold channel_shut
  simp only [chan_def]
  by_cases h1 : (w.t.chan s).flags &&& FLAG_SHUT_SENT ≠ 0
  · rw [if_pos h1, if_pos (Or.inl h1)]
  · rw [if_neg h1]
    cases h2 : (w.t.chan s).tosend with
    | some p => simp
    | none =>
      have hb : bit (w.t.chan s).flags 0 = false := by simpa using h1
      simp [pipe_release, h2, hb]

/-- C13. `channel_shut (c)` changes nothing when c carries `SHUT_SENT` or holds a pending
pipe. Otherwise it sets `SHUT_SENT`, issues exactly one `shutdown (c.sock, SHUT_WR)`, clears
`EPOLLOUT` from `c.events`, and leaves every other flag, every other field of c, the peer
and the rest of the world unchanged. Hence `channel_shut` applied twice is `channel_shut`
applied once: the second call issues no second `shutdown`. -/
theorem channel_shut_idempotent (w : World) (s : Side) :
    (channel_shut w s =
      if (w.chan s).flags &&& FLAG_SHUT_SENT ≠ 0 ∨ (w.chan s).tosend ≠ none then w
      else
        { w with
          trace := w.trace ++ [.shutdown_wr (w.chan s).sock],
          t := w.t.set s
            { w.chan s with flags := (w.chan s).flags ||| FLAG_SHUT_SENT,
                            events := (w.chan s).events &&& NOT32 EPOLLOUT } })
    ∧ channel_shut (channel_shut w s) s = channel_shut w s
    ∧ (channel_shut (channel_shut w s) s).trace = (channel_shut w s).trace := by
  have hi : channel_shut (channel_shut w s) s = channel_shut w s := by
    rw [channel_shut_eq w s]
    split
    · rename_i h
      rw [channel_shut_eq w s, if_pos h]
    · rw [channel_shut_eq, if_pos (Or.inl (by simp))]
  exact ⟨channel_shut_eq w s, hi, by rw [hi]⟩


/-! ## C14: the exits of _pipe_resume -/

theorem moved_to_append (sock : Int) (l : List sys_call) (e : sys_call) :
    moved_to sock (l ++ [e]) = moved_to sock l + bytes_to sock e := by
  simp [moved_to]

theorem closes_append (l : List sys_call) (e : sys_call) :
    closes (l ++ [e]) = closes l + (match e with | .close _ => 1 | _ => 0) := by
  unfold closes
  rw [List.countP_append]
  cases e <;> simp

theorem pipe_zero_load (p : pipe_t) (h : p.load = 0) : { p with load := 0 } = p := by
  cases p
  simp at h
  simp [h]

/-! ## C15: channel_rearm on a fully shut channel -/

theorem channel_rearm_shut (w : World) (s : Side) (io : Nat)
    (h : FLAG_SHUT_BOTH = (w.chan s).flags &&& FLAG_SHUT_BOTH) :
    ISALL ((channel_rearm w s io).chan s).flags FLAG_MONITORED = true
    ∧ ISALL ((channel_rearm w s io).chan s).flags FLAG_REGISTERED = true
    ∧ (channel_rearm w s io).trace.getLast?
        = some (.epoll_ctl .EPOLL_CTL_ADD (w.chan s).sock (io ||| EPOLLET ||| EPOLLONESHOT))
    ∧ (channel_rearm w s io).count_epoll
        = if ISALL (w.chan s).flags FLAG_MONITORED then w.count_epoll
          else w.count_epoll + 1 := by
  simp only [chan_def, shut_both_bits] at h
  refine ⟨?_, ?_, ?_, ?_⟩
  · simp [channel_rearm]
  · simp [channel_rearm]
  · simp [channel_rearm, h.1, h.2]
  · simp [channel_rearm, h.1, h.2]
    split <;> simp

/-- C15, the failing run. For every channel that carries both `SHUT_SENT` and `SHUT_RECV`,
`channel_rearm (c, io)` first unregisters it and clears its flags, then falls through to
the registration: the last call is `epoll_ctl (ADD)` on the socket, `MONITORED` and
`REGISTERED` are set at the end, and the channel is counted in `count_epoll`. In
`world_front_shut` the calls are `DEL` then `ADD` on socket 5 and the count goes from 1
to 2; the same happens when `channel_update (front)` reaches `channel_rearm` with the tunnel
alive. -/
theorem shut_channel_rearmed :
    (∀ (w : World) (s : Side) (io : Nat),
      FLAG_SHUT_BOTH = (w.chan s).flags &&& FLAG_SHUT_BOTH →
        ISALL ((channel_rearm w s io).chan s).flags FLAG_MONITORED = true
        ∧ ISALL ((channel_rearm w s io).chan s).flags FLAG_REGISTERED = true
        ∧ (channel_rearm w s io).trace.getLast?
            = some (.epoll_ctl .EPOLL_CTL_ADD (w.chan s).sock (io ||| EPOLLET ||| EPOLLONESHOT))
        ∧ (channel_rearm w s io).count_epoll
            = if ISALL (w.chan s).flags FLAG_MONITORED then w.count_epoll
              else w.count_epoll + 1)
    ∧ FLAG_SHUT_BOTH = world_front_shut.t.front.flags &&& FLAG_SHUT_BOTH
    ∧ (channel_rearm world_front_shut .front 0).trace
        = [.epoll_ctl .EPOLL_CTL_DEL 5 0,
           .epoll_ctl .EPOLL_CTL_ADD 5 (EPOLLET ||| EPOLLONESHOT)]
    ∧ (channel_rearm world_front_shut .front 0).t.front.flags
        = FLAG_SHUT_BOTH ||| FLAG_MONITORED ||| FLAG_REGISTERED
    ∧ world_front_shut.count_epoll = 1
    ∧ (channel_rearm world_front_shut .front 0).count_epoll = 2
    ∧ (channel_update world_front_shut .front).IDLE_tunnel_t = []
    ∧ (channel_update world_front_shut .front).t.front.flags
        = FLAG_SHUT_BOTH ||| FLAG_MONITORED ||| FLAG_REGISTERED
    ∧ sys_call.epoll_ctl .EPOLL_CTL_ADD 5 (EPOLLET ||| EPOLLONESHOT)
        ∈ (channel_update world_front_shut .front).trace := by
  refine ⟨channel_rearm_shut, ?_, ?_, ?_, ?_, ?_, ?_, ?_, ?_⟩ <;> decide


/-! ## C16: re-arming a one-shot registration -/

theorem channel_rearm_trace (w : World) (s : Side) (io : Nat)
    (h : ¬ FLAG_SHUT_BOTH = (w.chan s).flags &&& FLAG_SHUT_BOTH) :
    (channel_rearm w s io).trace
      = w.trace ++
        (if ISALL (w.chan s).flags FLAG_REGISTERED then
          if io ≠ (w.chan s).events then
            [.epoll_ctl .EPOLL_CTL_MOD (w.chan s).sock (io ||| EPOLLET ||| EPOLLONESHOT)]
          else []
        else [.epoll_ctl .EPOLL_CTL_ADD (w.chan s).sock (io ||| EPOLLET ||| EPOLLONESHOT)])
    ∧ ISALL ((channel_rearm w s io).chan s).flags FLAG_MONITORED = true
    ∧ ((channel_rearm w s io).chan s).events = io
    ∧ (channel_rearm w s io).count_epoll
        = if ISALL (w.chan s).flags FLAG_MONITORED then w.count_epoll
          else w.count_epoll + 1 := by
  unfold channel_rearm
  simp only [chan_def] at h ⊢
  rw [if_neg h]
  refine ⟨?_, ?_, ?_, ?_⟩
  · by_cases h6 : bit (w.t.chan s).flags 6 = true
    · by_cases he : io = (w.t.chan s).events
      · simp [h6, he]
      · simp [h6, he]
    · simp [h6]
  · simp
  · simp
  · by_cases h2 : bit (w.t.chan s).flags 2 = true
    · simp [h2]
    · simp [h2]

/-- C16, the failing run. On a channel that is not fully shut, `channel_rearm (c, io)`
issues `ADD` when c is not `REGISTERED` and `MOD` when it is and `io != c.events`, both
carrying `io | EPOLLET | EPOLLONESHOT`; when c is `REGISTERED` and `io == c.events` it issues
nothing, yet sets `MONITORED`, stores `io` and counts the channel. In `world_reading` a read
event was consumed on the front channel: the first `channel_manage_events` reads 5 bytes
and puts the front back on the active list with `events = 0`; the next turn of `main_loop`
reaches `channel_rearm (front, 0)` from `channel_update`: the front ends `MONITORED`, counted
in `count_epoll`, and the only `epoll_ctl` of the whole run is the one on the back socket 6:
the registration of socket 5, consumed by the read event, is not armed again. -/
theorem rearm_skipped :
    (∀ (w : World) (s : Side) (io : Nat),
      ¬ FLAG_SHUT_BOTH = (w.chan s).flags &&& FLAG_SHUT_BOTH →
        (channel_rearm w s io).trace
          = w.trace ++
            (if ISALL (w.chan s).flags FLAG_REGISTERED then
              if io ≠ (w.chan s).events then
                [.epoll_ctl .EPOLL_CTL_MOD (w.chan s).sock (io ||| EPOLLET ||| EPOLLONESHOT)]
              else []
            else [.epoll_ctl .EPOLL_CTL_ADD (w.chan s).sock (io ||| EPOLLET ||| EPOLLONESHOT)])
        ∧ ISALL ((channel_rearm w s io).chan s).flags FLAG_MONITORED = true
        ∧ ((channel_rearm w s io).chan s).events = io
        ∧ (channel_rearm w s io).count_epoll
            = if ISALL (w.chan s).flags FLAG_MONITORED then w.count_epoll
              else w.count_epoll + 1)
    ∧ ∃ w1 w2 chans,
        channel_manage_events world_reading .front EPOLLIN = some w1
        ∧ w1.t.front.events = 0
        ∧ w1.ACTIVE_channel_t = some ⟨1, .front⟩
        ∧ main_loop_channel_turn (main_loop_take w1).1 .front = some (w2, chans)
        ∧ w2.IDLE_tunnel_t = []
        ∧ w2.t.front.flags = FLAG_MONITORED ||| FLAG_REGISTERED
        ∧ w2.t.front.flags &&& FLAG_SHUT_BOTH = 0
        ∧ w2.t.front.events = 0
        ∧ w2.count_epoll = w1.count_epoll + 1
        ∧ w2.trace = w1.trace
        ∧ w2.trace = [.pipe2 0, .splice 5 10 PIPE_SIZE 5, .splice 9 6 5 (-1),
            .epoll_ctl .EPOLL_CTL_MOD 6 (EPOLLIN ||| EPOLLOUT ||| EPOLLET ||| EPOLLONESHOT)] := by
  refine ⟨channel_rearm_trace, _, _, _, rfl, ?_, ?_, rfl, ?_, ?_, ?_, ?_, ?_, ?_, ?_⟩
  · decide
  · decide
  · decide
  · decide
  · decide
  · decide
  · decide
  · decide
  · decide


/-! ## C17: pipe_release and the idle list -/

theorem pipe_release_eq (w : World) (p : pipe_t) :
    pipe_release w (some p) =
      ({ w with
          IDLE_pipe_t :=
            (if p.load > 0 then { load := 0, fd0 := -1, fd1 := -1 } else p) :: w.IDLE_pipe_t,
          trace := w.trace ++ if p.load > 0 then [.close p.fd0, .close p.fd1] else [] },
        none) := by
  unfold pipe_release
  by_cases h : p.load > 0
  · simp [h]
  · simp [h]

theorem pipe_init_after_release (w : World) (p : pipe_t) :
    (p.load = 0 → 0 < p.fd0 ∨ 0 < p.fd1 →
      pipe_init (pipe_release w (some p)).1 = some (w, some p))
    ∧ (p.load = 0 → p.fd0 ≤ 0 ∧ p.fd1 ≤ 0 → ∀ r rest, w.pipe2s = r :: rest → 0 ≤ r.rc →
        pipe_init (pipe_release w (some p)).1
          = some ({ w with pipe2s := rest, trace := w.trace ++ [.pipe2 r.rc] },
                  some { load := 0, fd0 := r.fd0, fd1 := r.fd1 }))
    ∧ (0 < p.load → ∀ r rest, w.pipe2s = r :: rest → 0 ≤ r.rc →
        pipe_init (pipe_release w (some p)).1
          = some ({ w with
                    pipe2s := rest,
                    trace := w.trace ++ [.close p.fd0, .close p.fd1, .pipe2 r.rc] },
                  some { load := 0, fd0 := r.fd0, fd1 := r.fd1 })) := by
  rw [pipe_release_eq]
  refine ⟨?_, ?_, ?_⟩
  · intro hl hfd
    have hc : ¬ (p.fd0 ≤ 0 ∧ p.fd1 ≤ 0) := by omega
    simp [pipe_init, acquire_pipe_t, hc, hl]
  · intro hl hfd r rest hp hrc
    simp [pipe_init, acquire_pipe_t, hl, hfd, hp]
    intro hlt
    omega
  · intro hl r rest hp hrc
    simp [pipe_init, acquire_pipe_t, hl, hp]
    intro hlt
    omega

/-- C17. `pipe_release` on an empty slot does nothing. On a slot that holds a pipe `p`
with `0 ≤ p.load` it empties the slot and makes `p` the head of the idle list, in front
of the previous list, with load 0: when `p.load > 0` the two descriptors are closed and
set to -1, when `p.load = 0` no call is made and `p` is untouched. Hence an idle list of
empty pipes stays one, and `pipe_init` called next returns `p` with load 0: as it is,
without `pipe2`, when `p` was empty and holds an open pair; with the fresh pair of a
successful `pipe2` when the descriptors of `p` were closed (or when `p` never had any). -/
theorem pipe_release_recycles (w : World) (p : pipe_t) (h0 : 0 ≤ p.load) :
    pipe_release w none = (w, none)
    ∧ pipe_release w (some p) =
        ({ w with
            IDLE_pipe_t :=
              (if p.load > 0 then { load := 0, fd0 := -1, fd1 := -1 } else p) :: w.IDLE_pipe_t,
            trace := w.trace ++ if p.load > 0 then [.close p.fd0, .close p.fd1] else [] },
          none)
    ∧ (if p.load > 0 then ({ load := 0, fd0 := -1, fd1 := -1 } : pipe_t) else p).load = 0
    ∧ ((∀ q ∈ w.IDLE_pipe_t, q.load = 0) →
        ∀ q ∈ (pipe_release w (some p)).1.IDLE_pipe_t, q.load = 0)
    ∧ (p.load = 0 → 0 < p.fd0 ∨ 0 < p.fd1 →
        pipe_init (pipe_release w (some p)).1 = some (w, some p))
    ∧ (p.load = 0 → p.fd0 ≤ 0 ∧ p.fd1 ≤ 0 → ∀ r rest, w.pipe2s = r :: rest → 0 ≤ r.rc →
        pipe_init (pipe_release w (some p)).1
          = some ({ w with pipe2s := rest, trace := w.trace ++ [.pipe2 r.rc] },
                  some { load := 0, fd0 := r.fd0, fd1 := r.fd1 }))
    ∧ (0 < p.load → ∀ r rest, w.pipe2s = r :: rest → 0 ≤ r.rc →
        pipe_init (pipe_release w (some p)).1
          = some ({ w with
                    pipe2s := rest,
                    trace := w.trace ++ [.close p.fd0, .close p.fd1, .pipe2 r.rc] },
                  some { load := 0, fd0 := r.fd0, fd1 := r.fd1 })) := by
  refine ⟨rfl, pipe_release_eq w p, ?_, ?_, (pipe_init_after_release w p).1,
    (pipe_init_after_release w p).2.1, (pipe_init_after_release w p).2.2⟩
  · split
    · rfl
    · omega
  · intro hi q hq
    rw [pipe_release_eq] at hq
    simp only [List.mem_cons] at hq
    rcases hq with rfl | hq
    · split
      · rfl
      · omega
    · exact hi q hq

/-- C17, at `world_loaded`: the pipe of the back channel holds 5 bytes; after
`pipe_release` the idle list is headed by the closed, empty pipe, and `pipe_init` returns
it with the descriptors 9 and 10 of `pipe2`. -/
theorem pipe_release_recycles_witness :
    (pipe_release world_loaded (some { load := 5, fd0 := 7, fd1 := 8 })).1.IDLE_pipe_t
      = [{ load := 0, fd0 := -1, fd1 := -1 }, { load := 0, fd0 := 11, fd1 := 12 }]
    ∧ pipe_init (pipe_release world_loaded (some { load := 5, fd0 := 7, fd1 := 8 })).1
      = some ({ world_loaded with
                pipe2s := [],
                trace := world_loaded.trace ++ [.close 7, .close 8, .pipe2 0] },
              some { load := 0, fd0 := 9, fd1 := 10 }) :=
  ⟨by decide,
    (pipe_release_recycles world_loaded { load := 5, fd0 := 7, fd1 := 8 }
      (by decide)).2.2.2.2.2.2 (by decide) { rc := 0, fd0 := 9, fd1 := 10 } [] rfl
      (by decide)⟩


/-! ## C18: the active lists when a tunnel is released -/

theorem walk_none (nxt : chan_ptr → Option chan_ptr) (n : Nat) : walk nxt n none = [] := by
  cases n <;> rfl

theorem walk_released (w w1 : World) (others : chan_ptr → Option chan_ptr)
    (ha : w1.t.addr = w.t.addr) (hz : ∀ s, w1.t.chan s = channel_zero) :
    ∀ (n : Nat) (head : Option chan_ptr),
      walk (next_of w1 others) n head
        = upto_tunnel w.t.addr (walk (next_of w others) n head) := by
  intro n
  induction n with
  | zero => intro head; rfl
  | succ n ih =>
    intro head
    cases head with
    | none => rfl
    | some c =>
      simp only [walk, upto_tunnel]
      by_cases hc : c.tunnel = w.t.addr
      · rw [if_pos hc]
        have : next_of w1 others c = none := by
          simp [next_of, ha, hc, hz, channel_zero]
        rw [this, walk_none]
      · rw [if_neg hc]
        have : next_of w1 others c = next_of w others c := by
          simp [next_of, ha, hc]
        rw [this, ih]

theorem tunnel_release_active (w : World) :
    (tunnel_release w).ACTIVE_channel_t = w.ACTIVE_channel_t := by
  simp [tunnel_release, tunnel_init, channel_close, pipe_release_active]

theorem tunnel_abort_active (w : World) (m : abort_msg) :
    (tunnel_abort w m).ACTIVE_channel_t = w.ACTIVE_channel_t := by
  simp [tunnel_abort, tunnel_unref, proxy_resume, tunnel_release_active]

theorem deleted_skipped (w : World) (s : Side) (h : w.t.chan s = channel_zero) :
    channel_manage_events w s (w.chan s).events = some w := by
  unfold channel_manage_events
  simp [h, channel_zero]

/-- C18, counterexample. In `world_batch` the active list is front, back (both of the
tunnel) and the front channel of tunnel 2. `main_loop` takes the list and shifts the front
channel, whose event is an error: `channel_manage_events` aborts the tunnel. The pending
list `chans` was back, then the channel of tunnel 2; after the release it is the back
channel alone: `tunnel_init` has reset `back.next`, so the channel of tunnel 2 is dropped
and is on no list, while the back channel of the released tunnel is still on the pending
list, with all its flags (so `ACTIVE` too) cleared. -/
theorem active_list_counterexample :
    walk (next_of world_batch others_none) 3 world_batch.ACTIVE_channel_t
      = [⟨1, .front⟩, ⟨1, .back⟩, ⟨2, .front⟩]
    ∧ walk (next_of (main_loop_shift_channel (main_loop_take world_batch).1 .front).1
          others_none) 3 (main_loop_shift_channel (main_loop_take world_batch).1 .front).2
      = [⟨1, .back⟩, ⟨2, .front⟩]
    ∧ ∃ w1 chans,
        main_loop_channel_turn (main_loop_take world_batch).1 .front = some (w1, chans)
        ∧ w1.IDLE_tunnel_t = [1]
        ∧ chans = some ⟨1, .back⟩
        ∧ walk (next_of w1 others_none) 3 chans = [⟨1, .back⟩]
        ∧ walk (next_of w1 others_none) 3 w1.ACTIVE_channel_t = []
        ∧ w1.t.back.flags = 0 := by
  refine ⟨by decide, by decide, _, _, rfl, ?_, ?_, ?_, ?_, ?_⟩ <;> decide

/-- C18, amended. `tunnel_release`, also when reached through `tunnel_abort`, leaves
`ACTIVE_channel_t` and the `next` link of every channel of another tunnel as they were:
on a list walked from any head, the channels up to the first channel of the released
tunnel, included, are still reached, in the same order. The channels of the released
tunnel are not unlinked: they are reset by `tunnel_init` (status 0, no flag, no event) and
`channel_manage_events (chan, chan->events)` returns on them without any change. -/
theorem release_keeps_links (w : World) (others : chan_ptr → Option chan_ptr) (m : abort_msg)
    (n : Nat) (head : Option chan_ptr) :
    (tunnel_release w).ACTIVE_channel_t = w.ACTIVE_channel_t
    ∧ (tunnel_abort w m).ACTIVE_channel_t = w.ACTIVE_channel_t
    ∧ (∀ c : chan_ptr, c.tunnel ≠ w.t.addr →
        next_of (tunnel_release w) others c = next_of w others c
        ∧ next_of (tunnel_abort w m) others c = next_of w others c)
    ∧ upto_tunnel w.t.addr (walk (next_of w others) n head)
        <+: walk (next_of (tunnel_release w) others) n head
    ∧ upto_tunnel w.t.addr (walk (next_of w others) n head)
        <+: walk (next_of (tunnel_abort w m) others) n head
    ∧ (∀ s, (tunnel_release w).chan s = channel_zero
        ∧ channel_manage_events (tunnel_release w) s ((tunnel_release w).chan s).events
            = some (tunnel_release w))
    ∧ (∀ s, (tunnel_abort w m).chan s = channel_zero
        ∧ channel_manage_events (tunnel_abort w m) s ((tunnel_abort w m).chan s).events
            = some (tunnel_abort w m)) := by
  have ha1 := (tunnel_release_spec w).2.2.1
  have ha2 := (tunnel_abort_idle w m).2.1
  refine ⟨tunnel_release_active w, tunnel_abort_active w m, ?_, ?_, ?_, ?_, ?_⟩
  · intro c hc
    simp [next_of, ha1, ha2, hc]
  · rw [walk_released w (tunnel_release w) others ha1 (tunnel_release_chan w)]
  · rw [walk_released w (tunnel_abort w m) others ha2 (tunnel_abort_chan w m)]
  · intro s
    exact ⟨tunnel_release_chan w s, deleted_skipped _ s (tunnel_release_chan w s)⟩
  · intro s
    exact ⟨tunnel_abort_chan w m s, deleted_skipped _ s (tunnel_abort_chan w m s)⟩

/-- C18 amended, at `world_batch` once `main_loop` has shifted the front channel: the
pending list is the back channel, then the channel of tunnel 2; after `tunnel_abort` the
back channel is still reached from the head of the pending list. -/
theorem release_keeps_links_witness :
    upto_tunnel 1
        (walk (next_of (main_loop_shift_channel (main_loop_take world_batch).1 .front).1
          others_none) 3 (some ⟨1, .back⟩))
      = [⟨1, .back⟩]
    ∧ upto_tunnel (main_loop_shift_channel (main_loop_take world_batch).1 .front).1.t.addr
        (walk (next_of (main_loop_shift_channel (main_loop_take world_batch).1 .front).1
          others_none) 3 (some ⟨1, .back⟩))
      <+: walk (next_of
            (tunnel_abort (main_loop_shift_channel (main_loop_take world_batch).1 .front).1
              .channel_error) others_none) 3 (some ⟨1, .back⟩) :=
  ⟨by decide,
    (release_keeps_links (main_loop_shift_channel (main_loop_take world_batch).1 .front).1
      others_none .channel_error 3 (some ⟨1, .back⟩)).2.2.2.2.1⟩


/-! ## C1: the release of a pending pipe by channel_patch -/

theorem pipe_release_some (w : World) (p : pipe_t) :
    (pipe_release w (some p)).1.IDLE_pipe_t = released p :: w.IDLE_pipe_t
    ∧ (pipe_release w (some p)).1.trace = w.trace ++ release_calls p := by
  unfold pipe_release released release_calls
  by_cases h : p.load > 0
  · simp [h]
  · simp [h]

theorem channel_shut_grows (w : World) (s : Side) :
    (channel_shut w s).IDLE_pipe_t = w.IDLE_pipe_t
    ∧ ∃ l, (channel_shut w s).trace = w.trace ++ l := by
  unfold channel_shut
  cases h : (w.t.chan s).tosend with
  | none =>
    by_cases hb : bit (w.t.chan s).flags 0 = true
    · simp [hb, h]
    · simp [hb, h, pipe_release]
  | some p =>
    by_cases hb : bit (w.t.chan s).flags 0 = true
    · simp [hb, h]
    · simp [hb, h]

theorem channel_patch_release (w : World) (s : Side) :
    (channel_patch w s).IDLE_pipe_t = dropped_pipes (w.t.chan s) ++ w.IDLE_pipe_t
    ∧ ∃ l, (channel_patch w s).trace = w.trace ++ l ++ dropped_calls (w.t.chan s) := by
  unfold channel_patch dropped_pipes dropped_calls dropped
  by_cases hb : bit (w.t.chan s).flags 1 = true
  · obtain ⟨hi, l, hl⟩ := channel_shut_grows
      (w.set_chan s { w.chan s with events := (w.chan s).events &&& NOT32 EPOLLIN }) s.peer
    cases h : (w.t.chan s).tosend with
    | none =>
      simp [hb, h, channel_shut_peer2]
      exact ⟨by simpa [h] using hi, l, by simpa [h] using hl⟩
    | some p =>
      simp [hb, h, channel_shut_peer2, pipe_release_some]
      refine ⟨by simpa [h] using hi, l, ?_⟩
      simp [h] at hl
      rw [hl, List.append_assoc]
  · simp [hb]

theorem dropped_patch_peer (w : World) (s : Side) :
    dropped ((channel_patch w s).t.chan s.peer) = dropped (w.t.chan s.peer) := by
  rw [channel_patch_peer]
  unfold dropped
  split <;> simp

theorem channel_rearm_grows (w : World) (s : Side) (io : Nat) :
    (channel_rearm w s io).IDLE_pipe_t = w.IDLE_pipe_t
    ∧ ∃ l, (channel_rearm w s io).trace = w.trace ++ l := by
  refine ⟨by simp [channel_rearm], ?_⟩
  obtain ⟨l, hl, -⟩ := channel_rearm_emitted w s io
  exact ⟨l, hl⟩

theorem channel_update_listed_grows (w : World) (s : Side) :
    (channel_update_listed w s).IDLE_pipe_t = w.IDLE_pipe_t
    ∧ ∃ l, (channel_update_listed w s).trace = w.trace ++ l := by
  unfold channel_update_listed
  split
  · exact channel_rearm_grows _ _ _
  · split
    · exact ⟨rfl, [], by simp⟩
    · exact ⟨rfl, [], by simp⟩

theorem patched_release (w : World) (s : Side) :
    (patched w s).IDLE_pipe_t
      = dropped_pipes (w.t.chan s.peer) ++ (dropped_pipes (w.t.chan s) ++ w.IDLE_pipe_t)
    ∧ ∃ a b, (patched w s).trace
        = w.trace ++ a ++ dropped_calls (w.t.chan s) ++ b ++ dropped_calls (w.t.chan s.peer) := by
  obtain ⟨i1, a, t1⟩ := channel_patch_release w s
  obtain ⟨i2, b, t2⟩ := channel_patch_release (channel_patch w s) s.peer
  have hd := dropped_patch_peer w s
  unfold patched
  refine ⟨?_, a, b, ?_⟩
  · rw [i2, i1]
    unfold dropped_pipes
    rw [hd]
  · rw [t2, t1]
    unfold dropped_calls
    rw [hd]

theorem channel_update_release (w : World) (s : Side) (h : must_reclaim w s = false) :
    (channel_update w s).IDLE_pipe_t
      = dropped_pipes (w.t.chan s.peer) ++ (dropped_pipes (w.t.chan s) ++ w.IDLE_pipe_t)
    ∧ ∃ a b c, (channel_update w s).trace
        = w.trace ++ a ++ dropped_calls (w.t.chan s) ++ b ++ dropped_calls (w.t.chan s.peer)
            ++ c := by
  obtain ⟨hi, a, b, ht⟩ := patched_release w s
  rw [channel_update_alive_eq w s h]
  obtain ⟨i3, c3, t3⟩ := channel_update_listed_grows
    (if ((patched w s).chan s).events &&& BOTH ≠ 0 then
          { patched w s with ACTIVE_channel_t := some ((patched w s).ptr s) }.set_chan s
            { (patched w s).chan s with
                events := channel_events (patched w s) s,
                flags := SETACT ((patched w s).chan s).flags &&& NOT32 FLAG_ACTIVITY,
                next := (patched w s).ACTIVE_channel_t }
        else channel_rearm (patched w s) s (channel_events (patched w s) s)) s.peer
  rw [i3, t3]
  obtain ⟨i2, c2, t2⟩ := channel_rearm_grows (patched w s) s (channel_events (patched w s) s)
  split
  · refine ⟨by simpa using hi, a, b, c3, ?_⟩
    simp only [set_chan_def]
    rw [ht]
  · refine ⟨by rw [i2, hi], a, b, c2 ++ c3, ?_⟩
    rw [t2, ht]
    simp only [List.append_assoc]

/-- C1, amended. When `channel_update (c)` neither releases nor aborts the tunnel, a
pending pipe of a channel (c or its peer) that does not carry `SHUT_RECV` is still
installed on that channel, unchanged. The pending pipe of a channel that carries
`SHUT_RECV` is released by `channel_patch`: the slot is empty, `pipe_release` issued its
calls for the pipe (the two `close` when its load is `> 0`), and the pipe (emptied, with
descriptors -1, when its load was `> 0`) was pushed on the idle list. The idle list after
the call is the list before with the pipe released from c, then the one released from its
peer, pushed in front. -/
theorem tosend_kept (w : World) (s x : Side) (p : pipe_t)
    (halive : (channel_update w s).IDLE_tunnel_t = w.IDLE_tunnel_t)
    (hp : (w.chan x).tosend = some p) :
    ((w.chan x).flags &&& FLAG_SHUT_RECV = 0 → ((channel_update w s).chan x).tosend = some p)
    ∧ ((w.chan x).flags &&& FLAG_SHUT_RECV ≠ 0 →
        ((channel_update w s).chan x).tosend = none
        ∧ dropped_pipes (w.chan x) = [released p]
        ∧ released p ∈ (channel_update w s).IDLE_pipe_t
        ∧ (∃ pre post,
            (channel_update w s).trace = w.trace ++ pre ++ release_calls p ++ post)
        ∧ (0 < p.load →
            released p = { load := 0, fd0 := -1, fd1 := -1 }
            ∧ release_calls p = [.close p.fd0, .close p.fd1]))
    ∧ (channel_update w s).IDLE_pipe_t
        = dropped_pipes (w.chan s.peer) ++ (dropped_pipes (w.chan s) ++ w.IDLE_pipe_t) := by
  have hr := alive_not_reclaim w s halive
  have ht := (channel_update_alive w s hr).2.2.2.1 x
  obtain ⟨hidle, a, b, c, htr⟩ := channel_update_release w s hr
  simp only [chan_def] at hp ⊢
  rw [ht, patched_tosend]
  refine ⟨?_, ?_, hidle⟩
  · intro h
    rw [shut_recv_bit] at h
    simp [h, hp]
  · intro h
    have hd : dropped (w.t.chan x) = some p := by simp [dropped, h, hp]
    have hc : dropped_calls (w.t.chan x) = release_calls p := by simp [dropped_calls, hd]
    rw [Ne, shut_recv_bit] at h
    simp at h
    have hdp : dropped_pipes (w.t.chan x) = [released p] := by simp [dropped_pipes, hd]
    refine ⟨by simp [h], hdp, ?_, ?_, ?_⟩
    · rw [hidle]
      rcases side_cases s x with rfl | rfl
      · simp [hdp]
      · simp [hdp]
    · rcases side_cases s x with rfl | rfl
      · exact ⟨a, b ++ dropped_calls (w.t.chan x.peer) ++ c, by
          rw [htr, hc]; simp only [List.append_assoc]⟩
      · exact ⟨a ++ dropped_calls (w.t.chan s) ++ b, c, by
          rw [htr, hc]; simp only [List.append_assoc]⟩
    · intro hl
      simp [released, release_calls, hl]

/-- C1 amended, at two tunnels. In `world_pending` the back holds 5 bytes and has not seen
EOF while the front is serviced: the 5 bytes stay on the back channel. In `world_owed` the
front holds 5 bytes and has seen EOF while the back is serviced: the slot is emptied, the
descriptors 7 and 8 are closed and the emptied pipe is the idle list. -/
theorem tosend_kept_witness :
    ((channel_update world_pending .front).chan .back).tosend
      = some { load := 5, fd0 := 7, fd1 := 8 }
    ∧ ((channel_update world_owed .back).chan .front).tosend = none
    ∧ (∃ pre post, (channel_update world_owed .back).trace
        = world_owed.trace ++ pre ++ release_calls { load := 5, fd0 := 7, fd1 := 8 } ++ post)
    ∧ release_calls { load := 5, fd0 := 7, fd1 := 8 } = [.close 7, .close 8]
    ∧ (channel_update world_owed .back).IDLE_pipe_t = [{ load := 0, fd0 := -1, fd1 := -1 }] :=
  ⟨(tosend_kept world_pending .front .back { load := 5, fd0 := 7, fd1 := 8 }
      (by decide) (by decide)).1 (by decide),
    ((tosend_kept world_owed .back .front { load := 5, fd0 := 7, fd1 := 8 }
      (by decide) (by decide)).2.1 (by decide)).1,
    ((tosend_kept world_owed .back .front { load := 5, fd0 := 7, fd1 := 8 }
      (by decide) (by decide)).2.1 (by decide)).2.2.2.1,
    (((tosend_kept world_owed .back .front { load := 5, fd0 := 7, fd1 := 8 }
      (by decide) (by decide)).2.1 (by decide)).2.2.2.2 (by decide)).2,
    (tosend_kept world_owed .back .front { load := 5, fd0 := 7, fd1 := 8 }
      (by decide) (by decide)).2.2.trans (by decide)⟩


/-! ## C14: the exits of _pipe_resume, tied to the results of splice -/

theorem resume_calls_append (fd0 sock : Int) (oks : List splice_rc) (e : splice_rc) :
    ∀ load, resume_calls fd0 sock load (oks ++ [e])
      = resume_calls fd0 sock load oks ++ [.splice fd0 sock (load - taken oks) e.rc] := by
  induction oks with
  | nil => intro load; simp [resume_calls, taken]
  | cons r rs ih =>
    intro load
    have h := ih (load - r.rc)
    have ht : load - r.rc - taken rs = load - taken (r :: rs) := by
      simp [taken]
      omega
    rw [ht] at h
    show sys_call.splice fd0 sock load r.rc
        :: resume_calls fd0 sock (load - r.rc) (rs ++ [e]) = _
    rw [h]
    rfl

theorem moved_to_calls (fd0 sock : Int) (oks : List splice_rc) (h : ∀ r ∈ oks, 1 ≤ r.rc) :
    ∀ load, moved_to sock (resume_calls fd0 sock load oks) = taken oks := by
  induction oks with
  | nil => intro load; simp [resume_calls, taken, moved_to]
  | cons r rs ih =>
    intro load
    have h1 : 1 ≤ r.rc := h r (by simp)
    have h2 := ih (fun x hx => h x (by simp [hx])) (load - r.rc)
    simp only [moved_to, taken, resume_calls, List.map_cons, List.sum_cons] at h2 ⊢
    rw [h2]
    simp [bytes_to]
    omega

theorem moved_to_app (sock : Int) (l l2 : List sys_call) :
    moved_to sock (l ++ l2) = moved_to sock l + moved_to sock l2 := by
  simp [moved_to]

theorem closes_app (l l2 : List sys_call) : closes (l ++ l2) = closes l + closes l2 := by
  simp [closes, List.countP_append]

theorem closes_calls (fd0 sock : Int) (rs : List splice_rc) :
    ∀ load, closes (resume_calls fd0 sock load rs) = 0 := by
  induction rs with
  | nil => intro load; simp [resume_calls, closes]
  | cons r rs ih =>
    intro load
    have := ih (load - r.rc)
    simp [resume_calls, closes, List.countP_cons] at this ⊢
    exact this

theorem pipe_resume_loop_exits (s : Side) :
    ∀ (rs : List splice_rc) (w : World) (p : pipe_t),
      0 ≤ p.load → writes_ok rs p.load = true → p.load.toNat ≤ rs.length →
      ∃ w1 oks rest, _pipe_resume_loop s rs w p = some w1
        ∧ (∀ r ∈ oks, 1 ≤ r.rc) ∧ taken oks ≤ p.load
        ∧ w1.splices = rest
        ∧ ((taken oks = p.load ∧ rs = oks ++ rest
              ∧ w1.trace = w.trace ++ resume_calls p.fd0 (w.t.chan s).sock p.load oks
              ∧ w1.t.chan s = w.t.chan s
              ∧ w1.IDLE_pipe_t = { p with load := 0 } :: w.IDLE_pipe_t)
          ∨ (∃ e, rs = oks ++ e :: rest ∧ e.rc < 0 ∧ e.errno = EAGAIN ∧ taken oks < p.load
              ∧ w1.trace = w.trace ++ resume_calls p.fd0 (w.t.chan s).sock p.load (oks ++ [e])
              ∧ w1.t.chan s = { w.t.chan s with
                  events := (w.t.chan s).events &&& NOT32 EPOLLOUT,
                  tosend := some { p with load := p.load - taken oks } }
              ∧ w1.IDLE_pipe_t = w.IDLE_pipe_t)
          ∨ (∃ e, rs = oks ++ e :: rest ∧ e.rc < 0 ∧ e.errno ≠ EAGAIN ∧ taken oks < p.load
              ∧ w1.trace = w.trace ++ resume_calls p.fd0 (w.t.chan s).sock p.load (oks ++ [e])
                  ++ [.close p.fd0, .close p.fd1]
              ∧ w1.t.chan s = { w.t.chan s with
                  events := (w.t.chan s).events &&& NOT32 EPOLLOUT,
                  flags := (w.t.chan s).flags ||| FLAG_ERRONEOUS }
              ∧ w1.IDLE_pipe_t = { load := 0, fd0 := -1, fd1 := -1 } :: w.IDLE_pipe_t)) := by
  intro rs
  induction rs with
  | nil =>
    intro w p h0 _ hlen
    have hl : p.load = 0 := by simp at hlen; omega
    unfold _pipe_resume_loop
    rw [if_neg (by simpa using hl)]
    refine ⟨_, [], [], rfl, by simp, by simp [taken, hl], ?_, Or.inl ⟨by simp [taken, hl], rfl,
      ?_, ?_, ?_⟩⟩
    · simp [pipe_release, hl]
    · simp [pipe_release, hl, resume_calls]
    · simp [pipe_release, hl]
    · simp [pipe_release, hl, pipe_zero_load]
  | cons r rs ih =>
    intro w p h0 hok hlen
    unfold _pipe_resume_loop
    by_cases hl : p.load ≠ 0
    · rw [if_pos hl]
      have hpos : p.load > 0 := by omega
      by_cases hrc : r.rc < 0
      · simp only [hrc, if_true]
        by_cases hx : r.errno = EAGAIN
        · rw [if_pos hx]
          refine ⟨_, [], rs, rfl, by simp, by simp [taken]; omega, rfl,
            Or.inr (Or.inl ⟨r, rfl, hrc, hx, by simp [taken]; omega, ?_, ?_, ?_⟩)⟩
          · simp [resume_calls]
          · simp [taken]
          · simp
        · rw [if_neg hx]
          refine ⟨_, [], rs, rfl, by simp, by simp [taken]; omega, ?_,
            Or.inr (Or.inr ⟨r, rfl, hrc, hx, by simp [taken]; omega, ?_, ?_, ?_⟩)⟩
          · simp [pipe_release, hpos]
          · simp [pipe_release, hpos, resume_calls]
          · simp [pipe_release, hpos]
          · simp [pipe_release, hpos]
      · simp only [hrc, if_false]
        unfold writes_ok at hok
        have hok3 : 1 ≤ r.rc ∧ r.rc ≤ p.load ∧ writes_ok rs (p.load - r.rc) = true := by
          simp only [Bool.or_eq_true, Bool.and_eq_true, decide_eq_true_eq] at hok
          rcases hok with (h | h) | h
          · exact absurd h hl
          · exact absurd h hrc
          · exact ⟨h.1.1, h.1.2, h.2⟩
        obtain ⟨w1, oks, rest, he, hge, hle, hsp, hcase⟩ :=
          ih ({ w with splices := rs }.emit (.splice p.fd0 (w.chan s).sock p.load r.rc))
            { p with load := p.load - r.rc } (by simp; omega) hok3.2.2
            (by simp at hlen ⊢; omega)
        have htk : taken (r :: oks) = r.rc + taken oks := by simp [taken]
        refine ⟨w1, r :: oks, rest, he, ?_, by rw [htk]; simp at hle; omega, hsp, ?_⟩
        · intro x hx
          simp at hx
          rcases hx with rfl | hx
          · exact hok3.1
          · exact hge x hx
        · rcases hcase with ⟨h1, h2, h3, h4, h5⟩ | ⟨e, h1, h2, h3, h4, h5, h6, h7⟩
              | ⟨e, h1, h2, h3, h4, h5, h6, h7⟩
          · refine Or.inl ⟨by rw [htk]; simp at h1; omega, by simp [h2], ?_, by simpa using h4,
              by simpa using h5⟩
            simp at h3
            simp [h3, resume_calls]
          · refine Or.inr (Or.inl ⟨e, by simp [h1], h2, h3, by rw [htk]; simp at h4; omega, ?_, ?_,
              by simpa using h7⟩)
            · simp at h5
              simp [h5, resume_calls]
            · simp at h6
              rw [h6, htk]
              simp
              omega
          · refine Or.inr (Or.inr ⟨e, by simp [h1], h2, h3, by rw [htk]; simp at h4; omega, ?_,
              by simpa using h6, by simpa using h7⟩)
            simp at h5
            simp [h5, resume_calls]
    · rw [if_neg hl]
      have hl0 : p.load = 0 := by simpa using hl
      refine ⟨_, [], r :: rs, rfl, by simp, by simp [taken, hl0], ?_,
        Or.inl ⟨by simp [taken, hl0], rfl, ?_, ?_, ?_⟩⟩
      · simp [pipe_release, hl0]
      · simp [pipe_release, hl0, resume_calls]
      · simp [pipe_release, hl0]
      · simp [pipe_release, hl0, pipe_zero_load]

theorem moved_to_failed_call (fd0 sock : Int) (oks : List splice_rc) (e : splice_rc)
    (h : ∀ r ∈ oks, 1 ≤ r.rc) (he : e.rc < 0) (load : Int) :
    moved_to sock (resume_calls fd0 sock load (oks ++ [e])) = taken oks := by
  rw [resume_calls_append, moved_to_app, moved_to_calls fd0 sock oks h]
  have : ¬ (0 ≤ e.rc) := by omega
  simp [moved_to, bytes_to, this]

/-- C14. `_pipe_resume (dst)` called with a pipe `p` at `dst.tosend`, `0 ≤ p.load`, returns
for every sequence of pending `splice` results in which each successful move returns
between 1 and the load asked (`p.load` results are always enough). What it does is fixed
by the results: it reads the successful results `oks`, each call asking for what is left in
the pipe, and moves `taken oks` bytes to the socket. It ends (a) drained, when `oks` took the
whole load, the results after `oks` being left unread; (b) on the first negative result `e`
when `e.errno` is `EAGAIN`, with `p.load - taken oks > 0` bytes left in the same pipe; (c) on
the first negative result with another `errno`, the pipe released and its descriptors
closed. The three exits exclude each other. -/
theorem pipe_resume_terminates (w : World) (s : Side) (p : pipe_t)
    (hp : (w.chan s).tosend = some p) (h0 : 0 ≤ p.load)
    (hok : writes_ok w.splices p.load = true) (hlen : p.load.toNat ≤ w.splices.length) :
    ∃ w1 oks rest, _pipe_resume w s = some w1
      ∧ (∀ r ∈ oks, 1 ≤ r.rc) ∧ taken oks ≤ p.load
      ∧ w1.splices = rest
      ∧ moved_to (w.chan s).sock w1.trace = moved_to (w.chan s).sock w.trace + taken oks
      ∧ ((taken oks = p.load ∧ w.splices = oks ++ rest
            ∧ w1.trace = w.trace ++ resume_calls p.fd0 (w.chan s).sock p.load oks
            ∧ resume_drained w w1 s p)
        ∨ (∃ e, w.splices = oks ++ e :: rest ∧ e.rc < 0 ∧ e.errno = EAGAIN
            ∧ w1.trace = w.trace ++ resume_calls p.fd0 (w.chan s).sock p.load (oks ++ [e])
            ∧ resume_again w w1 s p (p.load - taken oks))
        ∨ (∃ e, w.splices = oks ++ e :: rest ∧ e.rc < 0 ∧ e.errno ≠ EAGAIN
            ∧ taken oks < p.load
            ∧ w1.trace = w.trace ++ resume_calls p.fd0 (w.chan s).sock p.load (oks ++ [e])
                ++ [.close p.fd0, .close p.fd1]
            ∧ resume_failed w w1 s))
      ∧ ¬ (resume_drained w w1 s p ∧ ∃ r, resume_again w w1 s p r)
      ∧ ¬ (resume_drained w w1 s p ∧ resume_failed w w1 s)
      ∧ ¬ ((∃ r, resume_again w w1 s p r) ∧ resume_failed w w1 s) := by
  obtain ⟨w1, oks, rest, he, hge, hle, hsp, hcase⟩ :=
    pipe_resume_loop_exits s w.splices (w.set_chan s { w.chan s with tosend := none }) p h0 hok
      hlen
  have hrun : _pipe_resume w s = some w1 := by
    unfold _pipe_resume
    simp only [hp]
    exact he
  simp only [chan_def] at hp
  have hcc := closes_calls p.fd0 (w.t.chan s).sock
  refine ⟨w1, oks, rest, hrun, hge, hle, hsp, ?_, ?_, ?_, ?_, ?_⟩
  · rcases hcase with ⟨h1, h2, h3, h4, h5⟩ | ⟨e, h1, h2, h3, h4, h5, h6, h7⟩
        | ⟨e, h1, h2, h3, h4, h5, h6, h7⟩
    · simp at h3
      simp only [chan_def, h3, moved_to_app, moved_to_calls _ _ oks hge]
    · simp at h5
      simp only [chan_def, h5, moved_to_app, moved_to_failed_call _ _ oks e hge h2]
    · simp at h5
      simp only [chan_def, h5, moved_to_app, moved_to_failed_call _ _ oks e hge h2]
      simp [moved_to, bytes_to]
  · rcases hcase with ⟨h1, h2, h3, h4, h5⟩ | ⟨e, h1, h2, h3, h4, h5, h6, h7⟩
        | ⟨e, h1, h2, h3, h4, h5, h6, h7⟩
    · simp at h3 h4 h5
      refine Or.inl ⟨h1, h2, by simpa using h3, ?_, h5, ?_, ?_⟩
      · simp [h4]
      · rw [h3, closes_app, hcc]
        rfl
      · simp [h4]
    · simp at h5 h6 h7
      refine Or.inr (Or.inl ⟨e, h1, h2, h3, by simpa using h5, by omega, ?_, ?_, ?_⟩)
      · simp [h6]
      · simp [h6]
      · simp [h6]
    · simp at h5 h6 h7
      refine Or.inr (Or.inr ⟨e, h1, h2, h3, h4, by simpa using h5, ?_, ?_, h7, ?_⟩)
      · simp [h6]
      · simp [h6]
      · rw [h5, closes_app, closes_app, hcc]
        simp [closes]
  · rintro ⟨ha, r, hb⟩
    have h1 := ha.1
    rw [hb.2.1] at h1
    cases h1
  · rintro ⟨ha, hc⟩
    have h1 := ha.2.2.1
    rw [hc.2.2.2] at h1
    omega
  · rintro ⟨⟨r, hb⟩, hc⟩
    have h1 := hc.2.1
    rw [hb.2.1] at h1
    cases h1

/-- C14, at `world_clog`: 3 bytes pending on the front channel, the socket takes 2 bytes and
then answers `EAGAIN`. `_pipe_resume` returns by exit (b): 2 bytes were moved by the two
calls of the trace, the same pipe is left at `front.tosend` with 1 byte, `EPOLLOUT` is
cleared and the third result is still pending. -/
theorem pipe_resume_terminates_witness :
    ∃ w1 moved, _pipe_resume world_clog .front = some w1
      ∧ moved = 2
      ∧ resume_again world_clog w1 .front { load := 3, fd0 := 7, fd1 := 8 } (3 - moved)
      ∧ moved_to 5 w1.trace = moved_to 5 world_clog.trace + moved
      ∧ w1.trace = [.splice 7 5 3 2, .splice 7 5 1 (-1)]
      ∧ w1.splices = [{ rc := 1, errno := 0 }] := by
  obtain ⟨w1, oks, rest, he, -, -, -, hmv, hcase, -⟩ :=
    pipe_resume_terminates world_clog .front { load := 3, fd0 := 7, fd1 := 8 } rfl
      (by decide) (by decide) (by decide)
  have hw := Option.some.inj (he.symm.trans (rfl : _pipe_resume world_clog .front = some _))
  subst hw
  rcases hcase with ⟨-, -, -, hd⟩ | ⟨e, -, -, -, -, hag⟩ | ⟨e, -, -, -, -, -, hf⟩
  · exact absurd hd.1 (by decide)
  · have h2 : taken oks = 2 := by
      have h := hag.2.1
      have hx := Option.some.inj (h.symm.trans rfl)
      have hl := congrArg pipe_t.load hx
      simp at hl
      omega
    refine ⟨_, taken oks, he, h2, hag, hmv, by decide, by decide⟩
  · exact absurd hf.2.1 (by decide)


/-! ## C4: the admission invariant along the main loop -/

theorem proxy_listed_ok_iff (w : World) :
    proxy_listed_ok w ↔ ((w.ACTIVE_proxy_t ≠ none ↔ bit w.proxy.flags 3 = true)
      ∧ w.proxy.next = none ∧ (bit w.proxy.flags 2 = true → bit w.proxy.flags 3 = false)) := by
  simp [proxy_listed_ok]

theorem tunnel_unref_active_proxy (w : World) :
    (tunnel_unref w).ACTIVE_proxy_t
      = if w.proxy.max = w.proxy.count then some () else w.ACTIVE_proxy_t := by
  unfold tunnel_unref
  simp only [tunnel_release_spec]
  split <;> simp [proxy_resume, tunnel_release_spec]

theorem tunnel_unref_listed (w : World) (ha : admission_ok w.proxy) (hl : proxy_listed_ok w) :
    proxy_listed_ok (tunnel_unref w) := by
  rw [admission_ok_iff] at ha
  rw [proxy_listed_ok_iff] at hl ⊢
  rw [tunnel_unref_active_proxy, tunnel_unref_proxy]
  by_cases h : w.proxy.max = w.proxy.count
  · obtain ⟨-, h2, h3⟩ := ha.2 h.symm
    have hn : w.ACTIVE_proxy_t = none := by
      by_contra hc
      have := hl.1.mp hc
      rw [h3] at this
      cases this
    simp [h, hn, h2]
  · simp [h]
    exact hl

theorem tunnel_abort_listed (w : World) (m : abort_msg) (ha : admission_ok w.proxy)
    (hl : proxy_listed_ok w) : proxy_listed_ok (tunnel_abort w m) := by
  unfold tunnel_abort
  exact tunnel_unref_listed _ (by simpa using ha) (by simpa [proxy_listed_ok] using hl)

theorem tunnel_register_active_proxy (w : World) :
    (tunnel_register w).ACTIVE_proxy_t = w.ACTIVE_proxy_t := by
  simp [tunnel_register, channel_rearm]

theorem tunnel_register_listed (w : World) (hl : proxy_listed_ok w) :
    proxy_listed_ok (tunnel_register w) := by
  unfold proxy_listed_ok at hl ⊢
  rw [tunnel_register_active_proxy, tunnel_register_proxy]
  exact hl

theorem proxy_connect_listed (w : World) (env : accept_env) (ha : admission_ok w.proxy)
    (hl : proxy_listed_ok w) : proxy_listed_ok (proxy_connect w env) := by
  have hl5 : ∀ e, proxy_listed_ok (w.emit e) := fun e => by simpa [proxy_listed_ok] using hl
  have hl6 : ∀ e c, proxy_listed_ok ((w.emit e).set_chan .back c) := fun e c => by
    simpa [proxy_listed_ok] using hl
  unfold proxy_connect
  simp only []
  split <;> [skip; split <;> [skip; split <;> [skip; split <;> [skip; split]]]]
  · exact tunnel_abort_listed _ _ ha hl
  · exact tunnel_abort_listed _ _ ha hl
  · exact tunnel_abort_listed _ _ (by simpa using ha) (hl5 _)
  · exact tunnel_abort_listed _ _ (by simpa using ha) (hl6 _ _)
  · exact tunnel_abort_listed _ _ (by simpa using ha) (hl6 _ _)
  · exact tunnel_register_listed _ (hl6 _ _)

theorem proxy_accept_listed (w : World) (fd : Int) (fresh : Nat)
    (hf : w.proxy.flags &&& FLAG_LISTED = 0) (hn : w.ACTIVE_proxy_t = none)
    (hx : w.proxy.next = none) : proxy_listed_ok (proxy_accept w fd fresh) := by
  rw [listed_bits] at hf
  rw [proxy_listed_ok_iff]
  have hp : (tunnel_reserve w fresh).proxy = w.proxy := by simp [tunnel_reserve, tunnel_init]
  have hq : (tunnel_reserve w fresh).ACTIVE_proxy_t = w.ACTIVE_proxy_t := by
    simp [tunnel_reserve, tunnel_init]
  unfold proxy_accept
  simp only []
  split
  · simp [proxy_pause, hp, hq, hf, hn, hx]
  · simp [proxy_resume, hp, hq, hf, hn]

theorem proxy_manage_event_listed (w : World) (env : accept_env)
    (ha : admission_ok w.proxy) (hmax : w.proxy.max < 4294967296)
    (hf : w.proxy.flags &&& FLAG_LISTED = 0) (hn : w.ACTIVE_proxy_t = none)
    (hx : w.proxy.next = none) : proxy_listed_ok (proxy_manage_event w env) := by
  unfold proxy_manage_event
  split
  · rw [proxy_listed_ok_iff]
    rw [listed_bits] at hf
    simp [hn, hx, hf]
  · rename_i hev
    split
    · rw [proxy_listed_ok_iff]
      rw [listed_bits] at hf
      simp [proxy_register, hn, hx, hf]
    · exact proxy_connect_listed _ env
        (proxy_accept_admission w env.accept_fd env.fresh ha hev hmax hf).1
        (proxy_accept_listed w env.accept_fd env.fresh hf hn hx)

theorem step_max (st : admission_step) (w : World) : (st.run w).proxy.max = w.proxy.max := by
  cases st with
  | turn env =>
    simp only [admission_step.run, main_loop_proxy_turn, proxy_manage_event_max]
    rfl
  | unref => exact tunnel_unref_max w
  | abort m => exact tunnel_abort_max w m
  | promote ev => rfl

theorem step_admission (st : admission_step) (w : World) (h : admission_ok w.proxy)
    (hl : proxy_listed_ok w) (hmax : w.proxy.max < 4294967296) (ha : st.allowed w) :
    admission_ok (st.run w).proxy ∧ proxy_listed_ok (st.run w) := by
  cases st with
  | turn env =>
    have hs : admission_ok (main_loop_shift_proxy (main_loop_take_proxies w).1).1.proxy := by
      rw [admission_ok_iff] at h ⊢
      simp only [main_loop_shift_proxy, main_loop_take_proxies]
      refine ⟨h.1, fun he => ?_⟩
      simp [(h.2 he).1]
    have hf : (main_loop_shift_proxy (main_loop_take_proxies w).1).1.proxy.flags
        &&& FLAG_LISTED = 0 := by
      simp [main_loop_shift_proxy, main_loop_take_proxies]
    exact ⟨proxy_manage_event_admission _ env hs hmax hf,
      proxy_manage_event_listed _ env hs hmax hf rfl rfl⟩
  | unref => exact ⟨tunnel_unref_admission w h ha, tunnel_unref_listed w h hl⟩
  | abort m => exact ⟨tunnel_abort_admission w m h ha, tunnel_abort_listed w m h hl⟩
  | promote ev =>
    rw [admission_ok_iff] at h
    rw [proxy_listed_ok_iff] at hl
    simp only [admission_step.allowed, Ne, monitored_bit, Bool.not_eq_false] at ha
    have h3 := hl.2.2 ha
    have hn : w.ACTIVE_proxy_t = none := by
      by_contra hc
      have := hl.1.mp hc
      rw [h3] at this
      cases this
    constructor
    · rw [admission_ok_iff]
      simp only [admission_step.run, promote_proxy]
      refine ⟨h.1, fun he => ?_⟩
      have := (h.2 he).2.1
      rw [ha] at this
      cases this
    · rw [proxy_listed_ok_iff]
      simp [admission_step.run, promote_proxy, hn]

theorem run_admission (steps : List admission_step) :
    ∀ w : World, admission_ok w.proxy → proxy_listed_ok w → w.proxy.max < 4294967296 →
      steps_allowed steps w →
      admission_ok (run_steps steps w).proxy ∧ proxy_listed_ok (run_steps steps w) := by
  induction steps with
  | nil => intro w h hl _ _; exact ⟨h, hl⟩
  | cons st rest ih =>
    intro w h hl hmax ha
    simp only [run_steps]
    simp only [steps_allowed] at ha
    obtain ⟨h1, h2⟩ := step_admission st w h hl hmax ha.1
    exact ih (st.run w) h1 h2 (by rw [step_max]; exact hmax) ha.2

theorem world_entry_ok (rlim_max : Nat) (sock_front nn_feed : Int)
    (hmax : 0 < (proxy_init rlim_max).max) :
    admission_ok (world_entry rlim_max sock_front nn_feed).proxy
    ∧ proxy_listed_ok (world_entry rlim_max sock_front nn_feed)
    ∧ (world_entry rlim_max sock_front nn_feed).proxy.max < 4294967296 := by
  refine ⟨?_, ?_, ?_⟩
  · rw [admission_ok_iff]
    simp only [world_entry, proxy_register, world_of, proxy_init] at hmax ⊢
    exact ⟨by omega, fun he => by omega⟩
  · rw [proxy_listed_ok_iff]
    simp [world_entry, proxy_register, world_of, proxy_init]
  · simp only [world_entry, proxy_register, world_of, proxy_init]
    exact Nat.mod_lt _ (by decide)

/-- C4. From `proxy_init` (where `pipes.count = 0` and the invariant holds) and the first
`proxy_register` of `main_loop`, with a limit that admits at least one tunnel, every
sequence of steps of the program keeps the admission invariant: `pipes.count ≤ pipes.max`,
and at `count == max` the listener is paused (`events == 0`, neither `MONITORED` nor
`ACTIVE`). The steps are the turns of the main loop over the active proxies (take the
list, shift the proxy, clear `LISTED`, `proxy_manage_event`, for any answer of `accept4`,
of the dispatcher, of the address parser, of `socket` and of `connect`), `tunnel_unref` and
`tunnel_abort` of a counted tunnel, and the promotion of the `MONITORED` proxy. The proxy
and `ACTIVE_proxy_t` stay in agreement, and at `count == max` the proxy is on no list
and `proxy_manage_event` changes nothing: no accept increments the count. -/
theorem admission_invariant (rlim_max : Nat) (sock_front nn_feed : Int)
    (steps : List admission_step) (hmax : 0 < (proxy_init rlim_max).max)
    (ha : steps_allowed steps (world_entry rlim_max sock_front nn_feed)) :
    admission_ok (proxy_init rlim_max)
    ∧ (proxy_init rlim_max).count = 0
    ∧ admission_ok (run_steps steps (world_entry rlim_max sock_front nn_feed)).proxy
    ∧ proxy_listed_ok (run_steps steps (world_entry rlim_max sock_front nn_feed))
    ∧ ((run_steps steps (world_entry rlim_max sock_front nn_feed)).proxy.count
          = (run_steps steps (world_entry rlim_max sock_front nn_feed)).proxy.max →
        (run_steps steps (world_entry rlim_max sock_front nn_feed)).ACTIVE_proxy_t = none
        ∧ ∀ env, proxy_manage_event (run_steps steps (world_entry rlim_max sock_front nn_feed))
            env = run_steps steps (world_entry rlim_max sock_front nn_feed)) := by
  obtain ⟨e1, e2, e3⟩ := world_entry_ok rlim_max sock_front nn_feed hmax
  obtain ⟨hrun, hlist⟩ := run_admission steps _ e1 e2 e3 ha
  refine ⟨?_, rfl, hrun, hlist, ?_⟩
  · rw [admission_ok_iff]
    simp [proxy_init, FLAG_MONITORED, FLAG_ACTIVE, bit]
  · intro he
    have hp := hrun.2 he
    constructor
    · by_contra hc
      exact (hlist.1.mp hc) hp.2.2
    · intro env
      unfold proxy_manage_event
      rw [if_pos hp.1]

/-- C4, on a run from the entry of the main loop with hard limit 4 (`pipes.max = 2`): the
listener is promoted with a read event and accepts a first client (count 1, resumed), then
a second one: `count == max == 2` and the listener is paused. A channel error aborts a
tunnel (count 1, the listener resumed on the active list), and the next turn accepts a
third client whose backend URL does not parse: the count is back to 1. -/
theorem admission_invariant_witness :
    (run_steps [.promote EPOLLIN, .turn (env_of [49] true), .turn (env_of [49] true)]
        (world_entry 4 3 4)).proxy.count = 2
    ∧ (run_steps [.promote EPOLLIN, .turn (env_of [49] true), .turn (env_of [49] true)]
        (world_entry 4 3 4)).proxy.max = 2
    ∧ admission_ok (run_steps
        [.promote EPOLLIN, .turn (env_of [49] true), .turn (env_of [49] true)]
        (world_entry 4 3 4)).proxy
    ∧ admission_ok (run_steps
        [.promote EPOLLIN, .turn (env_of [49] true), .turn (env_of [49] true),
          .abort .channel_error, .turn (env_of [49] false)]
        (world_entry 4 3 4)).proxy
    ∧ (run_steps
        [.promote EPOLLIN, .turn (env_of [49] true), .turn (env_of [49] true),
          .abort .channel_error, .turn (env_of [49] false)]
        (world_entry 4 3 4)).proxy.count = 1 :=
  ⟨by decide, by decide,
    (admission_invariant 4 3 4
      [.promote EPOLLIN, .turn (env_of [49] true), .turn (env_of [49] true)]
      (by decide)
      (by simp only [steps_allowed, admission_step.allowed, admission_step.run]; decide)).2.2.1,
    (admission_invariant 4 3 4
      [.promote EPOLLIN, .turn (env_of [49] true), .turn (env_of [49] true),
        .abort .channel_error, .turn (env_of [49] false)]
      (by decide)
      (by simp only [steps_allowed, admission_step.allowed, admission_step.run]; decide)).2.2.1,
    by decide⟩

end Lbtk
